import Mathlib

/-!
# Classroom renderer: the multi-light illumination model

A shallow embedding of the two GLSL programs built by `createPhongProgram` and
`createGouraudProgram` in `src/main.cpp`.

Conventions of the embedding.

* For the identities and the values of the illumination formulas a `float` is an element of
  an arbitrary linearly ordered field `α`; arithmetic is exact and decimal literals such as
  `0.09` denote the rational number they spell.
* Where a statement depends on rounding or overflow (the range and the monotonicity of the
  attenuation, the UV remap of the loader) a `float` is an IEEE 754 binary32, type `F32`, and
  the code concerned is transcribed once more over `F32`, under its name with the suffix
  `32`.
* The square root behind `length` and `normalize` is a parameter `sqrt : α → α`.  Nothing is
  assumed about it unless a theorem says so.
* `normalize v` is `v / length v`; the field convention `a / 0 = 0` gives a value where GLSL
  leaves the result undefined.
* `pow(x, 32.0)` is only ever applied to `x = max(_, 0.0)` and is modelled as `x ^ 32`.
* Uniform arrays `vec3 lightPos[NUM_LIGHTS]` have exactly six slots; reading slot `i` with
  `6 ≤ i` is undefined in GLSL and makes the embedded shader return `none`.
* The host code (`main`, `processInput`, `setTexture`, `drawScene`) is state passing over
  `AppState` together with the trace of OpenGL calls it issues; `runCalls` and `drawRecords`
  replay a trace on the uniform state of the programs.
* The loader (`loadOBJShape`, `loadOBJModels`) works on lists; a read of a `std::vector` out
  of bounds gives `none`, and `int` arithmetic wraps at 32 bits.
-/

namespace Classroom

/-! ## GLSL vectors -/

/-- GLSL `vec2`. -/
@[ext]
structure Vec2 (α : Type) where
  x : α
  y : α

/-- GLSL `vec3`. -/
@[ext]
structure Vec3 (α : Type) where
  x : α
  y : α
  z : α

/-- GLSL `vec4`. -/
@[ext]
structure Vec4 (α : Type) where
  x : α
  y : α
  z : α
  w : α

section Vectors

variable {α : Type} [LinearOrderedField α]

instance : Zero (Vec3 α) := ⟨⟨0, 0, 0⟩⟩

/-- Component-wise `a + b`. -/
instance : Add (Vec3 α) := ⟨fun a b => ⟨a.x + b.x, a.y + b.y, a.z + b.z⟩⟩

/-- Component-wise `a - b`. -/
instance : Sub (Vec3 α) := ⟨fun a b => ⟨a.x - b.x, a.y - b.y, a.z - b.z⟩⟩

/-- Component-wise `a * b` of two `vec3`. -/
instance : Mul (Vec3 α) := ⟨fun a b => ⟨a.x * b.x, a.y * b.y, a.z * b.z⟩⟩

/-- Component-wise `a * b` of two `vec2`. -/
instance : Mul (Vec2 α) := ⟨fun a b => ⟨a.x * b.x, a.y * b.y⟩⟩

/-- GLSL `vec3(s)`: the scalar in every component. -/
def Vec3.splat (s : α) : Vec3 α := ⟨s, s, s⟩

/-- GLSL `s * v` for a float `s` and a `vec3` `v`. -/
def Vec3.scale (s : α) (v : Vec3 α) : Vec3 α := ⟨s * v.x, s * v.y, s * v.z⟩

/-- GLSL `v * s` for a `vec3` `v` and a float `s`. -/
def Vec3.scaleR (v : Vec3 α) (s : α) : Vec3 α := ⟨v.x * s, v.y * s, v.z * s⟩

/-- GLSL `dot(a, b)`. -/
def dot (a b : Vec3 α) : α := a.x * b.x + a.y * b.y + a.z * b.z

/-- GLSL `length(v)`, over the supplied square root. -/
def length (sqrt : α → α) (v : Vec3 α) : α := sqrt (dot v v)

/-- GLSL `normalize(v)`: `v` divided by its length. -/
def normalize (sqrt : α → α) (v : Vec3 α) : Vec3 α :=
  ⟨v.x / length sqrt v, v.y / length sqrt v, v.z / length sqrt v⟩

/-- GLSL swizzle `.rgb`. -/
def Vec4.rgb (v : Vec4 α) : Vec3 α := ⟨v.x, v.y, v.z⟩

/-- GLSL `vec4(v, w)`. -/
def Vec4.ofVec3 (v : Vec3 α) (w : α) : Vec4 α := ⟨v.x, v.y, v.z, w⟩

/-- GLSL `vec3(v)` of a `vec4`: the first three components. -/
def Vec4.toVec3 (v : Vec4 α) : Vec3 α := ⟨v.x, v.y, v.z⟩

end Vectors

/-! ## Matrices -/

/-- GLSL `mat4`. -/
abbrev Mat4 (α : Type) := Matrix (Fin 4) (Fin 4) α

/-- GLSL `mat3`. -/
abbrev Mat3 (α : Type) := Matrix (Fin 3) (Fin 3) α

section Matrices

variable {α : Type} [LinearOrderedField α]

/-- GLSL `inverse(m)`: adjugate over determinant. -/
def inverse (m : Mat4 α) : Mat4 α := (m.det)⁻¹ • m.adjugate

/-- GLSL `transpose(m)`. -/
def transpose (m : Mat4 α) : Mat4 α := m.transpose

/-- GLSL `mat3(m)`: the upper-left 3×3 block of a `mat4`. -/
def mat3 (m : Mat4 α) : Mat3 α :=
  !![m 0 0, m 0 1, m 0 2; m 1 0, m 1 1, m 1 2; m 2 0, m 2 1, m 2 2]

/-- GLSL `m * v` for a `mat4` and a `vec4`. -/
def Mat4.mulVec4 (m : Mat4 α) (v : Vec4 α) : Vec4 α :=
  ⟨m 0 0 * v.x + m 0 1 * v.y + m 0 2 * v.z + m 0 3 * v.w,
   m 1 0 * v.x + m 1 1 * v.y + m 1 2 * v.z + m 1 3 * v.w,
   m 2 0 * v.x + m 2 1 * v.y + m 2 2 * v.z + m 2 3 * v.w,
   m 3 0 * v.x + m 3 1 * v.y + m 3 2 * v.z + m 3 3 * v.w⟩

/-- GLSL `m * v` for a `mat3` and a `vec3`. -/
def Mat3.mulVec3 (m : Mat3 α) (v : Vec3 α) : Vec3 α :=
  ⟨m 0 0 * v.x + m 0 1 * v.y + m 0 2 * v.z,
   m 1 0 * v.x + m 1 1 * v.y + m 1 2 * v.z,
   m 2 0 * v.x + m 2 1 * v.y + m 2 2 * v.z⟩

end Matrices

/-! ## Uniforms -/

/-- The shader constant `#define NUM_LIGHTS 6`. -/
def NUM_LIGHTS : Nat := 6

/-- The uniforms of one program object.  Both programs declare the same names; a uniform
declared in both stages of a program is one variable. -/
structure Uniforms (α : Type) where
  model : Mat4 α
  view : Mat4 α
  projection : Mat4 α
  uvScale : Vec2 α
  objectColor : Vec3 α
  viewPos : Vec3 α
  lightPos : Fin NUM_LIGHTS → Vec3 α
  lightColor : Fin NUM_LIGHTS → Vec3 α
  numLights : Int
  /-- The value of `texture(textureSampler, uv)` for the texture currently bound. -/
  textureSampler : Vec2 α → Vec4 α
  hasTexture : Bool

/-- Reading `a[i]` from a uniform array of `NUM_LIGHTS` slots; `none` past the end. -/
def readSlot {α : Type} (a : Fin NUM_LIGHTS → Vec3 α) (i : Nat) : Option (Vec3 α) :=
  if h : i < NUM_LIGHTS then some (a ⟨i, h⟩) else none

section Phong

variable {α : Type} [LinearOrderedField α]

/-! ## `createPhongProgram` -/

/-- Outputs of the Phong vertex shader. -/
structure PhongVaryings (α : Type) where
  gl_Position : Vec4 α
  FragPos : Vec3 α
  Normal : Vec3 α
  TexCoord : Vec2 α

/-- The vertex shader `main` of `createPhongProgram`. -/
def phongVertex (u : Uniforms α) (aPos aNormal : Vec3 α) (aTexCoord : Vec2 α) :
    PhongVaryings α :=
  { gl_Position := Mat4.mulVec4 (u.projection * u.view * u.model) (Vec4.ofVec3 aPos 1)
    FragPos := (Mat4.mulVec4 u.model (Vec4.ofVec3 aPos 1)).toVec3
    Normal := Mat3.mulVec3 (mat3 (transpose (inverse u.model))) aNormal
    TexCoord := aTexCoord * u.uvScale }

/-- The divisor `constant + linear * dist + quadratic * (dist * dist)` of the fragment
shader's attenuation. -/
def phongAttenuationDenominator (dist : α) : α :=
  let constant : α := 1
  let linear : α := 0.09
  let quadratic : α := 0.032
  constant + linear * dist + quadratic * (dist * dist)

/-- The local `attenuation` of the fragment shader's light loop. -/
def phongAttenuation (dist : α) : α := 1 / phongAttenuationDenominator dist

/-- The local `lightDir` of the fragment shader's light loop. -/
def phongLightDir (sqrt : α → α) (FragPos lightPos_i : Vec3 α) : Vec3 α :=
  let L := lightPos_i - FragPos
  normalize sqrt L

/-- The local `diff` of the fragment shader's light loop. -/
def phongDiff (sqrt : α → α) (FragPos norm lightPos_i : Vec3 α) : α :=
  max (dot norm (phongLightDir sqrt FragPos lightPos_i)) 0

/-- The local `diffuse` of the fragment shader's light loop. -/
def phongDiffuse (sqrt : α → α) (FragPos norm lightPos_i lightColor_i : Vec3 α) : Vec3 α :=
  Vec3.scale (phongDiff sqrt FragPos norm lightPos_i) lightColor_i

/-- The local `halfwayDir` of the fragment shader's light loop. -/
def phongHalfwayDir (sqrt : α → α) (FragPos viewDir lightPos_i : Vec3 α) : Vec3 α :=
  normalize sqrt (phongLightDir sqrt FragPos lightPos_i + viewDir)

/-- The local `spec` of the fragment shader's light loop. -/
def phongSpec (sqrt : α → α) (FragPos norm viewDir lightPos_i : Vec3 α) : α :=
  (max (dot norm (phongHalfwayDir sqrt FragPos viewDir lightPos_i)) 0) ^ 32

/-- The local `specular` of the fragment shader's light loop. -/
def phongSpecular (sqrt : α → α) (FragPos norm viewDir lightPos_i lightColor_i : Vec3 α) :
    Vec3 α :=
  let specularStrength : α := 0.6
  Vec3.scale (specularStrength * phongSpec sqrt FragPos norm viewDir lightPos_i) lightColor_i

/-- The local `lightContrib` of the fragment shader's light loop. -/
def phongLightContrib (sqrt : α → α) (FragPos norm viewDir lightPos_i lightColor_i : Vec3 α) :
    Vec3 α :=
  let L := lightPos_i - FragPos
  let dist := length sqrt L
  let attenuation := phongAttenuation dist
  let diffuse := phongDiffuse sqrt FragPos norm lightPos_i lightColor_i
  let specular := phongSpecular sqrt FragPos norm viewDir lightPos_i lightColor_i
  Vec3.scaleR (diffuse + specular) attenuation

/-- One pass through the body of `for (int i = 0; i < numLights; ++i)` in the fragment
shader: the new value of `result`. -/
def phongLoopBody (sqrt : α → α) (u : Uniforms α) (FragPos norm viewDir surfaceColor : Vec3 α)
    (result : Vec3 α) (i : Nat) : Option (Vec3 α) :=
  match readSlot u.lightPos i, readSlot u.lightColor i with
  | some lightPos_i, some lightColor_i =>
      some (result + phongLightContrib sqrt FragPos norm viewDir lightPos_i lightColor_i
        * surfaceColor)
  | _, _ => none

/-- The loop `for (int i = 0; i < numLights; ++i)` of the fragment shader. -/
def phongLoop (sqrt : α → α) (u : Uniforms α) (FragPos norm viewDir surfaceColor : Vec3 α)
    (result : Vec3 α) : Option (Vec3 α) :=
  (List.range u.numLights.toNat).foldlM
    (phongLoopBody sqrt u FragPos norm viewDir surfaceColor) result

/-- The fragment shader `main` of `createPhongProgram`: the value written to `FragColor`. -/
def phongFragment (sqrt : α → α) (u : Uniforms α) (FragPos Normal : Vec3 α)
    (TexCoord : Vec2 α) : Option (Vec4 α) :=
  let surfaceColor : Vec3 α :=
    if u.hasTexture then (u.textureSampler TexCoord).rgb else u.objectColor
  let ambient : Vec3 α := Vec3.splat 0.05
  let norm := normalize sqrt Normal
  let viewDir := normalize sqrt (u.viewPos - FragPos)
  let result := ambient * surfaceColor
  (phongLoop sqrt u FragPos norm viewDir surfaceColor result).map
    (fun result => Vec4.ofVec3 result 1)

end Phong

section Gouraud

variable {α : Type} [LinearOrderedField α]

/-! ## `createGouraudProgram` -/

/-- Outputs of the Gouraud vertex shader. -/
structure GouraudVaryings (α : Type) where
  gl_Position : Vec4 α
  litColor : Vec3 α
  TexCoord : Vec2 α

/-- The divisor `constant + linear * dist + quadratic * (dist * dist)` of the vertex
shader's attenuation. -/
def gouraudAttenuationDenominator (dist : α) : α :=
  let constant : α := 1
  let linear : α := 0.09
  let quadratic : α := 0.032
  constant + linear * dist + quadratic * (dist * dist)

/-- The local `attenuation` of the vertex shader's light loop. -/
def gouraudAttenuation (dist : α) : α := 1 / gouraudAttenuationDenominator dist

/-- The local `lightDir` of the vertex shader's light loop. -/
def gouraudLightDir (sqrt : α → α) (FragPos lightPos_i : Vec3 α) : Vec3 α :=
  let L := lightPos_i - FragPos
  normalize sqrt L

/-- The local `diff` of the vertex shader's light loop. -/
def gouraudDiff (sqrt : α → α) (FragPos norm lightPos_i : Vec3 α) : α :=
  max (dot norm (gouraudLightDir sqrt FragPos lightPos_i)) 0

/-- The local `diffuse` of the vertex shader's light loop. -/
def gouraudDiffuse (sqrt : α → α) (FragPos norm lightPos_i lightColor_i : Vec3 α) : Vec3 α :=
  Vec3.scale (gouraudDiff sqrt FragPos norm lightPos_i) lightColor_i

/-- The local `halfwayDir` of the vertex shader's light loop. -/
def gouraudHalfwayDir (sqrt : α → α) (FragPos viewDir lightPos_i : Vec3 α) : Vec3 α :=
  normalize sqrt (gouraudLightDir sqrt FragPos lightPos_i + viewDir)

/-- The local `spec` of the vertex shader's light loop. -/
def gouraudSpec (sqrt : α → α) (FragPos norm viewDir lightPos_i : Vec3 α) : α :=
  (max (dot norm (gouraudHalfwayDir sqrt FragPos viewDir lightPos_i)) 0) ^ 32

/-- The local `specular` of the vertex shader's light loop. -/
def gouraudSpecular (sqrt : α → α) (FragPos norm viewDir lightPos_i lightColor_i : Vec3 α) :
    Vec3 α :=
  let specularStrength : α := 0.6
  Vec3.scale (specularStrength * gouraudSpec sqrt FragPos norm viewDir lightPos_i) lightColor_i

/-- The local `lightContrib` of the vertex shader's light loop. -/
def gouraudLightContrib (sqrt : α → α)
    (FragPos norm viewDir lightPos_i lightColor_i : Vec3 α) : Vec3 α :=
  let L := lightPos_i - FragPos
  let dist := length sqrt L
  let attenuation := gouraudAttenuation dist
  let diffuse := gouraudDiffuse sqrt FragPos norm lightPos_i lightColor_i
  let specular := gouraudSpecular sqrt FragPos norm viewDir lightPos_i lightColor_i
  Vec3.scaleR (diffuse + specular) attenuation

/-- One pass through the body of `for (int i = 0; i < numLights; ++i)` in the vertex
shader: the new value of `result`. -/
def gouraudLoopBody (sqrt : α → α) (u : Uniforms α)
    (FragPos norm viewDir surfaceColor : Vec3 α) (result : Vec3 α) (i : Nat) :
    Option (Vec3 α) :=
  match readSlot u.lightPos i, readSlot u.lightColor i with
  | some lightPos_i, some lightColor_i =>
      some (result + gouraudLightContrib sqrt FragPos norm viewDir lightPos_i lightColor_i
        * surfaceColor)
  | _, _ => none

/-- The loop `for (int i = 0; i < numLights; ++i)` of the vertex shader. -/
def gouraudLoop (sqrt : α → α) (u : Uniforms α) (FragPos norm viewDir surfaceColor : Vec3 α)
    (result : Vec3 α) : Option (Vec3 α) :=
  (List.range u.numLights.toNat).foldlM
    (gouraudLoopBody sqrt u FragPos norm viewDir surfaceColor) result

/-- The vertex shader `main` of `createGouraudProgram`. -/
def gouraudVertex (sqrt : α → α) (u : Uniforms α) (aPos aNormal : Vec3 α)
    (aTexCoord : Vec2 α) : Option (GouraudVaryings α) :=
  let FragPos := (Mat4.mulVec4 u.model (Vec4.ofVec3 aPos 1)).toVec3
  let norm := normalize sqrt (Mat3.mulVec3 (mat3 (transpose (inverse u.model))) aNormal)
  let viewDir := normalize sqrt (u.viewPos - FragPos)
  let surfaceColor := u.objectColor
  let ambient : Vec3 α := Vec3.splat 0.05
  let result := ambient * surfaceColor
  (gouraudLoop sqrt u FragPos norm viewDir surfaceColor result).map
    (fun result =>
      { litColor := result
        TexCoord := aTexCoord * u.uvScale
        gl_Position :=
          Mat4.mulVec4 (u.projection * u.view * u.model) (Vec4.ofVec3 aPos 1) })

/-- The fragment shader `main` of `createGouraudProgram`: the value written to
`FragColor`. -/
def gouraudFragment (u : Uniforms α) (litColor : Vec3 α) (TexCoord : Vec2 α) : Vec4 α :=
  if u.hasTexture then
    let tex := (u.textureSampler TexCoord).rgb
    Vec4.ofVec3 (tex * litColor) 1
  else
    Vec4.ofVec3 (u.objectColor * litColor) 1

end Gouraud

section Pipeline

variable {α : Type} [LinearOrderedField α]

/-! ## The two programs at a mesh vertex

At a mesh vertex the rasterizer hands the fragment shader the outputs the vertex shader
wrote for that very vertex (the interpolation weights are 1, 0, 0). -/

/-- The colour the Phong program writes for the fragment at a mesh vertex. -/
def phongAtVertex (sqrt : α → α) (u : Uniforms α) (aPos aNormal : Vec3 α)
    (aTexCoord : Vec2 α) : Option (Vec4 α) :=
  let v := phongVertex u aPos aNormal aTexCoord
  phongFragment sqrt u v.FragPos v.Normal v.TexCoord

/-- The colour the Gouraud program writes for the fragment at a mesh vertex. -/
def gouraudAtVertex (sqrt : α → α) (u : Uniforms α) (aPos aNormal : Vec3 α)
    (aTexCoord : Vec2 α) : Option (Vec4 α) :=
  (gouraudVertex sqrt u aPos aNormal aTexCoord).map
    (fun v => gouraudFragment u v.litColor v.TexCoord)

end Pipeline

section Checked

variable {α : Type} [LinearOrderedField α]

/-! ## The lighting code with its divisions checked

The light loops of the two shaders once more, statement by statement, with every division
of the lighting code made explicit as a fallible step: the result is `none` as soon as a
`/` has a zero divisor or `normalize` is applied to a vector whose `length` is zero (the
division inside `normalize`).  The `inverse(model)` of the vertex stage is not part of the
lighting code and is left as it is. -/

end Checked

section Reference

variable {α : Type} [LinearOrderedField α]

/-! ## The reference model of the specification -/

/-- The contribution of one light in the reference model, in the words of the
specification: with `n = normalize(N)`, `d = |lightPos_i - P|`,
`L = normalize(lightPos_i - P)` and `H = normalize(L + normalize(V - P))` it is
`((max(dot(n,L),0) + 0.6*max(dot(n,H),0)^32) * lightColor_i * 1/(1 + 0.09*d + 0.032*d^2))
* surfaceColor`, component-wise. -/
def referenceLightTerm (sqrt : α → α) (P N V lightPos_i lightColor_i surfaceColor : Vec3 α) :
    Vec3 α :=
  let n := normalize sqrt N
  let d := length sqrt (lightPos_i - P)
  let L := normalize sqrt (lightPos_i - P)
  let H := normalize sqrt (L + normalize sqrt (V - P))
  let k : α := max (dot n L) 0 + 0.6 * (max (dot n H) 0) ^ 32
  let a : α := 1 / (1 + 0.09 * d + 0.032 * d ^ 2)
  ⟨(k * lightColor_i.x * a) * surfaceColor.x,
   (k * lightColor_i.y * a) * surfaceColor.y,
   (k * lightColor_i.z * a) * surfaceColor.z⟩

/-- The reference model of the specification:
`0.05*surfaceColor + sum over i < numLights of referenceLightTerm i`, component-wise. -/
def referenceColor (sqrt : α → α) (P N V surfaceColor : Vec3 α)
    (lightPos lightColor : Fin NUM_LIGHTS → Vec3 α) (numLights : Int) : Vec3 α :=
  ⟨0.05 * surfaceColor.x + ∑ i : Fin NUM_LIGHTS, (if ((i : Nat) : Int) < numLights then
      (referenceLightTerm sqrt P N V (lightPos i) (lightColor i) surfaceColor).x else 0),
   0.05 * surfaceColor.y + ∑ i : Fin NUM_LIGHTS, (if ((i : Nat) : Int) < numLights then
      (referenceLightTerm sqrt P N V (lightPos i) (lightColor i) surfaceColor).y else 0),
   0.05 * surfaceColor.z + ∑ i : Fin NUM_LIGHTS, (if ((i : Nat) : Int) < numLights then
      (referenceLightTerm sqrt P N V (lightPos i) (lightColor i) surfaceColor).z else 0)⟩

end Reference

section Scene

variable (α : Type) [LinearOrderedField α]

/-! ## Concrete inputs

The six ceiling bulbs and the start-up camera of `main`, used where a theorem is evaluated
on a concrete input. -/

/-- The six bulb positions that `main` uploads to `lightPos[0..5]`. -/
def sceneLightPos : Fin NUM_LIGHTS → Vec3 α :=
  ![⟨-8, 4.85, -6⟩, ⟨0, 4.85, -6⟩, ⟨8, 4.85, -6⟩, ⟨-8, 4.85, 6⟩, ⟨0, 4.85, 6⟩, ⟨8, 4.85, 6⟩]

/-- The bulb colour that `main` uploads to every `lightColor[i]`. -/
def sceneLightColor : Fin NUM_LIGHTS → Vec3 α := fun _ => ⟨1, 1, 0.95⟩

/-- A program state as `main` and `drawScene` leave it for an untextured wall: identity
model matrix, start-up camera position, wall colour, `numLights` as given. -/
def sceneUniforms (numLights : Int) : Uniforms α :=
  { model := 1
    view := 1
    projection := 1
    uvScale := ⟨6, 6⟩
    objectColor := Vec3.splat 0.95
    viewPos := ⟨0, 3, 8⟩
    lightPos := sceneLightPos α
    lightColor := sceneLightColor α
    numLights := numLights
    textureSampler := fun _ => ⟨1, 1, 1, 1⟩
    hasTexture := false }

/-- A program state with a single active light in slot 0, identity matrices and an
all-white texture; the other five slots hold the zero vector. -/
def oneLightUniforms (lightPos0 lightColor0 viewPos objectColor : Vec3 α)
    (hasTexture : Bool) : Uniforms α :=
  { model := 1
    view := 1
    projection := 1
    uvScale := ⟨1, 1⟩
    objectColor := objectColor
    viewPos := viewPos
    lightPos := fun i => if (i : Nat) = 0 then lightPos0 else 0
    lightColor := fun i => if (i : Nat) = 0 then lightColor0 else 0
    numLights := 1
    textureSampler := fun _ => ⟨1, 1, 1, 1⟩
    hasTexture := hasTexture }

end Scene

section LightSum

variable {α : Type} [LinearOrderedField α]

/-! ## Names for the quantities of the vertex stage -/


/-- The world-space position both vertex shaders compute: `vec3(model * vec4(aPos, 1.0))`. -/
def vertexWorldPos (u : Uniforms α) (aPos : Vec3 α) : Vec3 α :=
  (Mat4.mulVec4 u.model (Vec4.ofVec3 aPos 1)).toVec3

/-- The world-space normal both vertex shaders compute:
`mat3(transpose(inverse(model))) * aNormal`. -/
def vertexWorldNormal (u : Uniforms α) (aNormal : Vec3 α) : Vec3 α :=
  Mat3.mulVec3 (mat3 (transpose (inverse u.model))) aNormal

/-- The sum over the active light slots, `i < numLights`, of per-light contributions,
component-wise. -/
def activeLightSum (contrib : Fin NUM_LIGHTS → Vec3 α) (numLights : Int) : Vec3 α :=
  ⟨∑ i : Fin NUM_LIGHTS, (if ((i : Nat) : Int) < numLights then (contrib i).x else 0),
   ∑ i : Fin NUM_LIGHTS, (if ((i : Nat) : Int) < numLights then (contrib i).y else 0),
   ∑ i : Fin NUM_LIGHTS, (if ((i : Nat) : Int) < numLights then (contrib i).z else 0)⟩

end LightSum

section ScaledModel

variable (α : Type) [LinearOrderedField α]

/-- A model matrix of the kind `drawScene` builds: the non-uniform scale `(2, 3, 4)`
followed by the translation `(1, -2, 5)`. -/
def scaledModel : Mat4 α :=
  !![2, 0, 0, 1; 0, 3, 0, -2; 0, 0, 4, 5; 0, 0, 0, 1]

end ScaledModel

section Host

variable {α : Type} [LinearOrderedField α]


/-! ## The host program: `main`, the render loop and `drawScene`

Host `float`s are elements of the same field `α`.  A C++ `int` is 32 bits wide: `toInt32`
is the conversion of a `size_t` to `int`.  Reading `v[i]` past the end of a `std::vector`
is undefined in C++ and makes the embedded function return `none`.  What the program asks
of OpenGL is recorded as the list of calls it issues, in order; matrices built with `glm`
are recorded as the expressions that build them. -/

/-- The host constant `const int NUM_BULBS = 6`. -/
def NUM_BULBS : Int := 6

/-- Reduction of an integer to the range of `int`, 32-bit two's complement. -/
def wrapInt32 (x : Int) : Int := (x + 2 ^ 31) % 2 ^ 32 - 2 ^ 31

/-- The conversion `(int)n` of a `size_t`. -/
def toInt32 (n : Nat) : Int := wrapInt32 n

/-- The struct `Mesh`. -/
structure Mesh (α : Type) where
  VAO : Nat
  VBO : Nat
  EBO : Nat
  indexCount : Nat
  position : Vec3 α
  color : Vec3 α
  hasTexture : Bool
  textureID : Nat
  logicalName : String
  shapeName : String

/-- The keys polled with `glfwGetKey` in one iteration; `true` is `GLFW_PRESS`. -/
structure Keys where
  key1 : Bool
  key2 : Bool
  keyW : Bool
  keyS : Bool
  keyA : Bool
  keyD : Bool
  keySpace : Bool
  keyLeftControl : Bool
  keyEscape : Bool

/-- The globals of `main.cpp` and the locals of `main` that live across iterations of the
render loop, with the text written to `std::cout`. -/
structure AppState (α : Type) where
  cameraPos : Vec3 α
  cameraFront : Vec3 α
  cameraUp : Vec3 α
  yaw : α
  pitch : α
  fov : α
  deltaTime : α
  lastFrame : α
  sceneMeshes : List (Mesh α)
  roomVAO : Nat
  projectorVAO : Nat
  lightBoxVAO : Nat
  lightPos : Vec3 α
  bulbPositions : List (Vec3 α)
  bulbColors : List (Vec3 α)
  phongProgram : Nat
  gouraudProgram : Nat
  activeProgram : Nat
  lastActiveProgram : Nat
  ceilingTexture : Nat
  floorTexture : Nat
  windowShouldClose : Bool
  stdout : List String

/-- A `glm::mat4` as the expression that builds it. -/
inductive Mat4Expr (α : Type) where
  | identity : Mat4Expr α
  | translate (m : Mat4Expr α) (v : Vec3 α) : Mat4Expr α
  | scale (m : Mat4Expr α) (v : Vec3 α) : Mat4Expr α
  | rotate (m : Mat4Expr α) (angleDegrees : α) (axis : Vec3 α) : Mat4Expr α
  | perspective (fovDegrees aspect near far : α) : Mat4Expr α
  | lookAt (eye center up : Vec3 α) : Mat4Expr α

/-- The value passed to a `glUniform*` call. -/
inductive UniformValue (α : Type) where
  | int (v : Int) : UniformValue α
  | vec2 (x y : α) : UniformValue α
  | vec3 (v : Vec3 α) : UniformValue α
  | mat4 (m : Mat4Expr α) : UniformValue α

/-- The OpenGL and GLFW calls issued by the render loop.  `uniform p name v` is
`glUniform*(glGetUniformLocation(p, name), v)`. -/
inductive GLCall (α : Type) where
  | clearColor (r g b a : α) : GLCall α
  | clear : GLCall α
  | useProgram (program : Nat) : GLCall α
  | uniform (program : Nat) (name : String) (value : UniformValue α) : GLCall α
  | bindVertexArray (vao : Nat) : GLCall α
  | activeTexture0 : GLCall α
  | bindTexture (tex : Nat) : GLCall α
  | drawElements (count : Int) (byteOffset : Nat) : GLCall α
  | swapBuffers : GLCall α

/-- The function `glm::cross`. -/
def cross (a b : Vec3 α) : Vec3 α :=
  ⟨a.y * b.z - a.z * b.y, a.z * b.x - a.x * b.z, a.x * b.y - a.y * b.x⟩

/-- The function `processInput`. -/
def processInput (sqrt : α → α) (keys : Keys) (s : AppState α) : AppState α :=
  let cameraSpeed : α := 2.5 * s.deltaTime
  let s := if keys.keyW then
    { s with cameraPos := s.cameraPos + Vec3.scale cameraSpeed s.cameraFront } else s
  let s := if keys.keyS then
    { s with cameraPos := s.cameraPos - Vec3.scale cameraSpeed s.cameraFront } else s
  let s := if keys.keyA then
    { s with cameraPos := s.cameraPos -
        Vec3.scaleR (normalize sqrt (cross s.cameraFront s.cameraUp)) cameraSpeed } else s
  let s := if keys.keyD then
    { s with cameraPos := s.cameraPos +
        Vec3.scaleR (normalize sqrt (cross s.cameraFront s.cameraUp)) cameraSpeed } else s
  let s := if keys.keySpace then
    { s with cameraPos := ⟨s.cameraPos.x, s.cameraPos.y + cameraSpeed, s.cameraPos.z⟩ } else s
  let s := if keys.keyLeftControl then
    { s with cameraPos := ⟨s.cameraPos.x, s.cameraPos.y - cameraSpeed, s.cameraPos.z⟩ } else s
  if keys.keyEscape then { s with windowShouldClose := true } else s

/-- The shading toggle of the render loop with the print that follows it:
`if (key 1) activeProgram = phongProgram; if (key 2) activeProgram = gouraudProgram;`
then the mode line is printed and `lastActiveProgram` updated when the program changed. -/
def shadingToggle (keys : Keys) (s : AppState α) : AppState α :=
  let s := if keys.key1 then { s with activeProgram := s.phongProgram } else s
  let s := if keys.key2 then { s with activeProgram := s.gouraudProgram } else s
  if s.activeProgram ≠ s.lastActiveProgram then
    let s :=
      if s.activeProgram = s.phongProgram then
        { s with stdout := s.stdout ++ ["Shading mode: Phong (per-fragment)\n"] }
      else
        { s with stdout := s.stdout ++ ["Shading mode: Gouraud (per-vertex)\n"] }
    { s with lastActiveProgram := s.activeProgram }
  else s

/-- The lambda `setTexture` of `drawScene`. -/
def setTexture (shaderProgram : Nat) (enabled : Bool) (tex : Nat) (col : Vec3 α) :
    List (GLCall α) :=
  GLCall.uniform shaderProgram "hasTexture" (UniformValue.int (if enabled then 1 else 0)) ::
    (if enabled && tex != 0 then
      [GLCall.activeTexture0, GLCall.bindTexture tex]
    else
      [GLCall.uniform shaderProgram "objectColor" (UniformValue.vec3 col)])

/-- The light upload of the render loop: `numToSend = min((int)bulbPositions.size(),
NUM_BULBS)`. -/
def numToSend (bulbPositions : List (Vec3 α)) : Int :=
  min (toInt32 bulbPositions.length) NUM_BULBS

/-- The light upload of the render loop: one round of `for (int i = 0; i < numToSend; ++i)`,
reading `bulbPositions[i]` and `bulbColors[i]`. -/
def uploadLight (activeProgram : Nat) (bulbPositions bulbColors : List (Vec3 α)) (i : Nat) :
    Option (List (GLCall α)) :=
  match bulbPositions[i]?, bulbColors[i]? with
  | some p, some c =>
      some [GLCall.uniform activeProgram ("lightPos[" ++ toString i ++ "]")
              (UniformValue.vec3 p),
            GLCall.uniform activeProgram ("lightColor[" ++ toString i ++ "]")
              (UniformValue.vec3 c)]
  | _, _ => none

/-- The light upload of the render loop: the loop and the `numLights` upload after it. -/
def uploadLights (activeProgram : Nat) (bulbPositions bulbColors : List (Vec3 α)) :
    Option (List (GLCall α)) :=
  ((List.range (numToSend bulbPositions).toNat).mapM
    (uploadLight activeProgram bulbPositions bulbColors)).map
    (fun rounds => rounds.flatten ++
      [GLCall.uniform activeProgram "numLights"
        (UniformValue.int (numToSend bulbPositions))])

/-- The light-box loop of `drawScene`: one round, reading `bulbPositions[i]` and
`bulbColors[i]`. -/
def drawLightBox (shaderProgram : Nat) (bulbPositions bulbColors : List (Vec3 α)) (i : Nat) :
    Option (List (GLCall α)) :=
  match bulbPositions[i]?, bulbColors[i]? with
  | some bp, some col =>
      let scale : α := 0.18
      let modelLight := Mat4Expr.translate Mat4Expr.identity bp
      let modelLight := Mat4Expr.scale modelLight ⟨scale, scale * 0.4, scale⟩
      some ([GLCall.uniform shaderProgram "model" (UniformValue.mat4 modelLight)] ++
        setTexture shaderProgram false 0 col ++ [GLCall.drawElements 36 0])
  | _, _ => none

/-- The bench branch of the mesh loop of `drawScene`: the draws of column `c`. -/
def drawBenchColumn (shaderProgram : Nat) (mesh : Mesh α) (colX : α) (rows_here : Nat) :
    List (GLCall α) :=
  let d_room : α := 8
  let backZ : α := d_room - 1
  let rowSpacing : α := 2
  let benchScale : α := 0.35
  let y : α := 0.68
  (List.range rows_here).flatMap (fun r =>
    let z : α := backZ - (r : α) * rowSpacing
    let model := Mat4Expr.translate Mat4Expr.identity ⟨colX, y, z⟩
    let model := Mat4Expr.rotate (Mat4Expr.scale model (Vec3.splat benchScale)) 180 ⟨0, 1, 0⟩
    [GLCall.uniform shaderProgram "model" (UniformValue.mat4 model),
     GLCall.drawElements (toInt32 mesh.indexCount) 0])

/-- The body of the mesh loop of `drawScene` for one mesh. -/
def drawMesh (shaderProgram : Nat) (mesh : Mesh α) : List (GLCall α) :=
  if mesh.VAO = 0 ∨ mesh.indexCount = 0 then []
  else
    [GLCall.bindVertexArray mesh.VAO] ++
    (if mesh.logicalName = "bench" then
      let benchCenterSep : α := 3.5
      let outerGap : α := 1
      let mid_left : α := -benchCenterSep * 0.5
      let mid_right : α := benchCenterSep * 0.5
      let centerDistOuterToMiddle : α := benchCenterSep + outerGap
      setTexture shaderProgram mesh.hasTexture mesh.textureID mesh.color ++
        drawBenchColumn shaderProgram mesh (mid_left - centerDistOuterToMiddle) 5 ++
        drawBenchColumn shaderProgram mesh mid_left 5 ++
        drawBenchColumn shaderProgram mesh mid_right 6 ++
        drawBenchColumn shaderProgram mesh (mid_right + centerDistOuterToMiddle) 6
    else if mesh.logicalName = "greenboard" then
      let boardInset : α := 0.1
      let boardPos : Vec3 α := ⟨0, 2.5, -8 + boardInset⟩
      let boardScale : Vec3 α := ⟨0.6, 0.19, 0.6⟩
      let m := Mat4Expr.scale (Mat4Expr.translate Mat4Expr.identity boardPos) boardScale
      [GLCall.uniform shaderProgram "model" (UniformValue.mat4 m)] ++
        setTexture shaderProgram mesh.hasTexture mesh.textureID mesh.color ++
        [GLCall.drawElements (toInt32 mesh.indexCount) 0]
    else if mesh.logicalName = "podium" then
      let podiumInset : α := 2.5
      let podiumPos : Vec3 α := ⟨-5, 1.15, -(8 - podiumInset)⟩
      let podiumScale : α := 0.35
      let m := Mat4Expr.scale (Mat4Expr.translate Mat4Expr.identity podiumPos)
        (Vec3.splat podiumScale)
      [GLCall.uniform shaderProgram "model" (UniformValue.mat4 m)] ++
        setTexture shaderProgram mesh.hasTexture mesh.textureID mesh.color ++
        [GLCall.drawElements (toInt32 mesh.indexCount) 0]
    else
      [GLCall.uniform shaderProgram "model" (UniformValue.mat4 Mat4Expr.identity)] ++
        setTexture shaderProgram mesh.hasTexture mesh.textureID mesh.color ++
        [GLCall.drawElements (toInt32 mesh.indexCount) 0]) ++
    [GLCall.bindVertexArray 0]

/-- The function `drawScene`. -/
def drawScene (s : AppState α) (shaderProgram ceilingTex floorTex : Nat) :
    Option (List (GLCall α)) :=
  let room : List (GLCall α) :=
    [GLCall.bindVertexArray s.roomVAO,
     GLCall.uniform shaderProgram "model" (UniformValue.mat4 Mat4Expr.identity),
     GLCall.uniform shaderProgram "uvScale" (UniformValue.vec2 8 8)] ++
    setTexture shaderProgram true floorTex (Vec3.splat 1) ++
    [GLCall.drawElements 6 0,
     GLCall.uniform shaderProgram "uvScale" (UniformValue.vec2 6 6)] ++
    setTexture shaderProgram true ceilingTex (Vec3.splat 1) ++
    [GLCall.drawElements 6 24] ++
    setTexture shaderProgram false 0 (Vec3.splat 0.95) ++
    [GLCall.drawElements 12 48] ++
    setTexture shaderProgram false 0 (Vec3.splat 0.90) ++
    [GLCall.drawElements 12 96,
     GLCall.bindVertexArray 0]
  let meshes : List (GLCall α) := s.sceneMeshes.flatMap (drawMesh shaderProgram)
  let projector : List (GLCall α) :=
    [GLCall.bindVertexArray s.projectorVAO,
     GLCall.uniform shaderProgram "model" (UniformValue.mat4
       (Mat4Expr.scale (Mat4Expr.translate Mat4Expr.identity ⟨2, 2.8, -9.7⟩) ⟨1.8, 1.2, 1⟩))] ++
    setTexture shaderProgram false 0 ⟨0.92, 0.92, 0.88⟩ ++
    [GLCall.drawElements 6 0,
     GLCall.bindVertexArray 0]
  ((List.range (toInt32 s.bulbPositions.length).toNat).mapM
    (drawLightBox shaderProgram s.bulbPositions s.bulbColors)).map
    (fun boxes =>
      room ++ [GLCall.bindVertexArray s.lightBoxVAO] ++ boxes.flatten ++
        [GLCall.bindVertexArray 0] ++ meshes ++ projector)

/-- The render loop from `glClearColor` to `glfwSwapBuffers`, as a function of the value
of the local `activeProgram`.  `getUniformLocation` is the answer of the OpenGL
implementation to `glGetUniformLocation`, used by the legacy single-light upload. -/
def frameCalls (getUniformLocation : Nat → String → Int) (activeProgram : Nat)
    (s : AppState α) : Option (List (GLCall α)) := do
  let lights ← uploadLights activeProgram s.bulbPositions s.bulbColors
  let locLegacyLight := getUniformLocation activeProgram "lightColor"
  let legacy : List (GLCall α) :=
    if locLegacyLight ≠ -1 then
      [GLCall.uniform activeProgram "lightColor" (UniformValue.vec3 ⟨1, 1, 1⟩)]
    else []
  let projection : Mat4Expr α := Mat4Expr.perspective s.fov (1280 / 720) 0.1 100
  let view : Mat4Expr α := Mat4Expr.lookAt s.cameraPos (s.cameraPos + s.cameraFront) s.cameraUp
  let scene ← drawScene s activeProgram s.ceilingTexture s.floorTexture
  pure ([GLCall.clearColor 0.1 0.1 0.1 1,
         GLCall.clear,
         GLCall.useProgram activeProgram,
         GLCall.uniform activeProgram "viewPos" (UniformValue.vec3 s.cameraPos),
         GLCall.uniform activeProgram "textureSampler" (UniformValue.int 0)] ++
        lights ++ legacy ++
        [GLCall.uniform activeProgram "projection" (UniformValue.mat4 projection),
         GLCall.uniform activeProgram "view" (UniformValue.mat4 view)] ++
        scene ++ [GLCall.swapBuffers])

/-- The render loop from `glClearColor` to `glfwSwapBuffers` in state `s`. -/
def renderFrame (getUniformLocation : Nat → String → Int) (s : AppState α) :
    Option (List (GLCall α)) :=
  frameCalls getUniformLocation s.activeProgram s

/-- One iteration of the render loop, from the time update to `glfwSwapBuffers`: the state
it leaves and the calls it issues.  The callbacks run by `glfwPollEvents` are input from
outside and happen between iterations. -/
def mainLoopIteration (sqrt : α → α) (getUniformLocation : Nat → String → Int)
    (keys : Keys) (currentFrame : α) (s : AppState α) :
    Option (AppState α × List (GLCall α)) :=
  let s := { s with deltaTime := currentFrame - s.lastFrame, lastFrame := currentFrame }
  let s := processInput sqrt keys s
  let s := shadingToggle keys s
  (renderFrame getUniformLocation s).map (fun calls => (s, calls))

/-- The member `std::vector::resize(n)` for a vector of `vec3`. -/
def resize (n : Nat) (l : List (Vec3 α)) : List (Vec3 α) :=
  l.take n ++ List.replicate (n - l.length) 0

/-- The bulb setup of `main`: the lists `bulbPositions` and `bulbColors` it leaves. -/
def bulbSetup (α : Type) [LinearOrderedField α] : List (Vec3 α) × List (Vec3 α) :=
  let roomHalfWidth : α := 10
  let roomHalfDepth : α := 8
  let roomHeight : α := 5
  let ceilingInset : α := 0.15
  let bulbY : α := roomHeight - ceilingInset
  let rows : Nat := 2
  let cols : Nat := 3
  let insetFromWallX : α := 2
  let insetFromWallZ : α := 2
  let leftX : α := -roomHalfWidth + insetFromWallX
  let rightX : α := roomHalfWidth - insetFromWallX
  let frontZ : α := -roomHalfDepth + insetFromWallZ
  let backZ : α := roomHalfDepth - insetFromWallZ
  let stepX : α := if cols > 1 then (rightX - leftX) / ((cols - 1 : Nat) : α) else 0
  let stepZ : α := if rows > 1 then (backZ - frontZ) / ((rows - 1 : Nat) : α) else 0
  let cells : List (Nat × Nat) :=
    (List.range rows).flatMap (fun r => (List.range cols).map (fun c => (r, c)))
  let bulbPositions : List (Vec3 α) :=
    cells.map (fun rc => ⟨leftX + (rc.2 : α) * stepX, bulbY, frontZ + (rc.1 : α) * stepZ⟩)
  let bulbColors : List (Vec3 α) := cells.map (fun _ => ⟨1, 1, 0.95⟩)
  if toInt32 bulbPositions.length > NUM_BULBS then
    (resize NUM_BULBS.toNat bulbPositions, resize NUM_BULBS.toNat bulbColors)
  else (bulbPositions, bulbColors)

/-- The test `low.find(pat) != std::string::npos` on the lower-cased name. -/
def lowerContains (name pat : String) : Bool :=
  decide (List.IsInfix pat.toList (name.map Char.toLower).toList)

/-- The state in which `main` enters the render loop.  The program, texture and vertex-array
names come from OpenGL and the three mesh lists from `loadOBJModels`. -/
def mainSetup (phongProgram gouraudProgram ceilingTexture floorTexture roomVAO projectorVAO
    lightBoxVAO : Nat) (podiums gbs benches : List (Mesh α)) : AppState α :=
  let bulbs : List (Vec3 α) × List (Vec3 α) := bulbSetup α
  let podiums := podiums.map (fun m =>
    if !m.hasTexture then { m with color := ⟨0.82, 0.71, 0.55⟩ } else m)
  let gbs := gbs.map (fun m =>
    { m with color :=
        if lowerContains m.shapeName "green" then ⟨0, 0.4, 0⟩ else ⟨0.78, 0.78, 0.78⟩ })
  let benches := benches.map (fun m =>
    if !m.hasTexture then { m with color := ⟨0.48, 0.50, 0.53⟩ } else m)
  let sceneMeshes := podiums ++ gbs ++ benches
  { cameraPos := ⟨0, 3, 8⟩
    cameraFront := ⟨0, 0, -1⟩
    cameraUp := ⟨0, 1, 0⟩
    yaw := -90
    pitch := -15
    fov := 45
    deltaTime := 0
    lastFrame := 0
    sceneMeshes := sceneMeshes
    roomVAO := roomVAO
    projectorVAO := projectorVAO
    lightBoxVAO := lightBoxVAO
    lightPos := match bulbs.1 with
      | [] => ⟨0, 2.5, 0⟩
      | p :: _ => p
    bulbPositions := bulbs.1
    bulbColors := bulbs.2
    phongProgram := phongProgram
    gouraudProgram := gouraudProgram
    activeProgram := gouraudProgram
    lastActiveProgram := gouraudProgram
    ceilingTexture := ceilingTexture
    floorTexture := floorTexture
    windowShouldClose := false
    stdout := ["Loading models...\n",
      "Loaded meshes: " ++ toString sceneMeshes.length ++ "\n"] }

/-- The program a call names in `glGetUniformLocation`, if it names one. -/
def GLCall.lookupProgram : GLCall α → Option Nat
  | GLCall.uniform p _ _ => some p
  | _ => none

/-- Whether a call is `glUseProgram`. -/
def GLCall.isUseProgram : GLCall α → Bool
  | GLCall.useProgram _ => true
  | _ => false

/-- Whether a call acts on the program in use: a uniform upload or a draw call. -/
def GLCall.needsProgram : GLCall α → Bool
  | GLCall.uniform _ _ _ => true
  | GLCall.drawElements _ _ => true
  | _ => false

/-- The calls of a list, each with the program in use when it takes effect; `cur` is the
program in use before the first call. -/
def programInUse (cur : Option Nat) : List (GLCall α) → List (GLCall α × Option Nat)
  | [] => []
  | GLCall.useProgram p :: cs => (GLCall.useProgram p, some p) :: programInUse (some p) cs
  | c :: cs => (c, cur) :: programInUse cur cs

/-- A call that is not `glUseProgram` and names, if any, the program `p`. -/
def GLCall.staysOn (p : Nat) (c : GLCall α) : Prop :=
  c.isUseProgram = false ∧ ∀ q, c.lookupProgram = some q → q = p

/-- The two uploads of round `i` of the light loop. -/
def lightUploads (activeProgram : Nat) (bulbPositions bulbColors : List (Vec3 α)) (i : Nat) :
    List (GLCall α) :=
  [GLCall.uniform activeProgram ("lightPos[" ++ toString i ++ "]")
     (UniformValue.vec3 (bulbPositions.getD i 0)),
   GLCall.uniform activeProgram ("lightColor[" ++ toString i ++ "]")
     (UniformValue.vec3 (bulbColors.getD i 0))]

/-- The calls of round `i` of the light-box loop. -/
def lightBoxCalls (shaderProgram : Nat) (bulbPositions bulbColors : List (Vec3 α)) (i : Nat) :
    List (GLCall α) :=
  [GLCall.uniform shaderProgram "model" (UniformValue.mat4
    (Mat4Expr.scale (Mat4Expr.translate Mat4Expr.identity (bulbPositions.getD i 0))
      ⟨0.18, 0.18 * 0.4, 0.18⟩))] ++
    setTexture shaderProgram false 0 (bulbColors.getD i 0) ++ [GLCall.drawElements 36 0]

end Host

section Loader

variable {α : Type} [LinearOrderedField α]


/-! ## `loadOBJShape`: the interleave loop

`int` arithmetic is 32-bit two's-complement: signed overflow, undefined in C++, wraps as it
does on the usual targets.  A conversion `(size_t)e` and the use of an `int` as a vector
index reduce modulo `2^64`. -/

/-- The struct `tinyobj::index_t`. -/
structure index_t where
  vertex_index : Int
  normal_index : Int
  texcoord_index : Int

/-- The arrays of `tinyobj::attrib_t` that `loadOBJShape` reads. -/
structure attrib_t (α : Type) where
  vertices : List α
  normals : List α
  texcoords : List α

/-- The `int` expression `k * index + j`. -/
def intMulAdd (k index j : Int) : Int := wrapInt32 (wrapInt32 (k * index) + j)

/-- The conversion `(size_t)e` of an `int`. -/
def toSizeT (e : Int) : Nat := (e % 2 ^ 64).toNat

/-- The read `v[k * index + j]` of a `std::vector<float>`; `none` when out of bounds. -/
def readAt (v : List α) (k index j : Int) : Option α :=
  v[toSizeT (intMulAdd k index j)]?

/-- The position block of the interleave loop: the three floats pushed for one index. -/
def emitPosition (attrib : attrib_t α) (idx : index_t) : Option (List α) :=
  if idx.vertex_index ≥ 0 ∧ toSizeT (intMulAdd 3 idx.vertex_index 2) < attrib.vertices.length
  then
    match readAt attrib.vertices 3 idx.vertex_index 0, readAt attrib.vertices 3 idx.vertex_index 1,
      readAt attrib.vertices 3 idx.vertex_index 2 with
    | some a, some b, some c => some [a, b, c]
    | _, _, _ => none
  else some [0, 0, 0]

/-- The normal block of the interleave loop: the three floats pushed for one index. -/
def emitNormal (attrib : attrib_t α) (idx : index_t) : Option (List α) :=
  if idx.normal_index ≥ 0 ∧ toSizeT (intMulAdd 3 idx.normal_index 2) < attrib.normals.length
  then
    match readAt attrib.normals 3 idx.normal_index 0, readAt attrib.normals 3 idx.normal_index 1,
      readAt attrib.normals 3 idx.normal_index 2 with
    | some a, some b, some c => some [a, b, c]
    | _, _, _ => none
  else some [0, 1, 0]

/-- The texcoord block of the interleave loop: the two floats pushed for one index. -/
def emitTexcoord (attrib : attrib_t α) (idx : index_t) : Option (List α) :=
  if idx.texcoord_index ≥ 0 ∧
    toSizeT (intMulAdd 2 idx.texcoord_index 1) < attrib.texcoords.length
  then
    match readAt attrib.texcoords 2 idx.texcoord_index 0,
      readAt attrib.texcoords 2 idx.texcoord_index 1 with
    | some a, some b => some [a, b]
    | _, _ => none
  else some [0, 0]

/-- The body of the interleave loop: the eight floats pushed for one index. -/
def emitVertex (attrib : attrib_t α) (idx : index_t) : Option (List α) :=
  match emitPosition attrib idx, emitNormal attrib idx, emitTexcoord attrib idx with
  | some p, some n, some t => some (p ++ n ++ t)
  | _, _, _ => none

/-- The interleave loop of `loadOBJShape`: the buffers `vertices` and `indices` it
builds; `(unsigned int)indices.size()` reduces modulo `2^32`. -/
def interleave (attrib : attrib_t α) (indices : List index_t) :
    Option (List α × List Nat) :=
  indices.foldlM
    (fun (acc : List α × List Nat) idx =>
      (emitVertex attrib idx).map (fun v => (acc.1 ++ v, acc.2 ++ [acc.2.length % 2 ^ 32])))
    ([], [])

end Loader

section Room

variable {α : Type} [LinearOrderedField α]

/-! ## The room box -/

/-- Strictly inside the room box `[-10, 10] x [0, 5] x [-8, 8]` of `setupGeometry`. -/
def insideRoom (p : Vec3 α) : Prop :=
  -10 < p.x ∧ p.x < 10 ∧ 0 < p.y ∧ p.y < 5 ∧ -8 < p.z ∧ p.z < 8

end Room

section GLReplay

variable {α : Type}

/-! ## The OpenGL state a trace of calls acts on

Uniform values belong to a program object and stay until they are written again; a uniform
that was never written reads `none`, its initial value.  `glUniform*` writes into the program
in use; the traces of the render loop name the program in use in every upload. -/

/-- The part of the OpenGL state the draw calls of the render loop depend on. -/
structure GLState (α : Type) where
  currentProgram : Option Nat
  uniforms : Nat → String → Option (UniformValue α)
  boundTexture : Nat

/-- The write of one uniform of program `p`. -/
def GLState.setUniform (σ : GLState α) (p : Nat) (name : String) (v : UniformValue α) :
    GLState α :=
  { σ with uniforms := fun q n => if q = p ∧ n = name then some v else σ.uniforms q n }

/-- The value of a uniform of the program in use. -/
def GLState.current (σ : GLState α) (name : String) : Option (UniformValue α) :=
  σ.currentProgram.bind (fun p => σ.uniforms p name)

/-- The effect of one call on the state. -/
def runCall (σ : GLState α) : GLCall α → GLState α
  | GLCall.useProgram p => { σ with currentProgram := some p }
  | GLCall.uniform p name v =>
      if σ.currentProgram = some p then σ.setUniform p name v else σ
  | GLCall.bindTexture t => { σ with boundTexture := t }
  | _ => σ

/-- The effect of a list of calls on the state. -/
def runCalls (σ : GLState α) (calls : List (GLCall α)) : GLState α :=
  calls.foldl runCall σ

/-- What one `glDrawElements` is issued with: its arguments, the program in use, the uniforms
`hasTexture`, `objectColor` and `uvScale` of that program and the texture bound. -/
structure DrawRecord (α : Type) where
  count : Int
  byteOffset : Nat
  program : Option Nat
  hasTexture : Option (UniformValue α)
  objectColor : Option (UniformValue α)
  uvScale : Option (UniformValue α)
  texture : Nat

/-- The record of a draw call issued in state `σ`. -/
def GLState.record (σ : GLState α) (count : Int) (byteOffset : Nat) : DrawRecord α :=
  { count := count
    byteOffset := byteOffset
    program := σ.currentProgram
    hasTexture := σ.current "hasTexture"
    objectColor := σ.current "objectColor"
    uvScale := σ.current "uvScale"
    texture := σ.boundTexture }

/-- The draw calls of a trace, in order, each with the state it is issued in. -/
def drawRecords (σ : GLState α) : List (GLCall α) → List (DrawRecord α)
  | [] => []
  | GLCall.drawElements count byteOffset :: cs =>
      σ.record count byteOffset :: drawRecords σ cs
  | c :: cs => drawRecords (runCall σ c) cs

/-- The values written to the uniform `name` by a trace, in order. -/
def uniformWrites (name : String) (calls : List (GLCall α)) : List (UniformValue α) :=
  calls.filterMap (fun c =>
    match c with
    | GLCall.uniform _ n v => if n = name then some v else none
    | _ => none)

/-- A call that does not write the uniform `name`. -/
def GLCall.leaves (name : String) : GLCall α → Prop
  | GLCall.uniform _ n _ => n ≠ name
  | _ => True

/-- A call that neither changes the program in use nor writes the uniform `name`. -/
def GLCall.keeps (name : String) (c : GLCall α) : Prop :=
  c.isUseProgram = false ∧ c.leaves name

/-- Whether a call is `glDrawElements`. -/
def GLCall.isDraw : GLCall α → Bool
  | GLCall.drawElements _ _ => true
  | _ => false

end GLReplay

section SceneParts

variable {α : Type} [LinearOrderedField α]

/-! ## The trace of `drawScene` in three parts -/

/-- The calls of `drawScene` from its start to the ceiling draw. -/
def floorCeilingCalls (s : AppState α) (shaderProgram ceilingTex floorTex : Nat) :
    List (GLCall α) :=
  [GLCall.bindVertexArray s.roomVAO,
   GLCall.uniform shaderProgram "model" (UniformValue.mat4 Mat4Expr.identity),
   GLCall.uniform shaderProgram "uvScale" (UniformValue.vec2 8 8)] ++
  setTexture shaderProgram true floorTex (Vec3.splat 1) ++
  [GLCall.drawElements 6 0,
   GLCall.uniform shaderProgram "uvScale" (UniformValue.vec2 6 6)] ++
  setTexture shaderProgram true ceilingTex (Vec3.splat 1) ++
  [GLCall.drawElements 6 24]

/-- The calls of `drawScene` after the ceiling draw up to the model upload of the projector
sheet: walls, light boxes and scene meshes. -/
def wallsToMeshesCalls (s : AppState α) (shaderProgram : Nat) : List (GLCall α) :=
  setTexture shaderProgram false 0 (Vec3.splat 0.95) ++
  [GLCall.drawElements 12 48] ++
  setTexture shaderProgram false 0 (Vec3.splat 0.90) ++
  [GLCall.drawElements 12 96,
   GLCall.bindVertexArray 0] ++
  [GLCall.bindVertexArray s.lightBoxVAO] ++
  ((List.range (toInt32 s.bulbPositions.length).toNat).map
    (lightBoxCalls shaderProgram s.bulbPositions s.bulbColors)).flatten ++
  [GLCall.bindVertexArray 0] ++
  s.sceneMeshes.flatMap (drawMesh shaderProgram) ++
  [GLCall.bindVertexArray s.projectorVAO,
   GLCall.uniform shaderProgram "model" (UniformValue.mat4
     (Mat4Expr.scale (Mat4Expr.translate Mat4Expr.identity ⟨2, 2.8, -9.7⟩) ⟨1.8, 1.2, 1⟩))]

/-- The last calls of `drawScene`: colour and draw of the projector sheet. -/
def projectorSheetCalls (shaderProgram : Nat) : List (GLCall α) :=
  setTexture shaderProgram false 0 ⟨0.92, 0.92, 0.88⟩ ++
  [GLCall.drawElements 6 0,
   GLCall.bindVertexArray 0]

/-- The uploads of a frame between `glUseProgram` and `drawScene`. -/
def frameUploadCalls (getUniformLocation : Nat → String → Int) (activeProgram : Nat)
    (s : AppState α) : List (GLCall α) :=
  [GLCall.uniform activeProgram "viewPos" (UniformValue.vec3 s.cameraPos),
   GLCall.uniform activeProgram "textureSampler" (UniformValue.int 0)] ++
  (((List.range (min s.bulbPositions.length 6)).map
      (lightUploads activeProgram s.bulbPositions s.bulbColors)).flatten ++
    [GLCall.uniform activeProgram "numLights"
      (UniformValue.int (min (s.bulbPositions.length : Int) 6))]) ++
  (if getUniformLocation activeProgram "lightColor" ≠ -1 then
    [GLCall.uniform activeProgram "lightColor" (UniformValue.vec3 ⟨1, 1, 1⟩)]
  else []) ++
  [GLCall.uniform activeProgram "projection"
     (UniformValue.mat4 (Mat4Expr.perspective s.fov (1280 / 720) 0.1 100)),
   GLCall.uniform activeProgram "view"
     (UniformValue.mat4 (Mat4Expr.lookAt s.cameraPos (s.cameraPos + s.cameraFront) s.cameraUp))]

end SceneParts

section LoaderShape

variable {α : Type} [LinearOrderedField α]

/-! ## `loadOBJShape`: the greenboard UV remap and the mesh it returns

The interleaved buffer is `std::vector<float> vertices`; a read `vertices[j]` is `none` when
out of bounds.  `size_t` arithmetic on buffer offsets is exact. -/

/-- The constant `FLT_MAX`, `(2 - 2^-23) * 2^127`. -/
def FLT_MAX : α := 340282346638528859811704183484516925440

/-- The locals `minU`, `minV`, `maxU`, `maxV` of the UV remap. -/
structure UVBounds (α : Type) where
  minU : α
  minV : α
  maxU : α
  maxV : α

/-- One round of the first loop of the UV remap: `u = vertices[i*8 + 6]`,
`v = vertices[i*8 + 7]` and the four updates. -/
def uvBoundsStep (vertices : List α) (b : UVBounds α) (i : Nat) : Option (UVBounds α) :=
  match vertices[i * 8 + 6]?, vertices[i * 8 + 7]? with
  | some u, some v => some ⟨min b.minU u, min b.minV v, max b.maxU u, max b.maxV v⟩
  | _, _ => none

/-- The first loop of the UV remap, over `i < vertCount = vertices.size() / 8`, from
`minU = minV = FLT_MAX` and `maxU = maxV = -FLT_MAX`. -/
def uvBounds (vertices : List α) : Option (UVBounds α) :=
  (List.range (vertices.length / 8)).foldlM (uvBoundsStep vertices)
    ⟨FLT_MAX, FLT_MAX, -FLT_MAX, -FLT_MAX⟩

/-- The divisor of the UV remap on one axis: `range = max - min`, replaced by 1 when it is
below `1e-6`. -/
def uvRange (lo hi : α) : α :=
  let range := hi - lo
  if range < 1e-6 then 1 else range

/-- One round of the second loop of the UV remap: both reads and both writes. -/
def remapStep (minU minV rangeU rangeV : α) (vertices : List α) (i : Nat) :
    Option (List α) :=
  match vertices[i * 8 + 6]?, vertices[i * 8 + 7]? with
  | some u, some v =>
      let u2 := (u - minU) / rangeU
      let v2 := (v - minV) / rangeV
      some ((vertices.set (i * 8 + 6) u2).set (i * 8 + 7) v2)
  | _, _ => none

/-- The UV remap of `loadOBJShape`: the buffer `vertices` it leaves. -/
def remapUVs (vertices : List α) : Option (List α) :=
  match uvBounds vertices with
  | none => none
  | some b =>
      let rangeU := uvRange b.minU b.maxU
      let rangeV := uvRange b.minV b.maxV
      (List.range (vertices.length / 8)).foldlM (remapStep b.minU b.minV rangeU rangeV)
        vertices

/-- The locals `minU`, `minV`, `maxU`, `maxV` after `k` rounds of the first loop of the UV
remap when every read is inside the buffer. -/
def uvBoundsAfter (vertices : List α) (k : Nat) : UVBounds α :=
  (List.range k).foldl
    (fun (b : UVBounds α) i =>
      ⟨min b.minU (vertices.getD (i * 8 + 6) 0), min b.minV (vertices.getD (i * 8 + 7) 0),
        max b.maxU (vertices.getD (i * 8 + 6) 0), max b.maxV (vertices.getD (i * 8 + 7) 0)⟩)
    ⟨FLT_MAX, FLT_MAX, -FLT_MAX, -FLT_MAX⟩

/-- Entry `j` of the buffer after `k` rounds of the second loop of the UV remap: the `u` and
`v` of the first `k` vertices are remapped, every other float is as it was. -/
def remappedEntry (minU minV rangeU rangeV : α) (vertices : List α) (k j : Nat) : α :=
  if j / 8 < k ∧ j % 8 = 6 then (vertices.getD j 0 - minU) / rangeU
  else if j / 8 < k ∧ j % 8 = 7 then (vertices.getD j 0 - minV) / rangeV
  else vertices.getD j 0

/-- The parts of `tinyobj::shape_t` that the loader reads: `name`, `mesh.indices` and
`mesh.material_ids`. -/
structure shape_t where
  name : String
  indices : List index_t
  material_ids : List Int

/-- The part of `tinyobj::material_t` that the loader reads. -/
structure material_t where
  diffuse_texname : String

/-- What `loadOBJShape` produces: the `Mesh` it returns and the buffers `vertices` and
`indices` it has built (empty when it returns before building them). -/
structure LoadedShape (α : Type) where
  mesh : Mesh α
  vertices : List α
  indices : List Nat

/-- The texture decision of `loadOBJShape`: the fields `hasTexture` and `textureID` of the
mesh after the bench and the greenboard branch.  `loadTexture` is the texture name
`loadTexture(path)` returns. -/
def textureDecision (loadTexture : String → Nat) (shape : shape_t)
    (logicalName texPath : String) : Bool × Nat :=
  let tex : Bool × Nat := (false, 0)
  let tex :=
    if texPath ≠ "" ∧ logicalName = "bench" then
      if lowerContains shape.name "wood" || lowerContains shape.name "bench" ||
          lowerContains shape.name "seat" || lowerContains shape.name "plank" then
        (loadTexture texPath != 0, loadTexture texPath)
      else (false, 0)
    else tex
  if logicalName = "greenboard" ∧ texPath ≠ "" then
    if lowerContains shape.name "green" || lowerContains shape.name "board" then
      (loadTexture texPath != 0, loadTexture texPath)
    else (false, 0)
  else tex

/-- The function `loadOBJShape`.  `loadTexture` is the texture name `loadTexture(path)`
returns and `genVAO`, `genVBO`, `genEBO` are the names `glGenVertexArrays` and `glGenBuffers`
return; the debug output on `std::cerr` is left out. -/
def loadOBJShape (loadTexture : String → Nat) (genVAO genVBO genEBO : Nat)
    (attrib : attrib_t α) (shape : shape_t) (logicalName texPath : String) :
    Option (LoadedShape α) :=
  if shape.indices.isEmpty then
    some ⟨{ VAO := 0, VBO := 0, EBO := 0, indexCount := 0, position := Vec3.splat 0,
            color := Vec3.splat 1, hasTexture := false, textureID := 0,
            logicalName := logicalName, shapeName := shape.name }, [], []⟩
  else
    let tex := textureDecision loadTexture shape logicalName texPath
    match interleave attrib shape.indices with
    | none => none
    | some (vertices, indices) =>
        match (if logicalName = "greenboard" ∧ lowerContains shape.name "green" = true then
            remapUVs vertices else some vertices) with
        | none => none
        | some vertices =>
            if vertices.isEmpty then
              some ⟨{ VAO := 0, VBO := 0, EBO := 0, indexCount := indices.length,
                      position := Vec3.splat 0, color := Vec3.splat 1, hasTexture := tex.1,
                      textureID := tex.2, logicalName := logicalName,
                      shapeName := shape.name }, vertices, indices⟩
            else
              some ⟨{ VAO := genVAO, VBO := genVBO, EBO := genEBO,
                      indexCount := indices.length, position := Vec3.splat 0,
                      color := Vec3.splat 1, hasTexture := tex.1, textureID := tex.2,
                      logicalName := logicalName, shapeName := shape.name },
                vertices, indices⟩

/-- The texture path `useTex` that `loadOBJModels` passes to `loadOBJShape` for shape `s`;
`none` when `materials[matid]` is read out of bounds. -/
def useTex (materials : List material_t) (defaultTexPath : String) (s : shape_t) :
    Option String :=
  let matTexPath : Option String :=
    match s.material_ids with
    | [] => some ""
    | matid :: _ =>
        if matid ≥ 0 ∧ matid < toInt32 materials.length then
          match materials[toSizeT matid]? with
          | some m =>
              let matTexPath := m.diffuse_texname
              if matTexPath ≠ "" ∧ '/' ∉ matTexPath.toList ∧ '\\' ∉ matTexPath.toList then
                some ("assets/" ++ matTexPath)
              else some matTexPath
          | none => none
        else some ""
  matTexPath.map (fun matTexPath => if matTexPath = "" then defaultTexPath else matTexPath)

/-- The function `loadOBJModels`.  `parsed` is what `tinyobj::LoadObj` delivers (`none` when
it fails) and `genNames k` are the names OpenGL generates for the `k`-th shape. -/
def loadOBJModels (loadTexture : String → Nat) (genNames : Nat → Nat × Nat × Nat)
    (parsed : Option (attrib_t α × List shape_t × List material_t))
    (logicalName defaultTexPath : String) : Option (List (LoadedShape α)) :=
  match parsed with
  | none => some []
  | some (attrib, shapes, materials) =>
      (List.zip (List.range shapes.length) shapes).mapM (fun ks =>
        match useTex materials defaultTexPath ks.2 with
        | none => none
        | some texPath =>
            loadOBJShape loadTexture (genNames ks.1).1 (genNames ks.1).2.1 (genNames ks.1).2.2
              attrib ks.2 logicalName texPath)

/-- The texture path of a shape in the words of the specification: the diffuse texture name
of the first material id when that id is in `[0, materials.size())` and the name is not
empty, prefixed with `assets/` exactly when the name contains neither `/` nor `\`, and
`defaultTexPath` in every other case. -/
def texPathSpec (materials : List material_t) (defaultTexPath : String) (s : shape_t) :
    String :=
  match s.material_ids.head? with
  | none => defaultTexPath
  | some id =>
      if 0 ≤ id ∧ id < (materials.length : Int) then
        let name := (materials.getD id.toNat ⟨""⟩).diffuse_texname
        if name ≠ "" then
          if '/' ∉ name.toList ∧ '\\' ∉ name.toList then "assets/" ++ name else name
        else defaultTexPath
      else defaultTexPath

/-- No `int` overflow in the index arithmetic of the interleave loop for one face index: the
three fields are `int` values and `3 * index + 2`, respectively `2 * index + 1`, stays below
`2^31` for each non-negative index. -/
def NoIndexOverflow (idx : index_t) : Prop :=
  (-2 ^ 31 ≤ idx.vertex_index ∧ 3 * idx.vertex_index + 2 < 2 ^ 31) ∧
  (-2 ^ 31 ≤ idx.normal_index ∧ 3 * idx.normal_index + 2 < 2 ^ 31) ∧
  (-2 ^ 31 ≤ idx.texcoord_index ∧ 2 * idx.texcoord_index + 1 < 2 ^ 31)

/-- The attrib position a face index refers to: the three floats at `3 * vertex_index` when
the index is in range, and `(0, 0, 0)` otherwise. -/
def referencedPosition (attrib : attrib_t α) (idx : index_t) : List α :=
  if 0 ≤ idx.vertex_index ∧ 3 * idx.vertex_index.toNat + 2 < attrib.vertices.length then
    [attrib.vertices.getD (3 * idx.vertex_index.toNat) 0,
     attrib.vertices.getD (3 * idx.vertex_index.toNat + 1) 0,
     attrib.vertices.getD (3 * idx.vertex_index.toNat + 2) 0]
  else [0, 0, 0]

/-- The attrib normal a face index refers to: the three floats at `3 * normal_index` when the
index is in range, and `(0, 1, 0)` otherwise. -/
def referencedNormal (attrib : attrib_t α) (idx : index_t) : List α :=
  if 0 ≤ idx.normal_index ∧ 3 * idx.normal_index.toNat + 2 < attrib.normals.length then
    [attrib.normals.getD (3 * idx.normal_index.toNat) 0,
     attrib.normals.getD (3 * idx.normal_index.toNat + 1) 0,
     attrib.normals.getD (3 * idx.normal_index.toNat + 2) 0]
  else [0, 1, 0]

/-- The attrib texture coordinate a face index refers to: the two floats at
`2 * texcoord_index` when the index is in range, and `(0, 0)` otherwise. -/
def referencedTexcoord (attrib : attrib_t α) (idx : index_t) : List α :=
  if 0 ≤ idx.texcoord_index ∧ 2 * idx.texcoord_index.toNat + 1 < attrib.texcoords.length then
    [attrib.texcoords.getD (2 * idx.texcoord_index.toNat) 0,
     attrib.texcoords.getD (2 * idx.texcoord_index.toNat + 1) 0]
  else [0, 0]

/-- The eight floats of the vertex a face index refers to: position, normal, uv. -/
def referencedVertex (attrib : attrib_t α) (idx : index_t) : List α :=
  referencedPosition attrib idx ++ referencedNormal attrib idx ++ referencedTexcoord attrib idx

end LoaderShape

section Binary32

/-! ## binary32 arithmetic

Where a claim depends on rounding or overflow, the `float` of GLSL and of C++ is IEEE 754
binary32 with round-to-nearest, ties to even, and gradual underflow.  A value is NaN, an
infinity or a rational number; the two zeros are not told apart.  An operation on finite
values computes the exact rational result and rounds it, each operation on its own (no
fused multiply-add); the result overflows to an infinity when the rounded magnitude reaches
`2^128`. -/

/-- Round to the nearest integer, ties to the even one. -/
def roundHalfEven (x : ℚ) : ℤ :=
  if x - ⌊x⌋ < 1 / 2 then ⌊x⌋
  else if 1 / 2 < x - ⌊x⌋ then ⌊x⌋ + 1
  else if ⌊x⌋ % 2 = 0 then ⌊x⌋ else ⌊x⌋ + 1

/-- The exponent of the unit in the last place of binary32 at `x`: 23 below the binary
exponent of `x`, and `-149` in the subnormal range. -/
def ulpExponent (x : ℚ) : ℤ := max (Int.log 2 |x|) (-126) - 23

/-- Rounding to a 24-bit significand with unbounded exponent range above. -/
def roundToGrid (x : ℚ) : ℚ :=
  (roundHalfEven (x / 2 ^ ulpExponent x) : ℚ) * 2 ^ ulpExponent x

/-- A binary32 value. -/
inductive F32 where
  | nan : F32
  | ninf : F32
  | fin (q : ℚ) : F32
  | pinf : F32

/-- The binary32 value of an exact result `x`. -/
def F32.round (x : ℚ) : F32 :=
  if 2 ^ 128 ≤ roundToGrid x then F32.pinf
  else if roundToGrid x ≤ -2 ^ 128 then F32.ninf
  else F32.fin (roundToGrid x)

/-- The operator `+`. -/
def F32.add : F32 → F32 → F32
  | F32.fin a, F32.fin b => F32.round (a + b)
  | F32.fin _, F32.pinf => F32.pinf
  | F32.fin _, F32.ninf => F32.ninf
  | F32.pinf, F32.fin _ => F32.pinf
  | F32.pinf, F32.pinf => F32.pinf
  | F32.ninf, F32.fin _ => F32.ninf
  | F32.ninf, F32.ninf => F32.ninf
  | _, _ => F32.nan

/-- The operator `*`. -/
def F32.mul : F32 → F32 → F32
  | F32.fin a, F32.fin b => F32.round (a * b)
  | F32.fin a, F32.pinf => if a = 0 then F32.nan else if 0 < a then F32.pinf else F32.ninf
  | F32.fin a, F32.ninf => if a = 0 then F32.nan else if 0 < a then F32.ninf else F32.pinf
  | F32.pinf, F32.fin b => if b = 0 then F32.nan else if 0 < b then F32.pinf else F32.ninf
  | F32.ninf, F32.fin b => if b = 0 then F32.nan else if 0 < b then F32.ninf else F32.pinf
  | F32.pinf, F32.pinf => F32.pinf
  | F32.pinf, F32.ninf => F32.ninf
  | F32.ninf, F32.pinf => F32.ninf
  | F32.ninf, F32.ninf => F32.pinf
  | _, _ => F32.nan

/-- The operator `/`; a zero divisor counts as `+0`. -/
def F32.div : F32 → F32 → F32
  | F32.fin a, F32.fin b =>
      if b = 0 then (if a = 0 then F32.nan else if 0 < a then F32.pinf else F32.ninf)
      else F32.round (a / b)
  | F32.fin _, F32.pinf => F32.fin 0
  | F32.fin _, F32.ninf => F32.fin 0
  | F32.pinf, F32.fin b => if 0 ≤ b then F32.pinf else F32.ninf
  | F32.ninf, F32.fin b => if 0 ≤ b then F32.ninf else F32.pinf
  | _, _ => F32.nan

/-- The comparison `a < b`; false when an operand is NaN. -/
def F32.lt : F32 → F32 → Bool
  | F32.fin a, F32.fin b => decide (a < b)
  | F32.ninf, F32.fin _ => true
  | F32.ninf, F32.pinf => true
  | F32.fin _, F32.pinf => true
  | _, _ => false

/-- The function `std::min(a, b)`: `(b < a) ? b : a`. -/
def F32.min (a b : F32) : F32 := if F32.lt b a then b else a

/-- The function `std::max(a, b)`: `(a < b) ? b : a`. -/
def F32.max (a b : F32) : F32 := if F32.lt a b then b else a

/-- The value of a binary32 on the rational line, with the infinities at `±2^128`, where
rounding puts them, and NaN at 0. -/
def F32.toRat : F32 → ℚ
  | F32.nan => 0
  | F32.ninf => -2 ^ 128
  | F32.fin q => q
  | F32.pinf => 2 ^ 128

/-- A binary32 that is `+Inf` or finite, non-negative and below `2^128`. -/
def F32.IsNonneg (x : F32) : Prop :=
  x = F32.pinf ∨ ∃ q : ℚ, x = F32.fin q ∧ 0 ≤ q ∧ q < 2 ^ 128

/-- The value on the rational line of the binary32 of a non-negative exact result. -/
def clampRound (x : ℚ) : ℚ := min (roundToGrid x) (2 ^ 128)

/-! ## The attenuation in binary32 -/

/-- The divisor `constant + linear * dist + quadratic * (dist * dist)` of the fragment
shader's attenuation, in binary32. -/
def phongAttenuationDenominator32 (dist : F32) : F32 :=
  let constant : F32 := F32.round 1.0
  let linear : F32 := F32.round 0.09
  let quadratic : F32 := F32.round 0.032
  F32.add (F32.add constant (F32.mul linear dist)) (F32.mul quadratic (F32.mul dist dist))

/-- The local `attenuation` of the fragment shader's light loop, in binary32. -/
def phongAttenuation32 (dist : F32) : F32 :=
  F32.div (F32.round 1.0) (phongAttenuationDenominator32 dist)

/-- The divisor of the vertex shader's attenuation, in binary32. -/
def gouraudAttenuationDenominator32 (dist : F32) : F32 :=
  let constant : F32 := F32.round 1.0
  let linear : F32 := F32.round 0.09
  let quadratic : F32 := F32.round 0.032
  F32.add (F32.add constant (F32.mul linear dist)) (F32.mul quadratic (F32.mul dist dist))

/-- The local `attenuation` of the vertex shader's light loop, in binary32. -/
def gouraudAttenuation32 (dist : F32) : F32 :=
  F32.div (F32.round 1.0) (gouraudAttenuationDenominator32 dist)

/-- The value on the rational line of the binary32 divisor of the attenuation at a finite
distance `q ≥ 0`, with `+Inf` at `2^128`. -/
def denominatorValue32 (q : ℚ) : ℚ :=
  clampRound (clampRound (1 + clampRound (roundToGrid 0.09 * q)) +
    (if clampRound (q * q) < 2 ^ 128 then clampRound (roundToGrid 0.032 * clampRound (q * q))
     else 2 ^ 128))

/-- The binary32 attenuation at a finite distance `q ≥ 0` as a rational number. -/
def attenuationValue32 (q : ℚ) : ℚ :=
  if denominatorValue32 q < 2 ^ 128 then roundToGrid (1 / denominatorValue32 q) else 0

end Binary32

section Loader32

/-! ## `loadOBJShape` in binary32

The interleave loop and the greenboard UV remap once more, with `float` as binary32: the
subtraction `max - min` rounds and may overflow to `+Inf`, the comparison is with the
binary32 literal `1e-6f`, and the division `(u - minU) / rangeU` may produce NaN. -/

end Loader32

section Lemmas

variable {α : Type} [LinearOrderedField α]

/-! ## Auxiliary facts -/

theorem vec3_add_x (a b : Vec3 α) : (a + b).x = a.x + b.x := rfl
theorem vec3_add_y (a b : Vec3 α) : (a + b).y = a.y + b.y := rfl
theorem vec3_add_z (a b : Vec3 α) : (a + b).z = a.z + b.z := rfl
theorem vec3_sub_x (a b : Vec3 α) : (a - b).x = a.x - b.x := rfl
theorem vec3_sub_y (a b : Vec3 α) : (a - b).y = a.y - b.y := rfl
theorem vec3_sub_z (a b : Vec3 α) : (a - b).z = a.z - b.z := rfl
theorem vec3_mul_x (a b : Vec3 α) : (a * b).x = a.x * b.x := rfl
theorem vec3_mul_y (a b : Vec3 α) : (a * b).y = a.y * b.y := rfl
theorem vec3_mul_z (a b : Vec3 α) : (a * b).z = a.z * b.z := rfl
theorem vec3_zero_x : (0 : Vec3 α).x = 0 := rfl
theorem vec3_zero_y : (0 : Vec3 α).y = 0 := rfl
theorem vec3_zero_z : (0 : Vec3 α).z = 0 := rfl

/-- The attenuation divisor is at least one at every non-negative distance. -/
theorem one_le_attenuation_poly (d : α) (hd : 0 ≤ d) :
    (1 : α) ≤ 1 + 0.09 * d + 0.032 * (d * d) := by
  have h1 : (0 : α) ≤ 0.09 * d := mul_nonneg (by norm_num) hd
  have h2 : (0 : α) ≤ 0.032 * (d * d) := mul_nonneg (by norm_num) (mul_nonneg hd hd)
  linarith

/-- The attenuation divisor is strictly increasing on the non-negative distances. -/
theorem attenuation_poly_strictMono (d1 d2 : α) (h1 : 0 ≤ d1) (h12 : d1 < d2) :
    1 + 0.09 * d1 + 0.032 * (d1 * d1) < 1 + 0.09 * d2 + 0.032 * (d2 * d2) := by
  have hsq : d1 * d1 < d2 * d2 := mul_self_lt_mul_self h1 h12
  have ha : (0.09 : α) * d1 < 0.09 * d2 := mul_lt_mul_of_pos_left h12 (by norm_num)
  have hb : (0.032 : α) * (d1 * d1) < 0.032 * (d2 * d2) :=
    mul_lt_mul_of_pos_left hsq (by norm_num)
  linarith

/-- Splitting the last active slot off a sum over the active light slots. -/
theorem sum_active_succ (f : Fin NUM_LIGHTS → α) (n : Nat) (h : n < NUM_LIGHTS) :
    (∑ i : Fin NUM_LIGHTS, if (i : Nat) < n + 1 then f i else 0) =
      (∑ i : Fin NUM_LIGHTS, if (i : Nat) < n then f i else 0) + f ⟨n, h⟩ := by
  have hn : f ⟨n, h⟩ = ∑ i : Fin NUM_LIGHTS, if i = ⟨n, h⟩ then f i else 0 := by
    simp
  rw [hn, ← Finset.sum_add_distrib]
  refine Finset.sum_congr rfl (fun i _ => ?_)
  by_cases h1 : (i : Nat) < n
  · have h2 : (i : Nat) < n + 1 := by omega
    have h3 : i ≠ ⟨n, h⟩ := by
      intro e
      rw [e] at h1
      simp at h1
    simp [h1, h2, h3]
  · by_cases h3 : i = ⟨n, h⟩
    · subst h3
      simp
    · have h2 : ¬ (i : Nat) < n + 1 := by
        intro h2
        apply h3
        ext
        simp only
        omega
      simp [h1, h2, h3]

/-- Inside the array bounds the fragment shader's loop body adds one light. -/
theorem phongLoopBody_of_lt (sqrt : α → α) (u : Uniforms α)
    (FragPos norm viewDir surfaceColor result : Vec3 α) (i : Nat) (h : i < NUM_LIGHTS) :
    phongLoopBody sqrt u FragPos norm viewDir surfaceColor result i =
      some (result + phongLightContrib sqrt FragPos norm viewDir (u.lightPos ⟨i, h⟩)
        (u.lightColor ⟨i, h⟩) * surfaceColor) := by
  simp [phongLoopBody, readSlot, h]

/-- The fragment shader's loop run for `n ≤ NUM_LIGHTS` rounds adds the first `n` lights. -/
theorem phong_foldlM_range (sqrt : α → α) (u : Uniforms α)
    (FragPos norm viewDir surfaceColor : Vec3 α) (n : Nat) (hn : n ≤ NUM_LIGHTS)
    (init : Vec3 α) :
    (List.range n).foldlM (phongLoopBody sqrt u FragPos norm viewDir surfaceColor) init =
      some
        ⟨init.x + ∑ i : Fin NUM_LIGHTS, (if (i : Nat) < n then
            (phongLightContrib sqrt FragPos norm viewDir (u.lightPos i) (u.lightColor i)
              * surfaceColor).x else 0),
         init.y + ∑ i : Fin NUM_LIGHTS, (if (i : Nat) < n then
            (phongLightContrib sqrt FragPos norm viewDir (u.lightPos i) (u.lightColor i)
              * surfaceColor).y else 0),
         init.z + ∑ i : Fin NUM_LIGHTS, (if (i : Nat) < n then
            (phongLightContrib sqrt FragPos norm viewDir (u.lightPos i) (u.lightColor i)
              * surfaceColor).z else 0)⟩ := by
  induction n with
  | zero => simp
  | succ k ih =>
    have hk : k < NUM_LIGHTS := hn
    rw [List.range_succ, List.foldlM_append, ih (Nat.le_of_lt hk)]
    simp only [Option.bind_eq_bind, Option.some_bind, List.foldlM_cons, List.foldlM_nil,
      phongLoopBody_of_lt sqrt u FragPos norm viewDir surfaceColor _ k hk, Option.pure_def,
      Option.bind_some]
    rw [sum_active_succ _ k hk, sum_active_succ _ k hk, sum_active_succ _ k hk]
    congr 1
    ext
    · simp only [vec3_add_x, vec3_mul_x]
      ring
    · simp only [vec3_add_y, vec3_mul_y]
      ring
    · simp only [vec3_add_z, vec3_mul_z]
      ring

/-- One light of the fragment shader against one light of the reference model. -/
theorem phongLightContrib_mul_eq_reference (sqrt : α → α)
    (P N V lightPos_i lightColor_i surfaceColor : Vec3 α) :
    phongLightContrib sqrt P (normalize sqrt N) (normalize sqrt (V - P)) lightPos_i
        lightColor_i * surfaceColor =
      referenceLightTerm sqrt P N V lightPos_i lightColor_i surfaceColor := by
  ext
  · simp only [phongLightContrib, phongDiffuse, phongSpecular, phongDiff, phongSpec,
      phongHalfwayDir, phongLightDir, phongAttenuation, phongAttenuationDenominator,
      referenceLightTerm, Vec3.scale, Vec3.scaleR, vec3_add_x, vec3_mul_x]
    ring
  · simp only [phongLightContrib, phongDiffuse, phongSpecular, phongDiff, phongSpec,
      phongHalfwayDir, phongLightDir, phongAttenuation, phongAttenuationDenominator,
      referenceLightTerm, Vec3.scale, Vec3.scaleR, vec3_add_y, vec3_mul_y]
    ring
  · simp only [phongLightContrib, phongDiffuse, phongSpecular, phongDiff, phongSpec,
      phongHalfwayDir, phongLightDir, phongAttenuation, phongAttenuationDenominator,
      referenceLightTerm, Vec3.scale, Vec3.scaleR, vec3_add_z, vec3_mul_z]
    ring

/-- The light loops of the two shaders have the same body. -/
theorem gouraudLoopBody_eq_phongLoopBody (sqrt : α → α) (u : Uniforms α)
    (FragPos norm viewDir surfaceColor result : Vec3 α) (i : Nat) :
    gouraudLoopBody sqrt u FragPos norm viewDir surfaceColor result i =
      phongLoopBody sqrt u FragPos norm viewDir surfaceColor result i := by
  simp only [gouraudLoopBody, phongLoopBody, gouraudLightContrib, phongLightContrib,
    gouraudAttenuation, phongAttenuation, gouraudAttenuationDenominator,
    phongAttenuationDenominator, gouraudDiffuse, phongDiffuse, gouraudDiff, phongDiff,
    gouraudLightDir, phongLightDir, gouraudSpecular, phongSpecular, gouraudSpec, phongSpec,
    gouraudHalfwayDir, phongHalfwayDir]

/-- The light loops of the two shaders compute the same value. -/
theorem gouraudLoop_eq_phongLoop (sqrt : α → α) (u : Uniforms α)
    (FragPos norm viewDir surfaceColor result : Vec3 α) :
    gouraudLoop sqrt u FragPos norm viewDir surfaceColor result =
      phongLoop sqrt u FragPos norm viewDir surfaceColor result := by
  have hbody : gouraudLoopBody sqrt u FragPos norm viewDir surfaceColor =
      phongLoopBody sqrt u FragPos norm viewDir surfaceColor := by
    funext r i
    exact gouraudLoopBody_eq_phongLoopBody sqrt u FragPos norm viewDir surfaceColor r i
  simp only [gouraudLoop, phongLoop, hbody]

/-- The fragment shader's loop returns a value whenever `numLights ≤ 6`. -/
theorem phongLoop_isSome (sqrt : α → α) (u : Uniforms α)
    (FragPos norm viewDir surfaceColor result : Vec3 α) (h6 : u.numLights ≤ 6) :
    (phongLoop sqrt u FragPos norm viewDir surfaceColor result).isSome = true := by
  have hn : u.numLights.toNat ≤ NUM_LIGHTS := by
    show u.numLights.toNat ≤ 6
    omega
  simp only [phongLoop, phong_foldlM_range sqrt u FragPos _ _ _ _ hn, Option.isSome_some]

/-- Past the array bounds the fragment shader's loop body has no value. -/
theorem phongLoopBody_of_not_lt (sqrt : α → α) (u : Uniforms α)
    (FragPos norm viewDir surfaceColor result : Vec3 α) (i : Nat) (h : ¬ i < NUM_LIGHTS) :
    phongLoopBody sqrt u FragPos norm viewDir surfaceColor result i = none := by
  simp [phongLoopBody, readSlot, h]

/-- Two option-valued loops whose steps preserve a relation both fail or end in related
states. -/
theorem foldlM_option_rel {β : Type} (f g : β → Nat → Option β) (R : β → β → Prop)
    (hstep : ∀ a b i, R a b → (f a i = none ∧ g b i = none) ∨
      ∃ a' b', f a i = some a' ∧ g b i = some b' ∧ R a' b') :
    ∀ (l : List Nat) (a b : β), R a b →
      (l.foldlM f a = none ∧ l.foldlM g b = none) ∨
      ∃ a' b', l.foldlM f a = some a' ∧ l.foldlM g b = some b' ∧ R a' b' := by
  intro l
  induction l with
  | nil =>
    intro a b h
    exact Or.inr ⟨a, b, rfl, rfl, h⟩
  | cons i t ih =>
    intro a b h
    rcases hstep a b i h with ⟨hf, hg⟩ | ⟨a', b', hf, hg, hR⟩
    · left
      simp [List.foldlM_cons, hf, hg]
    · simp only [List.foldlM_cons, hf, hg, Option.bind_eq_bind, Option.some_bind]
      exact ih a' b' hR

/-- The loop run with surface colour `objectColor` and the loop run with surface colour `m`
stay a factor `m` apart when `m * objectColor = m`. -/
theorem phongLoop_modulated (sqrt : α → α) (u : Uniforms α)
    (FragPos norm viewDir oc m a b : Vec3 α) (hm : m * oc = m) (hab : m * a = b) :
    (phongLoop sqrt u FragPos norm viewDir oc a = none ∧
      phongLoop sqrt u FragPos norm viewDir m b = none) ∨
    ∃ a' b', phongLoop sqrt u FragPos norm viewDir oc a = some a' ∧
      phongLoop sqrt u FragPos norm viewDir m b = some b' ∧ m * a' = b' := by
  have hx : m.x * oc.x = m.x := congrArg Vec3.x hm
  have hy : m.y * oc.y = m.y := congrArg Vec3.y hm
  have hz : m.z * oc.z = m.z := congrArg Vec3.z hm
  refine foldlM_option_rel _ _ (fun a b => m * a = b) ?_ _ a b hab
  intro r1 r2 i hr
  by_cases hi : i < NUM_LIGHTS
  · right
    refine ⟨_, _, phongLoopBody_of_lt sqrt u FragPos norm viewDir oc r1 i hi,
      phongLoopBody_of_lt sqrt u FragPos norm viewDir m r2 i hi, ?_⟩
    have h1 : m.x * r1.x = r2.x := congrArg Vec3.x hr
    have h2 : m.y * r1.y = r2.y := congrArg Vec3.y hr
    have h3 : m.z * r1.z = r2.z := congrArg Vec3.z hr
    ext
    · simp only [vec3_add_x, vec3_mul_x]
      generalize (phongLightContrib sqrt FragPos norm viewDir _ _).x = c
      linear_combination h1 + c * hx
    · simp only [vec3_add_y, vec3_mul_y]
      generalize (phongLightContrib sqrt FragPos norm viewDir _ _).y = c
      linear_combination h2 + c * hy
    · simp only [vec3_add_z, vec3_mul_z]
      generalize (phongLightContrib sqrt FragPos norm viewDir _ _).z = c
      linear_combination h3 + c * hz
  · left
    exact ⟨phongLoopBody_of_not_lt sqrt u FragPos norm viewDir oc r1 i hi,
      phongLoopBody_of_not_lt sqrt u FragPos norm viewDir m r2 i hi⟩

/-- The loop of the fragment shader reads only the slots below `numLights`. -/
theorem phongLoop_congr_slots (sqrt : α → α) (u v : Uniforms α)
    (FragPos norm viewDir surfaceColor result : Vec3 α)
    (hnum : v.numLights = u.numLights) (h6 : u.numLights ≤ 6)
    (hagree : ∀ i : Fin NUM_LIGHTS, ((i : Nat) : Int) < u.numLights →
      v.lightPos i = u.lightPos i ∧ v.lightColor i = u.lightColor i) :
    phongLoop sqrt v FragPos norm viewDir surfaceColor result =
      phongLoop sqrt u FragPos norm viewDir surfaceColor result := by
  have hn : u.numLights.toNat ≤ NUM_LIGHTS := by
    show u.numLights.toNat ≤ 6
    omega
  have hterm : ∀ i : Fin NUM_LIGHTS, (i : Nat) < u.numLights.toNat →
      phongLightContrib sqrt FragPos norm viewDir (v.lightPos i) (v.lightColor i) =
        phongLightContrib sqrt FragPos norm viewDir (u.lightPos i) (u.lightColor i) := by
    intro i hi
    have hi2 : ((i : Nat) : Int) < u.numLights := by omega
    rw [(hagree i hi2).1, (hagree i hi2).2]
  simp only [phongLoop, hnum, phong_foldlM_range sqrt _ FragPos _ _ _ _ hn]
  congr 2
  · congr 1
    refine Finset.sum_congr rfl (fun i _ => ?_)
    by_cases hi : (i : Nat) < u.numLights.toNat
    · simp only [hi, if_true, hterm i hi]
    · simp only [hi, if_false]
  · congr 1
    refine Finset.sum_congr rfl (fun i _ => ?_)
    by_cases hi : (i : Nat) < u.numLights.toNat
    · simp only [hi, if_true, hterm i hi]
    · simp only [hi, if_false]
  · congr 1
    refine Finset.sum_congr rfl (fun i _ => ?_)
    by_cases hi : (i : Nat) < u.numLights.toNat
    · simp only [hi, if_true, hterm i hi]
    · simp only [hi, if_false]

/-- The identity model matrix leaves a position where it is. -/
theorem mulVec4_one_toVec3 (v : Vec3 α) :
    (Mat4.mulVec4 (1 : Mat4 α) (Vec4.ofVec3 v 1)).toVec3 = v := by
  ext <;> simp [Mat4.mulVec4, Vec4.ofVec3, Vec4.toVec3]

/-- The normal matrix of the identity model matrix leaves a normal as it is. -/
theorem normalMatrix_one_mulVec3 (v : Vec3 α) :
    Mat3.mulVec3 (mat3 (transpose (inverse (1 : Mat4 α)))) v = v := by
  have hinv : inverse (1 : Mat4 α) = 1 := by
    simp [inverse]
  rw [hinv]
  ext <;> simp [Mat3.mulVec3, mat3, transpose, Matrix.one_apply, Matrix.vecHead,
    Matrix.vecTail]

/-- Over the reals the vector `(0,1,0)` is its own normalisation. -/
theorem normalize_up : normalize Real.sqrt (⟨0, 1, 0⟩ : Vec3 ℝ) = ⟨0, 1, 0⟩ := by
  ext <;> simp only [normalize, length, dot] <;> norm_num

/-- Over the reals: the surface point at the origin with normal `(0,1,0)`, a white light
straight above it at distance 1 and the camera at the light.  Diffuse factor 1, specular
factor 1, attenuation `1/1.122`: the contribution is `1.6/1.122 = 800/561` per channel. -/
theorem phongLightContrib_overhead :
    phongLightContrib Real.sqrt (⟨0, 0, 0⟩ : Vec3 ℝ) ⟨0, 1, 0⟩ ⟨0, 1, 0⟩ ⟨0, 1, 0⟩ ⟨1, 1, 1⟩ =
      ⟨800 / 561, 800 / 561, 800 / 561⟩ := by
  have h4 : Real.sqrt 4 = 2 := by
    rw [show (4 : ℝ) = 2 ^ 2 by norm_num]
    exact Real.sqrt_sq (by norm_num)
  have hL : phongLightDir Real.sqrt (⟨0, 0, 0⟩ : Vec3 ℝ) ⟨0, 1, 0⟩ = ⟨0, 1, 0⟩ := by
    ext <;> simp only [phongLightDir, normalize, length, dot, vec3_sub_x, vec3_sub_y,
      vec3_sub_z] <;> norm_num
  have hH : phongHalfwayDir Real.sqrt (⟨0, 0, 0⟩ : Vec3 ℝ) ⟨0, 1, 0⟩ ⟨0, 1, 0⟩ = ⟨0, 1, 0⟩ := by
    ext <;> simp only [phongHalfwayDir, hL, normalize, length, dot, vec3_add_x, vec3_add_y,
      vec3_add_z] <;> norm_num [h4]
  have hd : length Real.sqrt ((⟨0, 1, 0⟩ : Vec3 ℝ) - ⟨0, 0, 0⟩) = 1 := by
    simp only [length, dot, vec3_sub_x, vec3_sub_y, vec3_sub_z]
    norm_num
  ext <;> simp only [phongLightContrib, phongDiffuse, phongDiff, phongSpecular, phongSpec,
    phongAttenuation, phongAttenuationDenominator, hL, hH, hd, Vec3.scale, Vec3.scaleR, dot,
    vec3_add_x, vec3_add_y, vec3_add_z] <;> norm_num

/-- Over the reals: the fragment shader on the one-light scene of
`phongLightContrib_overhead`, for any surface colour. -/
theorem phongFragment_overhead (oc : Vec3 ℝ) (uv : Vec2 ℝ) :
    phongFragment Real.sqrt (oneLightUniforms ℝ ⟨0, 1, 0⟩ ⟨1, 1, 1⟩ ⟨0, 1, 0⟩ oc false)
        ⟨0, 0, 0⟩ ⟨0, 1, 0⟩ uv =
      some (Vec4.ofVec3 (Vec3.splat 0.05 * oc + ⟨800 / 561, 800 / 561, 800 / 561⟩ * oc) 1) := by
  have hV : normalize Real.sqrt ((⟨0, 1, 0⟩ : Vec3 ℝ) - ⟨0, 0, 0⟩) = ⟨0, 1, 0⟩ := by
    ext <;> simp only [normalize, length, dot, vec3_sub_x, vec3_sub_y, vec3_sub_z] <;> norm_num
  have hbody : ∀ r : Vec3 ℝ,
      phongLoopBody Real.sqrt (oneLightUniforms ℝ ⟨0, 1, 0⟩ ⟨1, 1, 1⟩ ⟨0, 1, 0⟩ oc false)
        ⟨0, 0, 0⟩ ⟨0, 1, 0⟩ ⟨0, 1, 0⟩ oc r 0 =
      some (r + ⟨800 / 561, 800 / 561, 800 / 561⟩ * oc) := by
    intro r
    rw [phongLoopBody_of_lt _ _ _ _ _ _ _ 0 (by decide)]
    simp only [oneLightUniforms, if_true, phongLightContrib_overhead]
  simp only [phongFragment, phongLoop, oneLightUniforms, Bool.false_eq_true, if_false,
    normalize_up, hV]
  have hr : List.range (1 : Int).toNat = [0] := rfl
  rw [hr, List.foldlM_cons]
  have hb := hbody (Vec3.splat 0.05 * oc)
  simp only [oneLightUniforms] at hb
  simp only [hb, List.foldlM_nil, Option.bind_eq_bind, Option.some_bind, Option.pure_def,
    Option.map_some']

/-- The Gouraud program at a vertex is the untextured Phong program at that vertex,
multiplied once more by the texture sample or by `objectColor`. -/
theorem gouraudAtVertex_modulated (sqrt : α → α) (u : Uniforms α) (aPos aNormal : Vec3 α)
    (aTexCoord : Vec2 α) :
    gouraudAtVertex sqrt u aPos aNormal aTexCoord =
      (phongAtVertex sqrt { u with hasTexture := false } aPos aNormal aTexCoord).map
        (fun c => Vec4.ofVec3
          ((if u.hasTexture then (u.textureSampler (aTexCoord * u.uvScale)).rgb
            else u.objectColor) * c.rgb) 1) := by
  have hloop : ∀ (P n w c r : Vec3 α),
      phongLoop sqrt { u with hasTexture := false } P n w c r = phongLoop sqrt u P n w c r :=
    fun _ _ _ _ _ => rfl
  simp only [gouraudAtVertex, gouraudVertex, phongAtVertex, phongVertex, phongFragment,
    gouraudLoop_eq_phongLoop, hloop, Option.map_map, Bool.false_eq_true, if_false]
  congr 1
  funext r
  cases hT : u.hasTexture <;> simp [gouraudFragment, hT, Vec4.rgb, Vec4.ofVec3]

end Lemmas

section ShaderLemmas

variable {α : Type} [LinearOrderedField α]

/-! ## Auxiliary facts: matrices and the vertex stage -/


/-- With an invertible model matrix, `inverse(model) * model` is the identity. -/
theorem inverse_mul_self (m : Mat4 α) (h : m.det ≠ 0) : inverse m * m = 1 := by
  simp only [inverse, Matrix.smul_mul, Matrix.adjugate_mul, smul_smul, inv_mul_cancel₀ h,
    one_smul]

/-- Moving the surface colour out of a sum over the active slots. -/
theorem sum_active_mul (f : Fin NUM_LIGHTS → α) (n : Nat) (c : α) :
    (∑ i : Fin NUM_LIGHTS, if (i : Nat) < n then f i * c else 0) =
      c * ∑ i : Fin NUM_LIGHTS, if (i : Nat) < n then f i else 0 := by
  rw [Finset.mul_sum]
  refine Finset.sum_congr rfl (fun i _ => ?_)
  by_cases h : (i : Nat) < n
  · simp only [h, if_true]
    ring
  · simp only [h, if_false, mul_zero]

/-- The litColor of the Gouraud vertex shader in closed form, for `numLights ≤ 6`. -/
theorem gouraudVertex_litColor (sqrt : α → α) (u : Uniforms α) (aPos aNormal : Vec3 α)
    (aTexCoord : Vec2 α) (h6 : u.numLights ≤ 6) :
    (gouraudVertex sqrt u aPos aNormal aTexCoord).map GouraudVaryings.litColor =
      some
        ⟨u.objectColor.x * (0.05 + ∑ i : Fin NUM_LIGHTS,
            if (i : Nat) < u.numLights.toNat then
              (gouraudLightContrib sqrt (Mat4.mulVec4 u.model (Vec4.ofVec3 aPos 1)).toVec3
                (normalize sqrt (Mat3.mulVec3 (mat3 (transpose (inverse u.model))) aNormal))
                (normalize sqrt
                  (u.viewPos - (Mat4.mulVec4 u.model (Vec4.ofVec3 aPos 1)).toVec3))
                (u.lightPos i) (u.lightColor i)).x else 0),
         u.objectColor.y * (0.05 + ∑ i : Fin NUM_LIGHTS,
            if (i : Nat) < u.numLights.toNat then
              (gouraudLightContrib sqrt (Mat4.mulVec4 u.model (Vec4.ofVec3 aPos 1)).toVec3
                (normalize sqrt (Mat3.mulVec3 (mat3 (transpose (inverse u.model))) aNormal))
                (normalize sqrt
                  (u.viewPos - (Mat4.mulVec4 u.model (Vec4.ofVec3 aPos 1)).toVec3))
                (u.lightPos i) (u.lightColor i)).y else 0),
         u.objectColor.z * (0.05 + ∑ i : Fin NUM_LIGHTS,
            if (i : Nat) < u.numLights.toNat then
              (gouraudLightContrib sqrt (Mat4.mulVec4 u.model (Vec4.ofVec3 aPos 1)).toVec3
                (normalize sqrt (Mat3.mulVec3 (mat3 (transpose (inverse u.model))) aNormal))
                (normalize sqrt
                  (u.viewPos - (Mat4.mulVec4 u.model (Vec4.ofVec3 aPos 1)).toVec3))
                (u.lightPos i) (u.lightColor i)).z else 0)⟩ := by
  have hn : u.numLights.toNat ≤ NUM_LIGHTS := by
    show u.numLights.toNat ≤ 6
    omega
  have hc : ∀ (P n w a b : Vec3 α),
      gouraudLightContrib sqrt P n w a b = phongLightContrib sqrt P n w a b := by
    intro P n w a b
    simp only [gouraudLightContrib, phongLightContrib, gouraudAttenuation, phongAttenuation,
      gouraudAttenuationDenominator, phongAttenuationDenominator, gouraudDiffuse, phongDiffuse,
      gouraudDiff, phongDiff, gouraudLightDir, phongLightDir, gouraudSpecular, phongSpecular,
      gouraudSpec, phongSpec, gouraudHalfwayDir, phongHalfwayDir]
  simp only [gouraudVertex, gouraudLoop_eq_phongLoop, phongLoop,
    phong_foldlM_range sqrt u _ _ _ _ _ hn, Option.map_some', hc, vec3_mul_x, vec3_mul_y,
    vec3_mul_z, sum_active_mul, Vec3.splat, Option.some.injEq]
  ext
  · simp only
    ring
  · simp only
    ring
  · simp only
    ring

/-- The product of the upper-left block of a `mat4` with a `vec3`, entry by entry. -/
theorem mat3_mulVec3 (m : Mat4 α) (v : Vec3 α) :
    Mat3.mulVec3 (mat3 m) v =
      ⟨m 0 0 * v.x + m 0 1 * v.y + m 0 2 * v.z,
       m 1 0 * v.x + m 1 1 * v.y + m 1 2 * v.z,
       m 2 0 * v.x + m 2 1 * v.y + m 2 2 * v.z⟩ := by
  ext <;> simp [Mat3.mulVec3, mat3, Matrix.vecHead, Matrix.vecTail]


/-- The litColor of the Gouraud vertex shader in closed form, for `numLights ≤ 6`:
`objectColor * (0.05 + sum of the active lights' contributions)`. -/
theorem gouraudVertex_litColor_closed (sqrt : α → α) (u : Uniforms α) (aPos aNormal : Vec3 α)
    (aTexCoord : Vec2 α) (h6 : u.numLights ≤ 6) :
    (gouraudVertex sqrt u aPos aNormal aTexCoord).map GouraudVaryings.litColor =
      some (u.objectColor * (Vec3.splat 0.05 + activeLightSum
        (fun i => gouraudLightContrib sqrt (vertexWorldPos u aPos)
          (normalize sqrt (vertexWorldNormal u aNormal))
          (normalize sqrt (u.viewPos - vertexWorldPos u aPos))
          (u.lightPos i) (u.lightColor i)) u.numLights)) := by
  have hlt : ∀ i : Fin NUM_LIGHTS,
      (((i : Nat) : Int) < u.numLights) = ((i : Nat) < u.numLights.toNat) := by
    intro i
    apply propext
    constructor <;> intro h <;> omega
  rw [gouraudVertex_litColor sqrt u aPos aNormal aTexCoord h6]
  simp only [activeLightSum, vertexWorldPos, vertexWorldNormal, hlt, Vec3.splat,
    Option.some.injEq]
  ext <;> rfl

/-- The determinant of `scaledModel` over the rationals. -/
theorem scaledModel_det : (scaledModel ℚ).det = 24 := by
  simp [scaledModel, Matrix.det_succ_row_zero, Fin.sum_univ_succ, Fin.succAbove]
  norm_num

end ShaderLemmas

section HostBasics

variable {α : Type}

/-! ## Auxiliary facts: the host program -/


/-- The shading toggle rewrites three fields of the state and nothing else. -/
theorem shadingToggle_eq_update (keys : Keys) (s : AppState α) :
    shadingToggle keys s =
      { s with
        activeProgram := (shadingToggle keys s).activeProgram
        lastActiveProgram := (shadingToggle keys s).lastActiveProgram
        stdout := (shadingToggle keys s).stdout } := by
  simp only [shadingToggle]
  split_ifs <;> rfl

/-- The program selected by the shading toggle. -/
theorem shadingToggle_activeProgram (keys : Keys) (s : AppState α) :
    (shadingToggle keys s).activeProgram =
      if keys.key2 then s.gouraudProgram
      else if keys.key1 then s.phongProgram else s.activeProgram := by
  simp only [shadingToggle]
  split_ifs <;> rfl

/-- The shading toggle keeps the names of the two programs. -/
theorem shadingToggle_programs (keys : Keys) (s : AppState α) :
    (shadingToggle keys s).phongProgram = s.phongProgram ∧
    (shadingToggle keys s).gouraudProgram = s.gouraudProgram := by
  rw [shadingToggle_eq_update]
  exact ⟨rfl, rfl⟩


/-- A `mapM` in `Option` whose every step has a value has the list of those values. -/
theorem mapM_option_eq_some {β γ : Type} (f : β → Option γ) (g : β → γ) :
    ∀ l : List β, (∀ i ∈ l, f i = some (g i)) → l.mapM f = some (l.map g) := by
  intro l
  induction l with
  | nil =>
    intro _
    rfl
  | cons a t ih =>
    intro h
    rw [List.mapM_cons, h a (List.mem_cons_self a t),
      ih (fun i hi => h i (List.mem_cons_of_mem a hi))]
    rfl

/-- The conversion to `int` keeps a size below `2^31`. -/
theorem toInt32_of_lt (n : Nat) (h : n < 2 ^ 31) : toInt32 n = (n : Int) := by
  unfold toInt32 wrapInt32
  omega

/-- A read inside a list has the value `getD` names. -/
theorem getElem?_eq_some_getD {β : Type} (l : List β) (i : Nat) (d : β) (h : i < l.length) :
    l[i]? = some (l.getD i d) := by
  rw [List.getD_eq_getElem?_getD, List.getElem?_eq_getElem h]
  rfl

/-- The number of lights sent, for a list of fewer than `2^31` bulbs. -/
theorem numToSend_eq (bulbPositions : List (Vec3 α)) (h : bulbPositions.length < 2 ^ 31) :
    numToSend bulbPositions = min (bulbPositions.length : Int) 6 := by
  simp only [numToSend, toInt32_of_lt _ h, NUM_BULBS]


theorem staysOn_uniform (p : Nat) (name : String) (v : UniformValue α) :
    (GLCall.uniform p name v).staysOn p :=
  ⟨rfl, fun q h => by
    simp only [GLCall.lookupProgram, Option.some.injEq] at h
    exact h.symm⟩

theorem staysOn_bindVertexArray (p vao : Nat) :
    (GLCall.bindVertexArray vao : GLCall α).staysOn p :=
  ⟨rfl, fun q h => by simp [GLCall.lookupProgram] at h⟩

theorem staysOn_drawElements (p : Nat) (count : Int) (off : Nat) :
    (GLCall.drawElements count off : GLCall α).staysOn p :=
  ⟨rfl, fun q h => by simp [GLCall.lookupProgram] at h⟩

theorem staysOn_activeTexture0 (p : Nat) : (GLCall.activeTexture0 : GLCall α).staysOn p :=
  ⟨rfl, fun q h => by simp [GLCall.lookupProgram] at h⟩

theorem staysOn_bindTexture (p tex : Nat) : (GLCall.bindTexture tex : GLCall α).staysOn p :=
  ⟨rfl, fun q h => by simp [GLCall.lookupProgram] at h⟩

theorem staysOn_swapBuffers (p : Nat) : (GLCall.swapBuffers : GLCall α).staysOn p :=
  ⟨rfl, fun q h => by simp [GLCall.lookupProgram] at h⟩

/-- Every call of `setTexture` stays on the program passed to it. -/
theorem setTexture_staysOn (p : Nat) (enabled : Bool) (tex : Nat) (col : Vec3 α) :
    ∀ c ∈ setTexture p enabled tex col, c.staysOn p := by
  intro c hc
  simp only [setTexture, List.mem_cons] at hc
  rcases hc with rfl | hc
  · exact staysOn_uniform p _ _
  · split_ifs at hc
    · simp only [List.mem_cons, List.mem_singleton, List.not_mem_nil, or_false] at hc
      rcases hc with rfl | rfl
      · exact staysOn_activeTexture0 p
      · exact staysOn_bindTexture p _
    · simp only [List.mem_singleton] at hc
      subst hc
      exact staysOn_uniform p _ _

/-- While no `glUseProgram` is issued the program in use stays the same. -/
theorem programInUse_of_staysOn (p : Nat) :
    ∀ l : List (GLCall α), (∀ c ∈ l, c.staysOn p) →
      ∀ x ∈ programInUse (some p) l, x.2 = some p ∧ x.1.staysOn p := by
  intro l
  induction l with
  | nil =>
    intro _ x hx
    simp [programInUse] at hx
  | cons c t ih =>
    intro h x hx
    have hc := h c (List.mem_cons_self c t)
    have ht := ih (fun d hd => h d (List.mem_cons_of_mem c hd))
    cases c with
    | useProgram q =>
      have := hc.1
      simp [GLCall.isUseProgram] at this
    | clearColor r g b a =>
      simp only [programInUse, List.mem_cons] at hx
      rcases hx with rfl | hx
      · exact ⟨rfl, hc⟩
      · exact ht x hx
    | clear =>
      simp only [programInUse, List.mem_cons] at hx
      rcases hx with rfl | hx
      · exact ⟨rfl, hc⟩
      · exact ht x hx
    | uniform q n v =>
      simp only [programInUse, List.mem_cons] at hx
      rcases hx with rfl | hx
      · exact ⟨rfl, hc⟩
      · exact ht x hx
    | bindVertexArray v =>
      simp only [programInUse, List.mem_cons] at hx
      rcases hx with rfl | hx
      · exact ⟨rfl, hc⟩
      · exact ht x hx
    | activeTexture0 =>
      simp only [programInUse, List.mem_cons] at hx
      rcases hx with rfl | hx
      · exact ⟨rfl, hc⟩
      · exact ht x hx
    | bindTexture v =>
      simp only [programInUse, List.mem_cons] at hx
      rcases hx with rfl | hx
      · exact ⟨rfl, hc⟩
      · exact ht x hx
    | drawElements n o =>
      simp only [programInUse, List.mem_cons] at hx
      rcases hx with rfl | hx
      · exact ⟨rfl, hc⟩
      · exact ht x hx
    | swapBuffers =>
      simp only [programInUse, List.mem_cons] at hx
      rcases hx with rfl | hx
      · exact ⟨rfl, hc⟩
      · exact ht x hx

end HostBasics

section HostLemmas

variable {α : Type} [LinearOrderedField α]


/-- The function `processInput` touches the camera position and the close flag only. -/
theorem processInput_programs (sqrt : α → α) (keys : Keys) (s : AppState α) :
    (processInput sqrt keys s).activeProgram = s.activeProgram ∧
    (processInput sqrt keys s).phongProgram = s.phongProgram ∧
    (processInput sqrt keys s).gouraudProgram = s.gouraudProgram ∧
    (processInput sqrt keys s).bulbPositions = s.bulbPositions ∧
    (processInput sqrt keys s).bulbColors = s.bulbColors := by
  obtain ⟨k1, k2, kW, kS, kA, kD, kSp, kLc, kEsc⟩ := keys
  cases kW <;> cases kS <;> cases kA <;> cases kD <;> cases kSp <;> cases kLc <;>
    cases kEsc <;> exact ⟨rfl, rfl, rfl, rfl, rfl⟩


/-- A round of the light loop inside both lists uploads the two entries. -/
theorem uploadLight_of_lt (p : Nat) (bulbPositions bulbColors : List (Vec3 α)) (i : Nat)
    (h1 : i < bulbPositions.length) (h2 : i < bulbColors.length) :
    uploadLight p bulbPositions bulbColors i = some (lightUploads p bulbPositions bulbColors i) := by
  simp only [uploadLight, lightUploads, getElem?_eq_some_getD bulbPositions i 0 h1,
    getElem?_eq_some_getD bulbColors i 0 h2]

/-- The light upload in closed form. -/
theorem uploadLights_eq (p : Nat) (bulbPositions bulbColors : List (Vec3 α))
    (hlen : bulbColors.length = bulbPositions.length) (hsize : bulbPositions.length < 2 ^ 31) :
    uploadLights p bulbPositions bulbColors =
      some (((List.range (min bulbPositions.length 6)).map
          (lightUploads p bulbPositions bulbColors)).flatten ++
        [GLCall.uniform p "numLights"
          (UniformValue.int (min (bulbPositions.length : Int) 6))]) := by
  have hn := numToSend_eq bulbPositions hsize
  have hnat : (min (bulbPositions.length : Int) 6).toNat = min bulbPositions.length 6 := by
    omega
  simp only [uploadLights, hn, hnat]
  rw [mapM_option_eq_some _ (lightUploads p bulbPositions bulbColors)]
  · rfl
  · intro i hi
    have hi2 : i < min bulbPositions.length 6 := List.mem_range.mp hi
    exact uploadLight_of_lt p bulbPositions bulbColors i (by omega) (by omega)

/-- The bulb setup of `main` leaves six positions and six colours. -/
theorem bulbSetup_length (α : Type) [LinearOrderedField α] :
    (bulbSetup α).1.length = 6 ∧ (bulbSetup α).2.length = 6 := by
  have h : ¬ toInt32 6 > NUM_BULBS := by decide
  simp [bulbSetup, List.range_succ, h]


/-- Every call of a light upload round stays on the active program. -/
theorem lightUploads_staysOn (p : Nat) (bp bc : List (Vec3 α)) (i : Nat) :
    ∀ c ∈ lightUploads p bp bc i, c.staysOn p := by
  intro c hc
  simp only [lightUploads, List.mem_cons, List.mem_singleton, List.not_mem_nil, or_false] at hc
  rcases hc with rfl | rfl <;> exact staysOn_uniform p _ _

/-- Every call of a light-box round stays on the program passed to `drawScene`. -/
theorem drawLightBox_staysOn (p : Nat) (bp bc : List (Vec3 α)) (i : Nat) (l : List (GLCall α))
    (h : drawLightBox p bp bc i = some l) : ∀ c ∈ l, c.staysOn p := by
  simp only [drawLightBox] at h
  split at h
  · simp only [Option.some.injEq] at h
    subst h
    intro c hc
    simp only [List.mem_append, List.mem_singleton] at hc
    rcases hc with (rfl | hc) | rfl
    · exact staysOn_uniform p _ _
    · exact setTexture_staysOn p _ _ _ c hc
    · exact staysOn_drawElements p _ _
  · simp at h

/-- Every call of a bench column stays on the program passed to `drawScene`. -/
theorem drawBenchColumn_staysOn (p : Nat) (mesh : Mesh α) (colX : α) (rows : Nat) :
    ∀ c ∈ drawBenchColumn p mesh colX rows, c.staysOn p := by
  intro c hc
  simp only [drawBenchColumn, List.mem_flatMap, List.mem_cons, List.mem_singleton,
    List.not_mem_nil, or_false] at hc
  obtain ⟨r, -, rfl | rfl⟩ := hc
  · exact staysOn_uniform p _ _
  · exact staysOn_drawElements p _ _

/-- Every call issued for one mesh stays on the program passed to `drawScene`. -/
theorem drawMesh_staysOn (p : Nat) (mesh : Mesh α) :
    ∀ c ∈ drawMesh p mesh, c.staysOn p := by
  intro c hc
  simp only [drawMesh] at hc
  split_ifs at hc
  · simp at hc
  all_goals
    simp only [List.mem_append, List.mem_singleton, List.mem_cons, List.not_mem_nil,
      or_false] at hc
    rcases hc with (rfl | hc) | rfl
    · exact staysOn_bindVertexArray p _
    · first
        | (rcases hc with (((hc | hc) | hc) | hc) | hc
           · exact setTexture_staysOn p _ _ _ c hc
           · exact drawBenchColumn_staysOn p _ _ _ c hc
           · exact drawBenchColumn_staysOn p _ _ _ c hc
           · exact drawBenchColumn_staysOn p _ _ _ c hc
           · exact drawBenchColumn_staysOn p _ _ _ c hc)
        | (rcases hc with (rfl | hc) | rfl
           · exact staysOn_uniform p _ _
           · exact setTexture_staysOn p _ _ _ c hc
           · exact staysOn_drawElements p _ _)
    · exact staysOn_bindVertexArray p _


/-- A round of the light-box loop inside both lists issues its calls. -/
theorem drawLightBox_of_lt (p : Nat) (bp bc : List (Vec3 α)) (i : Nat)
    (h1 : i < bp.length) (h2 : i < bc.length) :
    drawLightBox p bp bc i = some (lightBoxCalls p bp bc i) := by
  simp only [drawLightBox, lightBoxCalls, getElem?_eq_some_getD bp i 0 h1,
    getElem?_eq_some_getD bc i 0 h2]

/-- With bulb lists of equal length below `2^31`, `drawScene` issues its calls and all of
them stay on the program passed to it. -/
theorem drawScene_staysOn (s : AppState α) (p ct ft : Nat)
    (hlen : s.bulbColors.length = s.bulbPositions.length)
    (hsize : s.bulbPositions.length < 2 ^ 31) :
    ∃ l, drawScene s p ct ft = some l ∧ ∀ c ∈ l, c.staysOn p := by
  have hm : (List.range (toInt32 s.bulbPositions.length).toNat).mapM
      (drawLightBox p s.bulbPositions s.bulbColors) =
      some ((List.range (toInt32 s.bulbPositions.length).toNat).map
        (lightBoxCalls p s.bulbPositions s.bulbColors)) := by
    apply mapM_option_eq_some
    intro i hi
    have hi2 := List.mem_range.mp hi
    rw [toInt32_of_lt _ hsize] at hi2
    exact drawLightBox_of_lt p _ _ i (by omega) (by omega)
  refine ⟨_, by
    simp only [drawScene, hm, Option.map_some']
    rfl, ?_⟩
  intro c hc
  simp only [List.mem_append, List.mem_cons, List.mem_singleton, List.not_mem_nil, or_false,
    List.mem_flatten, List.mem_map, List.mem_flatMap] at hc
  rcases hc with ((((hc | rfl) | hc) | rfl) | hc) | hc
  · rcases hc with ((((((((rfl | rfl | rfl) | hc) | rfl | rfl) | hc) | rfl) | hc) | rfl) | hc) |
      rfl | rfl
    · exact staysOn_bindVertexArray p _
    · exact staysOn_uniform p _ _
    · exact staysOn_uniform p _ _
    · exact setTexture_staysOn p _ _ _ c hc
    · exact staysOn_drawElements p _ _
    · exact staysOn_uniform p _ _
    · exact setTexture_staysOn p _ _ _ c hc
    · exact staysOn_drawElements p _ _
    · exact setTexture_staysOn p _ _ _ c hc
    · exact staysOn_drawElements p _ _
    · exact setTexture_staysOn p _ _ _ c hc
    · exact staysOn_drawElements p _ _
    · exact staysOn_bindVertexArray p _
  · exact staysOn_bindVertexArray p _
  · obtain ⟨l, ⟨i, -, rfl⟩, hcl⟩ := hc
    simp only [lightBoxCalls, List.mem_append, List.mem_singleton] at hcl
    rcases hcl with (rfl | hcl) | rfl
    · exact staysOn_uniform p _ _
    · exact setTexture_staysOn p _ _ _ c hcl
    · exact staysOn_drawElements p _ _
  · exact staysOn_bindVertexArray p _
  · obtain ⟨m, -, hcm⟩ := hc
    exact drawMesh_staysOn p m c hcm
  · rcases hc with ((rfl | rfl) | hc) | rfl | rfl
    · exact staysOn_bindVertexArray p _
    · exact staysOn_uniform p _ _
    · exact setTexture_staysOn p _ _ _ c hc
    · exact staysOn_drawElements p _ _
    · exact staysOn_bindVertexArray p _

/-- With bulb lists of equal length below `2^31`, the frame starts with `glClearColor`,
`glClear` and `glUseProgram(activeProgram)`, and every later call stays on that program. -/
theorem frameCalls_staysOn (getUniformLocation : Nat → String → Int) (p : Nat)
    (s : AppState α) (hlen : s.bulbColors.length = s.bulbPositions.length)
    (hsize : s.bulbPositions.length < 2 ^ 31) :
    ∃ rest, frameCalls getUniformLocation p s =
        some (GLCall.clearColor 0.1 0.1 0.1 1 :: GLCall.clear :: GLCall.useProgram p :: rest) ∧
      ∀ c ∈ rest, c.staysOn p := by
  obtain ⟨scene, hscene, hs⟩ := drawScene_staysOn s p s.ceilingTexture s.floorTexture hlen hsize
  have hl := uploadLights_eq p s.bulbPositions s.bulbColors hlen hsize
  refine ⟨_, by
    simp only [frameCalls, hl, hscene, Option.bind_eq_bind, Option.some_bind, Option.pure_def,
      List.cons_append, List.nil_append]
    rfl, ?_⟩
  intro c hc
  simp only [List.mem_append, List.mem_cons, List.mem_singleton, List.not_mem_nil, or_false,
    List.mem_flatten, List.mem_map] at hc
  rcases hc with rfl | rfl | hc
  · exact staysOn_uniform p _ _
  · exact staysOn_uniform p _ _
  · rcases hc with (((hc | hc) | hc) | hc) | rfl
    · rcases hc with hc | rfl
      · obtain ⟨l, ⟨i, -, rfl⟩, hcl⟩ := hc
        exact lightUploads_staysOn p _ _ i c hcl
      · exact staysOn_uniform p _ _
    · split_ifs at hc
      · simp only [List.mem_singleton] at hc
        subst hc
        exact staysOn_uniform p _ _
      · simp at hc
    · rcases hc with rfl | rfl <;> exact staysOn_uniform p _ _
    · exact hs c hc
    · exact staysOn_swapBuffers p

end HostLemmas

section ReplayBasics
variable {α : Type}

/-- Running a trace in two parts. -/
theorem runCalls_append (σ : GLState α) (l1 l2 : List (GLCall α)) :
    runCalls σ (l1 ++ l2) = runCalls (runCalls σ l1) l2 := by
  simp [runCalls, List.foldl_append]

/-- Running a trace call by call. -/
theorem runCalls_cons (σ : GLState α) (c : GLCall α) (l : List (GLCall α)) :
    runCalls σ (c :: l) = runCalls (runCall σ c) l := rfl

/-- The empty trace leaves the state. -/
theorem runCalls_nil (σ : GLState α) : runCalls σ ([] : List (GLCall α)) = σ := rfl

/-- The draw records of a trace in two parts: the second part is issued in the state the
first part leaves. -/
theorem drawRecords_append (l1 l2 : List (GLCall α)) :
    ∀ σ : GLState α,
      drawRecords σ (l1 ++ l2) = drawRecords σ l1 ++ drawRecords (runCalls σ l1) l2 := by
  induction l1 with
  | nil => intro σ; rfl
  | cons c t ih =>
    intro σ
    cases c <;> simp [drawRecords, runCalls_cons, ih, runCall]

/-- A call other than `glUseProgram` keeps the program in use. -/
theorem runCall_currentProgram (σ : GLState α) (c : GLCall α) (h : c.isUseProgram = false) :
    (runCall σ c).currentProgram = σ.currentProgram := by
  cases c <;> simp [runCall, GLCall.isUseProgram, GLState.setUniform] at h ⊢
  split_ifs <;> rfl

/-- A trace without `glUseProgram` keeps the program in use. -/
theorem runCalls_currentProgram (l : List (GLCall α)) :
    ∀ σ : GLState α, (∀ c ∈ l, c.isUseProgram = false) →
      (runCalls σ l).currentProgram = σ.currentProgram := by
  induction l with
  | nil => intro σ _; rfl
  | cons c t ih =>
    intro σ h
    rw [runCalls_cons, ih _ (fun d hd => h d (List.mem_cons_of_mem c hd)),
      runCall_currentProgram σ c (h c (List.mem_cons_self c t))]

/-- A call that is not `glUseProgram` and does not write `name` keeps the value the program
in use has for `name`. -/
theorem runCall_current (name : String) (σ : GLState α) (c : GLCall α)
    (h : c.isUseProgram = false) (hl : c.leaves name) :
    (runCall σ c).current name = σ.current name := by
  cases c with
  | uniform q n v =>
    simp only [GLCall.leaves] at hl
    simp only [runCall]
    split_ifs with hq
    · simp [GLState.current, GLState.setUniform, hq, hl]
      intro h1
      exact absurd h1.symm hl
    · rfl
  | useProgram q => simp [GLCall.isUseProgram] at h
  | _ => rfl

/-- A trace without `glUseProgram` whose calls leave `name` alone keeps the value the
program in use has for `name`. -/
theorem runCalls_current (name : String) (l : List (GLCall α)) :
    ∀ σ : GLState α, (∀ c ∈ l, c.isUseProgram = false ∧ c.leaves name) →
      (runCalls σ l).current name = σ.current name := by
  induction l with
  | nil => intro σ _; rfl
  | cons c t ih =>
    intro σ h
    have hc := h c (List.mem_cons_self c t)
    rw [runCalls_cons, ih _ (fun d hd => h d (List.mem_cons_of_mem c hd)),
      runCall_current name σ c hc.1 hc.2]

/-- Along calls that leave `uvScale` alone every draw is issued with the `uvScale` the
state had at the start. -/
theorem drawRecords_uvScale (l : List (GLCall α)) :
    ∀ σ : GLState α, (∀ c ∈ l, c.isUseProgram = false ∧ c.leaves "uvScale") →
      ∀ r ∈ drawRecords σ l, r.uvScale = σ.current "uvScale" := by
  induction l with
  | nil =>
    intro σ _ r hr
    simp [drawRecords] at hr
  | cons c t ih =>
    intro σ h r hr
    have hc := h c (List.mem_cons_self c t)
    have ht := fun τ => ih τ (fun d hd => h d (List.mem_cons_of_mem c hd))
    cases c with
    | drawElements n o =>
      simp only [drawRecords, List.mem_cons] at hr
      rcases hr with rfl | hr
      · rfl
      · exact ht σ r hr
    | useProgram q =>
      have := hc.1
      simp [GLCall.isUseProgram] at this
    | uniform q n v =>
      simp only [drawRecords] at hr
      rw [ht _ r hr, runCall_current "uvScale" σ _ hc.1 hc.2]
    | clearColor _ _ _ _ => exact ht σ r hr
    | clear => exact ht σ r hr
    | bindVertexArray _ => exact ht σ r hr
    | activeTexture0 => exact ht σ r hr
    | bindTexture _ =>
      simp only [drawRecords] at hr
      rw [ht _ r hr]
      rfl
    | swapBuffers => exact ht σ r hr

/-- A trace whose calls leave `name` alone writes nothing to it. -/
theorem uniformWrites_of_leaves (name : String) (l : List (GLCall α))
    (h : ∀ c ∈ l, c.leaves name) : uniformWrites name l = [] := by
  simp only [uniformWrites, List.filterMap_eq_nil_iff]
  intro c hc
  have := h c hc
  cases c with
  | uniform q n v =>
    simp only [GLCall.leaves] at this
    simp [this]
  | _ => rfl

/-- The writes to a uniform of a trace in two parts. -/
theorem uniformWrites_append (name : String) (l1 l2 : List (GLCall α)) :
    uniformWrites name (l1 ++ l2) = uniformWrites name l1 ++ uniformWrites name l2 := by
  simp [uniformWrites, List.filterMap_append]

end ReplayBasics

section KeepsBasics
variable {α : Type}

/-- An upload to another uniform keeps `name`. -/
theorem keeps_uniform (name : String) (p : Nat) (n : String) (v : UniformValue α)
    (h : n ≠ name) : (GLCall.uniform p n v).keeps name := ⟨rfl, h⟩

/-- The call `glBindVertexArray` keeps every uniform. -/
theorem keeps_bindVertexArray (name : String) (v : Nat) :
    (GLCall.bindVertexArray v : GLCall α).keeps name := ⟨rfl, trivial⟩

/-- The call `glDrawElements` keeps every uniform. -/
theorem keeps_drawElements (name : String) (n : Int) (o : Nat) :
    (GLCall.drawElements n o : GLCall α).keeps name := ⟨rfl, trivial⟩

/-- The call `glActiveTexture` keeps every uniform. -/
theorem keeps_activeTexture0 (name : String) : (GLCall.activeTexture0 : GLCall α).keeps name :=
  ⟨rfl, trivial⟩

/-- The call `glBindTexture` keeps every uniform. -/
theorem keeps_bindTexture (name : String) (t : Nat) :
    (GLCall.bindTexture t : GLCall α).keeps name := ⟨rfl, trivial⟩

/-- The calls of `setTexture` leave every uniform but `hasTexture` and `objectColor`. -/
theorem setTexture_keeps (name : String) (h1 : "hasTexture" ≠ name) (h2 : "objectColor" ≠ name)
    (p : Nat) (enabled : Bool) (tex : Nat) (col : Vec3 α) :
    ∀ c ∈ setTexture p enabled tex col, c.keeps name := by
  intro c hc
  simp only [setTexture, List.mem_cons] at hc
  rcases hc with rfl | hc
  · exact keeps_uniform name p _ _ h1
  · split_ifs at hc
    · simp only [List.mem_cons, List.mem_singleton, List.not_mem_nil, or_false] at hc
      rcases hc with rfl | rfl
      · exact keeps_activeTexture0 name
      · exact keeps_bindTexture name _
    · simp only [List.mem_singleton] at hc
      subst hc
      exact keeps_uniform name p _ _ h2

/-- The calls of a textured `setTexture` leave every uniform but `hasTexture`. -/
theorem setTexture_textured_keeps (name : String) (h1 : "hasTexture" ≠ name)
    (p : Nat) (tex : Nat) (htex : tex ≠ 0) (col : Vec3 α) :
    ∀ c ∈ setTexture p true tex col, c.keeps name := by
  intro c hc
  simp only [setTexture, List.mem_cons] at hc
  rcases hc with rfl | hc
  · exact keeps_uniform name p _ _ h1
  · simp only [Bool.true_and, bne_iff_ne, ne_eq, htex, not_false_eq_true, ↓reduceIte,
      List.mem_cons, List.mem_singleton, List.not_mem_nil, or_false] at hc
    rcases hc with rfl | rfl
    · exact keeps_activeTexture0 name
    · exact keeps_bindTexture name _

/-- The effect of `setTexture` on the state of the program in use. -/
theorem setTexture_effect (p : Nat) (enabled : Bool) (tex : Nat) (col : Vec3 α)
    (σ : GLState α) (hcur : σ.currentProgram = some p) :
    (runCalls σ (setTexture p enabled tex col)).currentProgram = some p ∧
    (runCalls σ (setTexture p enabled tex col)).current "hasTexture" =
      some (UniformValue.int (if enabled then 1 else 0)) ∧
    (runCalls σ (setTexture p enabled tex col)).current "objectColor" =
      (if enabled && tex != 0 then σ.current "objectColor" else some (UniformValue.vec3 col)) ∧
    (runCalls σ (setTexture p enabled tex col)).boundTexture =
      (if enabled && tex != 0 then tex else σ.boundTexture) ∧
    uniformWrites "objectColor" (setTexture p enabled tex col) =
      (if enabled && tex != 0 then [] else [UniformValue.vec3 col]) := by
  by_cases htex : tex = 0 <;> cases enabled <;>
    simp [setTexture, runCall, runCalls, hcur, htex, GLState.current, GLState.setUniform,
      uniformWrites]

/-- A trace without draw calls has no draw records. -/
theorem drawRecords_of_no_draw (l : List (GLCall α)) :
    ∀ σ : GLState α, (∀ c ∈ l, c.isDraw = false) → drawRecords σ l = [] := by
  induction l with
  | nil => intro σ _; rfl
  | cons c t ih =>
    intro σ h
    have hc := h c (List.mem_cons_self c t)
    have ht := fun τ => ih τ (fun d hd => h d (List.mem_cons_of_mem c hd))
    cases c with
    | drawElements n o => simp [GLCall.isDraw] at hc
    | _ => exact ht _

end KeepsBasics

section KeepsScene
variable {α : Type} [LinearOrderedField α]

/-- The draws of a bench column keep every uniform but `model`. -/
theorem drawBenchColumn_keeps (name : String) (h3 : "model" ≠ name) (p : Nat) (mesh : Mesh α)
    (colX : α) (rows_here : Nat) :
    ∀ c ∈ drawBenchColumn p mesh colX rows_here, c.keeps name := by
  intro c hc
  simp only [drawBenchColumn, List.mem_flatMap, List.mem_cons, List.mem_singleton,
    List.not_mem_nil, or_false] at hc
  obtain ⟨r, -, rfl | rfl⟩ := hc
  · exact keeps_uniform name p _ _ h3
  · exact keeps_drawElements name _ _

/-- The calls for one mesh keep every uniform but `hasTexture`, `objectColor` and
`model`. -/
theorem drawMesh_keeps (name : String) (h1 : "hasTexture" ≠ name) (h2 : "objectColor" ≠ name)
    (h3 : "model" ≠ name) (p : Nat) (mesh : Mesh α) :
    ∀ c ∈ drawMesh p mesh, c.keeps name := by
  intro c hc
  unfold drawMesh at hc
  split_ifs at hc with h0 hb hg hp
  · simp at hc
  all_goals
    simp only [List.mem_append, List.mem_cons, List.mem_singleton, List.not_mem_nil,
      or_false] at hc
    rcases hc with (rfl | hc) | rfl
    · exact keeps_bindVertexArray name _
    · first
        | (rcases hc with (((hc | hc) | hc) | hc) | hc
           · exact setTexture_keeps name h1 h2 p _ _ _ c hc
           · exact drawBenchColumn_keeps name h3 p _ _ _ c hc
           · exact drawBenchColumn_keeps name h3 p _ _ _ c hc
           · exact drawBenchColumn_keeps name h3 p _ _ _ c hc
           · exact drawBenchColumn_keeps name h3 p _ _ _ c hc)
        | (rcases hc with (rfl | hc) | rfl
           · exact keeps_uniform name p _ _ h3
           · exact setTexture_keeps name h1 h2 p _ _ _ c hc
           · exact keeps_drawElements name _ _)
    · exact keeps_bindVertexArray name _

/-- The calls for walls, light boxes and scene meshes keep every uniform but `hasTexture`,
`objectColor` and `model`. -/
theorem wallsToMeshesCalls_keeps (name : String) (h1 : "hasTexture" ≠ name)
    (h2 : "objectColor" ≠ name) (h3 : "model" ≠ name) (s : AppState α) (p : Nat) :
    ∀ c ∈ wallsToMeshesCalls s p, c.keeps name := by
  intro c hc
  simp only [wallsToMeshesCalls, List.mem_append, List.mem_cons, List.mem_singleton,
    List.not_mem_nil, or_false, List.mem_flatten, List.mem_map, List.mem_flatMap] at hc
  rcases hc with ((((((((hc | rfl) | hc) | rfl | rfl) | rfl) | hc) | rfl) | hc) | rfl | rfl)
  · exact setTexture_keeps name h1 h2 p _ _ _ c hc
  · exact keeps_drawElements name _ _
  · exact setTexture_keeps name h1 h2 p _ _ _ c hc
  · exact keeps_drawElements name _ _
  · exact keeps_bindVertexArray name _
  · exact keeps_bindVertexArray name _
  · obtain ⟨l, ⟨i, -, rfl⟩, hcl⟩ := hc
    simp only [lightBoxCalls, List.mem_append, List.mem_singleton] at hcl
    rcases hcl with (rfl | hcl) | rfl
    · exact keeps_uniform name p _ _ h3
    · exact setTexture_keeps name h1 h2 p _ _ _ c hcl
    · exact keeps_drawElements name _ _
  · exact keeps_bindVertexArray name _
  · obtain ⟨m, -, hcm⟩ := hc
    exact drawMesh_keeps name h1 h2 h3 p m c hcm
  · exact keeps_bindVertexArray name _
  · exact keeps_uniform name p _ _ h3

/-- The calls for the projector sheet keep every uniform but `hasTexture` and
`objectColor`. -/
theorem projectorSheetCalls_keeps (name : String) (h1 : "hasTexture" ≠ name)
    (h2 : "objectColor" ≠ name) (p : Nat) :
    ∀ c ∈ (projectorSheetCalls p : List (GLCall α)), c.keeps name := by
  intro c hc
  simp only [projectorSheetCalls, List.mem_append, List.mem_cons, List.mem_singleton,
    List.not_mem_nil, or_false] at hc
  rcases hc with hc | rfl | rfl
  · exact setTexture_keeps name h1 h2 p _ _ _ c hc
  · exact keeps_drawElements name _ _
  · exact keeps_bindVertexArray name _

end KeepsScene

section SceneLemmas
variable {α : Type} [LinearOrderedField α]

/-- With bulb lists of equal length below `2^31`, `drawScene` issues its three parts. -/
theorem drawScene_eq_parts (s : AppState α) (p ct ft : Nat)
    (hlen : s.bulbColors.length = s.bulbPositions.length)
    (hsize : s.bulbPositions.length < 2 ^ 31) :
    drawScene s p ct ft =
      some (floorCeilingCalls s p ct ft ++ (wallsToMeshesCalls s p ++ projectorSheetCalls p)) := by
  have hm : (List.range (toInt32 s.bulbPositions.length).toNat).mapM
      (drawLightBox p s.bulbPositions s.bulbColors) =
      some ((List.range (toInt32 s.bulbPositions.length).toNat).map
        (lightBoxCalls p s.bulbPositions s.bulbColors)) := by
    apply mapM_option_eq_some
    intro i hi
    have hi2 := List.mem_range.mp hi
    rw [toInt32_of_lt _ hsize] at hi2
    exact drawLightBox_of_lt p _ _ i (by omega) (by omega)
  simp only [drawScene, hm, Option.map_some']
  refine congrArg some ?_
  simp only [floorCeilingCalls, wallsToMeshesCalls, projectorSheetCalls, List.append_assoc]

end SceneLemmas

section NameLemmas

/-- No slot name `lightPos[i]` is the name `objectColor`. -/
theorem lightPos_name_ne (i : Nat) : "lightPos[" ++ toString i ++ "]" ≠ "objectColor" := by
  intro h
  have h2 := congrArg (fun s => s.data.head?) h
  simp only [String.data_append] at h2
  simp at h2

/-- No slot name `lightColor[i]` is the name `objectColor`. -/
theorem lightColor_name_ne (i : Nat) : "lightColor[" ++ toString i ++ "]" ≠ "objectColor" := by
  intro h
  have h2 := congrArg (fun s => s.data.head?) h
  simp only [String.data_append] at h2
  simp at h2

end NameLemmas

section FrameLemmas
variable {α : Type} [LinearOrderedField α]

/-- With bulb lists of equal length below `2^31`, a frame issues `glClearColor`, `glClear`,
`glUseProgram`, its uploads, the three parts of `drawScene` and `glfwSwapBuffers`. -/
theorem frameCalls_eq_parts (getUniformLocation : Nat → String → Int) (p : Nat)
    (s : AppState α) (hlen : s.bulbColors.length = s.bulbPositions.length)
    (hsize : s.bulbPositions.length < 2 ^ 31) :
    frameCalls getUniformLocation p s =
      some ([GLCall.clearColor 0.1 0.1 0.1 1, GLCall.clear, GLCall.useProgram p] ++
        (frameUploadCalls getUniformLocation p s ++
          (floorCeilingCalls s p s.ceilingTexture s.floorTexture ++
            (wallsToMeshesCalls s p ++ (projectorSheetCalls p ++ [GLCall.swapBuffers]))))) := by
  have hscene := drawScene_eq_parts s p s.ceilingTexture s.floorTexture hlen hsize
  have hl := uploadLights_eq p s.bulbPositions s.bulbColors hlen hsize
  simp only [frameCalls, hl, hscene, Option.bind_eq_bind, Option.some_bind, Option.pure_def]
  refine congrArg some ?_
  simp only [frameUploadCalls, List.append_assoc, List.cons_append, List.nil_append]

/-- The uploads of a frame before `drawScene` are uniform uploads to the active program, none
of them to `objectColor`. -/
theorem frameUploadCalls_mem (getUniformLocation : Nat → String → Int) (p : Nat)
    (s : AppState α) :
    ∀ c ∈ frameUploadCalls getUniformLocation p s,
      ∃ n v, c = GLCall.uniform p n v ∧ n ≠ "objectColor" := by
  intro c hc
  simp only [frameUploadCalls, List.mem_append, List.mem_cons, List.mem_singleton,
    List.not_mem_nil, or_false, List.mem_flatten, List.mem_map] at hc
  rcases hc with (((rfl | rfl) | (hc | rfl)) | hc) | rfl | rfl
  · exact ⟨_, _, rfl, by decide⟩
  · exact ⟨_, _, rfl, by decide⟩
  · obtain ⟨l, ⟨i, -, rfl⟩, hcl⟩ := hc
    simp only [lightUploads, List.mem_cons, List.mem_singleton, List.not_mem_nil,
      or_false] at hcl
    rcases hcl with rfl | rfl
    · exact ⟨_, _, rfl, lightPos_name_ne i⟩
    · exact ⟨_, _, rfl, lightColor_name_ne i⟩
  · exact ⟨_, _, rfl, by decide⟩
  · split_ifs at hc
    · simp only [List.mem_singleton] at hc
      subst hc
      exact ⟨_, _, rfl, by decide⟩
    · simp at hc
  · exact ⟨_, _, rfl, by decide⟩
  · exact ⟨_, _, rfl, by decide⟩

/-- The two draws of the textured part of the room and the `uvScale` each is issued with. -/
theorem floorCeilingCalls_uvScale (s : AppState α) (p ct ft : Nat) (σ : GLState α)
    (hcur : σ.currentProgram = some p) :
    ∃ r1 r2, drawRecords σ (floorCeilingCalls s p ct ft) = [r1, r2] ∧
      (r1.count = 6 ∧ r1.byteOffset = 0 ∧ r1.uvScale = some (UniformValue.vec2 8 8)) ∧
      (r2.count = 6 ∧ r2.byteOffset = 24 ∧ r2.uvScale = some (UniformValue.vec2 6 6)) ∧
      (runCalls σ (floorCeilingCalls s p ct ft)).current "uvScale" =
        some (UniformValue.vec2 6 6) ∧
      uniformWrites "uvScale" (floorCeilingCalls s p ct ft) =
        [UniformValue.vec2 8 8, UniformValue.vec2 6 6] := by
  by_cases hft : ft = 0 <;> by_cases hct : ct = 0 <;>
    simp [floorCeilingCalls, setTexture, drawRecords, runCall, runCalls, hcur, hft, hct,
      GLState.record, GLState.current, GLState.setUniform, uniformWrites] <;>
    exact ⟨_, _, ⟨rfl, rfl⟩, ⟨rfl, rfl, rfl⟩, rfl, rfl, rfl⟩

/-- With both room textures loaded, the floor and ceiling draws are issued with the
`objectColor` the program had before, and the calls up to them leave it alone. -/
theorem floorCeilingCalls_objectColor (s : AppState α) (p ct ft : Nat) (σ : GLState α)
    (hcur : σ.currentProgram = some p) (hft : ft ≠ 0) (hct : ct ≠ 0) :
    drawRecords σ (floorCeilingCalls s p ct ft) =
      [{ count := 6, byteOffset := 0, program := some p,
         hasTexture := some (UniformValue.int 1), objectColor := σ.uniforms p "objectColor",
         uvScale := some (UniformValue.vec2 8 8), texture := ft },
       { count := 6, byteOffset := 24, program := some p,
         hasTexture := some (UniformValue.int 1), objectColor := σ.uniforms p "objectColor",
         uvScale := some (UniformValue.vec2 6 6), texture := ct }] ∧
    (∀ c ∈ floorCeilingCalls s p ct ft, c.keeps "objectColor") := by
  constructor
  · simp [floorCeilingCalls, setTexture, drawRecords, runCall, hcur, hft, hct,
      GLState.record, GLState.current, GLState.setUniform]
  · intro c hc
    simp only [floorCeilingCalls, List.mem_append, List.mem_cons, List.mem_singleton,
      List.not_mem_nil, or_false] at hc
    rcases hc with ((((rfl | rfl | rfl) | hc) | rfl | rfl) | hc) | rfl
    · exact keeps_bindVertexArray _ _
    · exact keeps_uniform _ p _ _ (by decide)
    · exact keeps_uniform _ p _ _ (by decide)
    · exact setTexture_textured_keeps _ (by decide) p ft hft _ c hc
    · exact keeps_drawElements _ _ _
    · exact keeps_uniform _ p _ _ (by decide)
    · exact setTexture_textured_keeps _ (by decide) p ct hct _ c hc
    · exact keeps_drawElements _ _ _

end FrameLemmas

section FrameLemmas2
variable {α : Type} [LinearOrderedField α]

/-- The projector sheet leaves its colour in `objectColor`. -/
theorem projectorSheetCalls_effect (p : Nat) (σ : GLState α)
    (hcur : σ.currentProgram = some p) :
    (runCalls σ (projectorSheetCalls p ++ [GLCall.swapBuffers])).uniforms p "objectColor" =
      some (UniformValue.vec3 ⟨0.92, 0.92, 0.88⟩) := by
  simp [projectorSheetCalls, setTexture, runCalls, runCall, hcur, GLState.setUniform]

/-- The calls of a frame after `glUseProgram(p)` with both room textures loaded: the floor
and ceiling draws come first and are issued with the `objectColor` the program had before;
the calls leave the colour of the projector sheet in `objectColor`. -/
theorem frame_tail_objectColor (getUniformLocation : Nat → String → Int) (p : Nat)
    (s : AppState α) (τ : GLState α) (hτ : τ.currentProgram = some p)
    (hft : s.floorTexture ≠ 0) (hct : s.ceilingTexture ≠ 0) :
    ∃ rest,
      drawRecords τ (frameUploadCalls getUniformLocation p s ++
          (floorCeilingCalls s p s.ceilingTexture s.floorTexture ++
            (wallsToMeshesCalls s p ++ (projectorSheetCalls p ++ [GLCall.swapBuffers])))) =
        { count := 6, byteOffset := 0, program := some p,
          hasTexture := some (UniformValue.int 1), objectColor := τ.uniforms p "objectColor",
          uvScale := some (UniformValue.vec2 8 8), texture := s.floorTexture } ::
        { count := 6, byteOffset := 24, program := some p,
          hasTexture := some (UniformValue.int 1), objectColor := τ.uniforms p "objectColor",
          uvScale := some (UniformValue.vec2 6 6), texture := s.ceilingTexture } :: rest ∧
      (runCalls τ (frameUploadCalls getUniformLocation p s ++
          (floorCeilingCalls s p s.ceilingTexture s.floorTexture ++
            (wallsToMeshesCalls s p ++ (projectorSheetCalls p ++ [GLCall.swapBuffers]))))).uniforms
          p "objectColor" = some (UniformValue.vec3 ⟨0.92, 0.92, 0.88⟩) := by
  have hU := frameUploadCalls_mem getUniformLocation p s
  have hUk : ∀ c ∈ frameUploadCalls getUniformLocation p s,
      c.isUseProgram = false ∧ c.leaves "objectColor" := by
    intro c hc
    obtain ⟨n, v, rfl, hn⟩ := hU c hc
    exact ⟨rfl, hn⟩
  have hUd : ∀ c ∈ frameUploadCalls getUniformLocation p s, c.isDraw = false := by
    intro c hc
    obtain ⟨n, v, rfl, -⟩ := hU c hc
    rfl
  have hc1 := runCalls_currentProgram _ τ (fun c hc => (hUk c hc).1)
  rw [hτ] at hc1
  have ho1 := runCalls_current "objectColor" _ τ hUk
  simp only [GLState.current, hc1, hτ, Option.some_bind] at ho1
  obtain ⟨hA, hAk⟩ := floorCeilingCalls_objectColor s p s.ceilingTexture s.floorTexture
    (runCalls τ (frameUploadCalls getUniformLocation p s)) hc1 hft hct
  have hM := wallsToMeshesCalls_keeps "uvScale" (by decide) (by decide) (by decide) s p
  have hc2 := (runCalls_currentProgram _ (runCalls τ (frameUploadCalls getUniformLocation p s))
    (fun c hc => (hAk c hc).1)).trans hc1
  have hc3 := (runCalls_currentProgram _ _ (fun c hc => (hM c hc).1)).trans hc2
  refine ⟨drawRecords (runCalls (runCalls τ (frameUploadCalls getUniformLocation p s))
      (floorCeilingCalls s p s.ceilingTexture s.floorTexture))
        (wallsToMeshesCalls s p ++ (projectorSheetCalls p ++ [GLCall.swapBuffers])), ?_, ?_⟩
  · rw [drawRecords_append, drawRecords_of_no_draw _ _ hUd, drawRecords_append, hA, ho1]
    exact rfl
  · rw [runCalls_append, runCalls_append, runCalls_append]
    exact projectorSheetCalls_effect p _ hc3

/-- The three calls that open a frame draw nothing. -/
theorem frame_start_records (σ : GLState α) (p : Nat) :
    drawRecords σ [GLCall.clearColor 0.1 0.1 0.1 1, GLCall.clear, GLCall.useProgram p] = [] :=
  rfl

/-- The three calls that open a frame put program `p` in use. -/
theorem frame_start_state (σ : GLState α) (p : Nat) :
    runCalls σ [GLCall.clearColor 0.1 0.1 0.1 1, GLCall.clear, GLCall.useProgram p] =
      { σ with currentProgram := some p } :=
  rfl

/-- A frame on program `p` with both room textures loaded: the floor and ceiling draws come
first and are issued with the `objectColor` the program had before the frame; the frame
leaves the colour of the projector sheet in `objectColor`. -/
theorem frame_objectColor (getUniformLocation : Nat → String → Int) (p : Nat)
    (s : AppState α) (σ : GLState α)
    (hlen : s.bulbColors.length = s.bulbPositions.length)
    (hsize : s.bulbPositions.length < 2 ^ 31)
    (hft : s.floorTexture ≠ 0) (hct : s.ceilingTexture ≠ 0) :
    ∃ f rest, frameCalls getUniformLocation p s = some f ∧
      drawRecords σ f =
        { count := 6, byteOffset := 0, program := some p,
          hasTexture := some (UniformValue.int 1), objectColor := σ.uniforms p "objectColor",
          uvScale := some (UniformValue.vec2 8 8), texture := s.floorTexture } ::
        { count := 6, byteOffset := 24, program := some p,
          hasTexture := some (UniformValue.int 1), objectColor := σ.uniforms p "objectColor",
          uvScale := some (UniformValue.vec2 6 6), texture := s.ceilingTexture } :: rest ∧
      (runCalls σ f).uniforms p "objectColor" = some (UniformValue.vec3 ⟨0.92, 0.92, 0.88⟩) := by
  obtain ⟨rest, h1, h2⟩ := frame_tail_objectColor getUniformLocation p s
    { σ with currentProgram := some p } rfl hft hct
  refine ⟨_, rest, frameCalls_eq_parts getUniformLocation p s hlen hsize, ?_, ?_⟩
  · rw [drawRecords_append, frame_start_records, frame_start_state, List.nil_append]
    exact h1
  · rw [runCalls_append, frame_start_state]
    exact h2

end FrameLemmas2

section HostLemmas2
variable {α : Type} [LinearOrderedField α]

/-- The bulb setup of `main` evaluated: six positions in row-major order and six colours. -/
theorem bulbSetup_eq (α : Type) [LinearOrderedField α] :
    bulbSetup α =
      ([⟨-8, 4.85, -6⟩, ⟨0, 4.85, -6⟩, ⟨8, 4.85, -6⟩,
        ⟨-8, 4.85, 6⟩, ⟨0, 4.85, 6⟩, ⟨8, 4.85, 6⟩],
       [⟨1, 1, 0.95⟩, ⟨1, 1, 0.95⟩, ⟨1, 1, 0.95⟩,
        ⟨1, 1, 0.95⟩, ⟨1, 1, 0.95⟩, ⟨1, 1, 0.95⟩]) := by
  have hr2 : List.range 2 = [0, 1] := rfl
  have hr3 : List.range 3 = [0, 1, 2] := rfl
  have h6 : ¬ (toInt32 6 > NUM_BULBS) := by decide
  simp only [bulbSetup, hr2, hr3, List.flatMap_cons, List.flatMap_nil, List.map_cons,
    List.map_nil, List.append_nil, List.cons_append, List.nil_append, List.length_cons,
    List.length_nil]
  norm_num [h6]

/-- The bulb lists and the legacy light position of the state in which `main` enters the
render loop. -/
theorem mainSetup_bulbs (phongProgram gouraudProgram ceilingTexture floorTexture roomVAO
    projectorVAO lightBoxVAO : Nat) (podiums gbs benches : List (Mesh α)) :
    (mainSetup phongProgram gouraudProgram ceilingTexture floorTexture roomVAO projectorVAO
        lightBoxVAO podiums gbs benches).bulbPositions =
      [⟨-8, 4.85, -6⟩, ⟨0, 4.85, -6⟩, ⟨8, 4.85, -6⟩,
       ⟨-8, 4.85, 6⟩, ⟨0, 4.85, 6⟩, ⟨8, 4.85, 6⟩] ∧
    (mainSetup phongProgram gouraudProgram ceilingTexture floorTexture roomVAO projectorVAO
        lightBoxVAO podiums gbs benches).bulbColors =
      [⟨1, 1, 0.95⟩, ⟨1, 1, 0.95⟩, ⟨1, 1, 0.95⟩, ⟨1, 1, 0.95⟩, ⟨1, 1, 0.95⟩, ⟨1, 1, 0.95⟩] ∧
    (mainSetup phongProgram gouraudProgram ceilingTexture floorTexture roomVAO projectorVAO
        lightBoxVAO podiums gbs benches).lightPos = ⟨-8, 4.85, -6⟩ := by
  unfold mainSetup
  rw [bulbSetup_eq α]
  exact ⟨rfl, rfl, rfl⟩

/-- The bulb lists of the start-up state have equal length, below `2^31`. -/
theorem mainSetup_bulb_lengths (phongProgram gouraudProgram ceilingTexture floorTexture roomVAO
    projectorVAO lightBoxVAO : Nat) (podiums gbs benches : List (Mesh α)) :
    (mainSetup phongProgram gouraudProgram ceilingTexture floorTexture roomVAO projectorVAO
        lightBoxVAO podiums gbs benches).bulbColors.length =
      (mainSetup phongProgram gouraudProgram ceilingTexture floorTexture roomVAO projectorVAO
        lightBoxVAO podiums gbs benches).bulbPositions.length ∧
    (mainSetup phongProgram gouraudProgram ceilingTexture floorTexture roomVAO projectorVAO
        lightBoxVAO podiums gbs benches).bulbPositions.length < 2 ^ 31 := by
  obtain ⟨h1, h2, -⟩ := mainSetup_bulbs phongProgram gouraudProgram ceilingTexture floorTexture
    roomVAO projectorVAO lightBoxVAO podiums gbs benches
  rw [h1, h2]
  exact ⟨rfl, by norm_num⟩

/-- The textures of the start-up state are the ones passed to it. -/
theorem mainSetup_textures (phongProgram gouraudProgram ceilingTexture floorTexture roomVAO
    projectorVAO lightBoxVAO : Nat) (podiums gbs benches : List (Mesh α)) :
    (mainSetup phongProgram gouraudProgram ceilingTexture floorTexture roomVAO projectorVAO
        lightBoxVAO podiums gbs benches).floorTexture = floorTexture ∧
    (mainSetup phongProgram gouraudProgram ceilingTexture floorTexture roomVAO projectorVAO
        lightBoxVAO podiums gbs benches).ceilingTexture = ceilingTexture :=
  ⟨rfl, rfl⟩

end HostLemmas2

section BoundLemmas
variable {α : Type} [LinearOrderedField α]

end BoundLemmas

section BoundLemmas2
variable {α : Type} [LinearOrderedField α]

end BoundLemmas2

section LoaderBasics

/-- An `int` value is not changed by the 32-bit wrap. -/
theorem wrapInt32_of_range (x : Int) (h0 : -2 ^ 31 ≤ x) (h1 : x < 2 ^ 31) : wrapInt32 x = x := by
  unfold wrapInt32
  omega

/-- The conversion `(size_t)e` keeps a non-negative `int`. -/
theorem toSizeT_of_nonneg (e : Int) (h0 : 0 ≤ e) (h1 : e < 2 ^ 31) : toSizeT e = e.toNat := by
  unfold toSizeT
  rw [Int.emod_eq_of_lt h0 (by omega)]

/-- Without overflow the offset `3 * index + j` is computed exactly. -/
theorem toSizeT_intMulAdd_three (index j : Int) (h0 : 0 ≤ index) (h1 : 3 * index + 2 < 2 ^ 31)
    (hj0 : 0 ≤ j) (hj2 : j ≤ 2) :
    toSizeT (intMulAdd 3 index j) = 3 * index.toNat + j.toNat := by
  unfold intMulAdd
  rw [wrapInt32_of_range (3 * index) (by omega) (by omega),
    wrapInt32_of_range (3 * index + j) (by omega) (by omega),
    toSizeT_of_nonneg _ (by omega) (by omega)]
  omega

/-- Without overflow the offset `2 * index + j` is computed exactly. -/
theorem toSizeT_intMulAdd_two (index j : Int) (h0 : 0 ≤ index) (h1 : 2 * index + 1 < 2 ^ 31)
    (hj0 : 0 ≤ j) (hj2 : j ≤ 1) :
    toSizeT (intMulAdd 2 index j) = 2 * index.toNat + j.toNat := by
  unfold intMulAdd
  rw [wrapInt32_of_range (2 * index) (by omega) (by omega),
    wrapInt32_of_range (2 * index + j) (by omega) (by omega),
    toSizeT_of_nonneg _ (by omega) (by omega)]
  omega

end LoaderBasics

section LoaderLemmas
variable {α : Type} [LinearOrderedField α]

/-- Without overflow the position block of the interleave loop pushes the referenced
position. -/
theorem emitPosition_eq (attrib : attrib_t α) (idx : index_t)
    (h : 3 * idx.vertex_index + 2 < 2 ^ 31) :
    emitPosition attrib idx = some (referencedPosition attrib idx) := by
  unfold emitPosition referencedPosition
  by_cases h0 : 0 ≤ idx.vertex_index
  · have e0 := toSizeT_intMulAdd_three idx.vertex_index 0 h0 h (le_refl 0) (by norm_num)
    have e1 := toSizeT_intMulAdd_three idx.vertex_index 1 h0 h (by norm_num) (by norm_num)
    have e2 := toSizeT_intMulAdd_three idx.vertex_index 2 h0 h (by norm_num) (by norm_num)
    simp only [Int.toNat_zero, Int.toNat_one, add_zero] at e0 e1
    have e2' : toSizeT (intMulAdd 3 idx.vertex_index 2) = 3 * idx.vertex_index.toNat + 2 := e2
    simp only [readAt, e0, e1, e2', ge_iff_le, h0, true_and]
    split_ifs with hlt
    · rw [getElem?_eq_some_getD attrib.vertices _ 0 (by omega),
        getElem?_eq_some_getD attrib.vertices _ 0 (by omega),
        getElem?_eq_some_getD attrib.vertices _ 0 hlt]
    · rfl
  · simp [h0]

/-- Without overflow the normal block of the interleave loop pushes the referenced normal. -/
theorem emitNormal_eq (attrib : attrib_t α) (idx : index_t)
    (h : 3 * idx.normal_index + 2 < 2 ^ 31) :
    emitNormal attrib idx = some (referencedNormal attrib idx) := by
  unfold emitNormal referencedNormal
  by_cases h0 : 0 ≤ idx.normal_index
  · have e0 := toSizeT_intMulAdd_three idx.normal_index 0 h0 h (le_refl 0) (by norm_num)
    have e1 := toSizeT_intMulAdd_three idx.normal_index 1 h0 h (by norm_num) (by norm_num)
    have e2 := toSizeT_intMulAdd_three idx.normal_index 2 h0 h (by norm_num) (by norm_num)
    simp only [Int.toNat_zero, Int.toNat_one, add_zero] at e0 e1
    have e2' : toSizeT (intMulAdd 3 idx.normal_index 2) = 3 * idx.normal_index.toNat + 2 := e2
    simp only [readAt, e0, e1, e2', ge_iff_le, h0, true_and]
    split_ifs with hlt
    · rw [getElem?_eq_some_getD attrib.normals _ 0 (by omega),
        getElem?_eq_some_getD attrib.normals _ 0 (by omega),
        getElem?_eq_some_getD attrib.normals _ 0 hlt]
    · rfl
  · simp [h0]

/-- Without overflow the texcoord block of the interleave loop pushes the referenced
texture coordinate. -/
theorem emitTexcoord_eq (attrib : attrib_t α) (idx : index_t)
    (h : 2 * idx.texcoord_index + 1 < 2 ^ 31) :
    emitTexcoord attrib idx = some (referencedTexcoord attrib idx) := by
  unfold emitTexcoord referencedTexcoord
  by_cases h0 : 0 ≤ idx.texcoord_index
  · have e0 := toSizeT_intMulAdd_two idx.texcoord_index 0 h0 h (le_refl 0) (by norm_num)
    have e1 := toSizeT_intMulAdd_two idx.texcoord_index 1 h0 h (by norm_num) (by norm_num)
    simp only [Int.toNat_zero, add_zero] at e0
    have e1' : toSizeT (intMulAdd 2 idx.texcoord_index 1) = 2 * idx.texcoord_index.toNat + 1 :=
      e1
    simp only [readAt, e0, e1', ge_iff_le, h0, true_and]
    split_ifs with hlt
    · rw [getElem?_eq_some_getD attrib.texcoords _ 0 (by omega),
        getElem?_eq_some_getD attrib.texcoords _ 0 hlt]
    · rfl
  · simp [h0]

/-- Without overflow the body of the interleave loop pushes the referenced vertex. -/
theorem emitVertex_eq (attrib : attrib_t α) (idx : index_t) (h : NoIndexOverflow idx) :
    emitVertex attrib idx = some (referencedVertex attrib idx) := by
  simp only [emitVertex, emitPosition_eq attrib idx h.1.2, emitNormal_eq attrib idx h.2.1.2,
    emitTexcoord_eq attrib idx h.2.2.2, referencedVertex]

/-- The referenced vertex has eight floats. -/
theorem referencedVertex_length (attrib : attrib_t α) (idx : index_t) :
    (referencedVertex attrib idx).length = 8 := by
  simp only [referencedVertex, referencedPosition, referencedNormal, referencedTexcoord,
    List.length_append]
  split_ifs <;> rfl

end LoaderLemmas

section ListBasics
variable {β γ : Type}

/-- An option-valued loop whose steps all succeed is the plain loop. -/
theorem foldlM_option_eq_foldl (f : γ → β → Option γ) (g : γ → β → γ) (l : List β)
    (h : ∀ i ∈ l, ∀ a, f a i = some (g a i)) :
    ∀ a, l.foldlM f a = some (l.foldl g a) := by
  induction l with
  | nil => intro a; rfl
  | cons x t ih =>
    intro a
    rw [List.foldlM_cons, h x (List.mem_cons_self x t) a]
    exact ih (fun i hi => h i (List.mem_cons_of_mem x hi)) _

/-- Reading a list after one write. -/
theorem getD_set_eq (l : List β) (i j : Nat) (a d : β) :
    (l.set i a).getD j d = if i = j ∧ i < l.length then a else l.getD j d := by
  simp only [List.getD_eq_getElem?_getD, List.getElem?_set]
  by_cases hij : i = j
  · subst hij
    by_cases hl : i < l.length
    · simp [hl]
    · have hn : l[i]? = none := List.getElem?_eq_none (by omega)
      simp [hl, hn]
  · simp [hij]

end ListBasics

section InterleaveLemmas
variable {α : Type} [LinearOrderedField α]

/-- Without overflow the interleave loop, started from any buffers, appends the referenced
vertices and the next sizes of the index buffer, reduced modulo `2^32`. -/
theorem interleave_foldlM (attrib : attrib_t α) (l : List index_t)
    (h : ∀ idx ∈ l, NoIndexOverflow idx) :
    ∀ acc : List α × List Nat,
      l.foldlM (fun (acc : List α × List Nat) idx =>
          (emitVertex attrib idx).map
            (fun v => (acc.1 ++ v, acc.2 ++ [acc.2.length % 2 ^ 32]))) acc =
        some (acc.1 ++ l.flatMap (referencedVertex attrib),
          acc.2 ++ (List.range' acc.2.length l.length).map (fun k => k % 2 ^ 32)) := by
  induction l with
  | nil => intro acc; simp
  | cons x t ih =>
    intro acc
    rw [List.foldlM_cons, emitVertex_eq attrib x (h x (List.mem_cons_self x t))]
    simp only [Option.map_some', Option.bind_eq_bind, Option.some_bind]
    rw [ih (fun i hi => h i (List.mem_cons_of_mem x hi))]
    simp [List.range'_succ, List.append_assoc]

/-- Without overflow the interleave loop builds the referenced vertices in face-index order
and the index buffer `0, 1, ..., n - 1` reduced modulo `2^32`. -/
theorem interleave_eq (attrib : attrib_t α) (l : List index_t)
    (h : ∀ idx ∈ l, NoIndexOverflow idx) :
    interleave attrib l =
      some (l.flatMap (referencedVertex attrib), (List.range l.length).map (fun k => k % 2 ^ 32)) := by
  unfold interleave
  rw [interleave_foldlM attrib l h]
  simp [List.range_eq_range']

/-- The interleaved buffer of `n` face indices has `8 * n` floats. -/
theorem flatMap_referencedVertex_length (attrib : attrib_t α) (l : List index_t) :
    (l.flatMap (referencedVertex attrib)).length = 8 * l.length := by
  induction l with
  | nil => rfl
  | cons x t ih =>
    rw [List.flatMap_cons, List.length_append, ih, referencedVertex_length, List.length_cons]
    ring

/-- Below `2^32` entries the index buffer is the identity sequence. -/
theorem range_map_mod (n : Nat) (hn : n ≤ 2 ^ 32) :
    (List.range n).map (fun k => k % 2 ^ 32) = List.range n := by
  have h : ∀ k ∈ List.range n, (fun k => k % 2 ^ 32) k = id k := by
    intro k hk
    have hk2 := List.mem_range.mp hk
    exact Nat.mod_eq_of_lt (by omega)
  rw [List.map_congr_left h, List.map_id]

end InterleaveLemmas

section RemapLemmas
variable {α : Type} [LinearOrderedField α]

/-- The divisor of the UV remap is positive. -/
theorem uvRange_pos (lo hi : α) : 0 < uvRange lo hi := by
  simp only [uvRange]
  split_ifs with h
  · exact zero_lt_one
  · have h1 : (0 : α) < 1e-6 := by norm_num
    exact lt_of_lt_of_le h1 (not_lt.mp h)

/-- A value between the bounds is remapped into `[0, 1]`. -/
theorem remap_value_bounds (lo hi x : α) (h1 : lo ≤ x) (h2 : x ≤ hi) :
    0 ≤ (x - lo) / uvRange lo hi ∧ (x - lo) / uvRange lo hi ≤ 1 := by
  have hp := uvRange_pos lo hi
  refine ⟨div_nonneg (by linarith) (le_of_lt hp), ?_⟩
  rw [div_le_one hp]
  simp only [uvRange]
  split_ifs with h
  · have h3 : (1e-6 : α) ≤ 1 := by norm_num
    linarith
  · linarith

/-- With a range of at least `1e-6` the upper bound is remapped to one. -/
theorem remap_value_max (lo hi : α) (h : 1e-6 ≤ hi - lo) : (hi - lo) / uvRange lo hi = 1 := by
  have hr : uvRange lo hi = hi - lo := by
    simp only [uvRange]
    rw [if_neg (not_lt.mpr h)]
  rw [hr]
  have h1 : (0 : α) < 1e-6 := by norm_num
  exact div_self (ne_of_gt (lt_of_lt_of_le h1 h))

/-- A round of the first loop of the UV remap inside the buffer. -/
theorem uvBoundsStep_of_lt (vertices : List α) (b : UVBounds α) (i : Nat)
    (hi : i < vertices.length / 8) :
    uvBoundsStep vertices b i =
      some ⟨min b.minU (vertices.getD (i * 8 + 6) 0), min b.minV (vertices.getD (i * 8 + 7) 0),
        max b.maxU (vertices.getD (i * 8 + 6) 0), max b.maxV (vertices.getD (i * 8 + 7) 0)⟩ := by
  simp only [uvBoundsStep, getElem?_eq_some_getD vertices (i * 8 + 6) 0 (by omega),
    getElem?_eq_some_getD vertices (i * 8 + 7) 0 (by omega)]

/-- The first loop of the UV remap reads inside the buffer and leaves the running bounds
after `vertices.size() / 8` rounds. -/
theorem uvBounds_eq (vertices : List α) :
    uvBounds vertices = some (uvBoundsAfter vertices (vertices.length / 8)) := by
  unfold uvBounds uvBoundsAfter
  apply foldlM_option_eq_foldl
  intro i hi b
  exact uvBoundsStep_of_lt vertices b i (List.mem_range.mp hi)

/-- The second loop of the UV remap reads and writes inside the buffer; after `k` rounds the
buffer has its length and the entries `remappedEntry`. -/
theorem remap_foldlM (minU minV rangeU rangeV : α) (vertices : List α) (k : Nat)
    (hk : k ≤ vertices.length / 8) :
    ∃ out, (List.range k).foldlM (remapStep minU minV rangeU rangeV) vertices = some out ∧
      out.length = vertices.length ∧
      ∀ j, out.getD j 0 = remappedEntry minU minV rangeU rangeV vertices k j := by
  induction k with
  | zero =>
    refine ⟨vertices, rfl, rfl, ?_⟩
    intro j
    simp [remappedEntry]
  | succ k ih =>
    obtain ⟨out, hout, hlen, hent⟩ := ih (by omega)
    have h6 : k * 8 + 6 < out.length := by omega
    have h7 : k * 8 + 7 < out.length := by omega
    have e6 : out.getD (k * 8 + 6) 0 = vertices.getD (k * 8 + 6) 0 := by
      rw [hent, remappedEntry, if_neg (by omega), if_neg (by omega)]
    have e7 : out.getD (k * 8 + 7) 0 = vertices.getD (k * 8 + 7) 0 := by
      rw [hent, remappedEntry, if_neg (by omega), if_neg (by omega)]
    refine ⟨(out.set (k * 8 + 6) ((vertices.getD (k * 8 + 6) 0 - minU) / rangeU)).set
      (k * 8 + 7) ((vertices.getD (k * 8 + 7) 0 - minV) / rangeV), ?_, ?_, ?_⟩
    · rw [List.range_succ, List.foldlM_append, hout]
      simp only [Option.bind_eq_bind, Option.some_bind, List.foldlM_cons, List.foldlM_nil,
        remapStep, getElem?_eq_some_getD out _ 0 h6, getElem?_eq_some_getD out _ 0 h7, e6, e7,
        Option.pure_def, Option.bind_some]
    · rw [List.length_set, List.length_set, hlen]
    · intro j
      rw [getD_set_eq, getD_set_eq, List.length_set, hent]
      simp only [remappedEntry]
      by_cases c7 : k * 8 + 7 = j
      · subst c7
        rw [if_pos ⟨rfl, h7⟩, if_neg (by omega), if_pos (by omega)]
      · rw [if_neg (fun h => c7 h.1)]
        by_cases c6 : k * 8 + 6 = j
        · subst c6
          rw [if_pos ⟨rfl, h6⟩, if_pos (by omega)]
        · rw [if_neg (fun h => c6 h.1)]
          have a1 : (j / 8 < k + 1 ∧ j % 8 = 6) ↔ (j / 8 < k ∧ j % 8 = 6) := by
            constructor <;> intro h <;> refine ⟨?_, h.2⟩ <;> omega
          have a2 : (j / 8 < k + 1 ∧ j % 8 = 7) ↔ (j / 8 < k ∧ j % 8 = 7) := by
            constructor <;> intro h <;> refine ⟨?_, h.2⟩ <;> omega
          simp only [a1, a2]

/-- The UV remap reads and writes inside the buffer; it leaves the length of the buffer and
remaps the `u` and `v` of every vertex with the bounds and divisors of the first loop. -/
theorem remapUVs_eq (vertices : List α) :
    ∃ out, remapUVs vertices = some out ∧ out.length = vertices.length ∧
      ∀ j, out.getD j 0 =
        remappedEntry (uvBoundsAfter vertices (vertices.length / 8)).minU
          (uvBoundsAfter vertices (vertices.length / 8)).minV
          (uvRange (uvBoundsAfter vertices (vertices.length / 8)).minU
            (uvBoundsAfter vertices (vertices.length / 8)).maxU)
          (uvRange (uvBoundsAfter vertices (vertices.length / 8)).minV
            (uvBoundsAfter vertices (vertices.length / 8)).maxV)
          vertices (vertices.length / 8) j := by
  obtain ⟨out, h1, h2, h3⟩ := remap_foldlM
    (uvBoundsAfter vertices (vertices.length / 8)).minU
    (uvBoundsAfter vertices (vertices.length / 8)).minV
    (uvRange (uvBoundsAfter vertices (vertices.length / 8)).minU
      (uvBoundsAfter vertices (vertices.length / 8)).maxU)
    (uvRange (uvBoundsAfter vertices (vertices.length / 8)).minV
      (uvBoundsAfter vertices (vertices.length / 8)).maxV)
    vertices (vertices.length / 8) (le_refl _)
  refine ⟨out, ?_, h2, h3⟩
  simp only [remapUVs, uvBounds_eq]
  exact h1

end RemapLemmas

section ShapeLemmas
variable {α : Type} [LinearOrderedField α]

/-- The buffer `loadOBJShape` is left with after the interleave loop and the UV remap, for
face indices without overflow: it exists and has `8 * n` floats. -/
theorem finalVertices_eq (attrib : attrib_t α) (shape : shape_t) (logicalName : String) :
    ∃ vertices,
      (if logicalName = "greenboard" ∧ lowerContains shape.name "green" = true then
        remapUVs (shape.indices.flatMap (referencedVertex attrib))
       else some (shape.indices.flatMap (referencedVertex attrib))) = some vertices ∧
      vertices.length = 8 * shape.indices.length := by
  split_ifs with hc
  · obtain ⟨out, h1, h2, -⟩ := remapUVs_eq (shape.indices.flatMap (referencedVertex attrib))
    exact ⟨out, h1, by rw [h2, flatMap_referencedVertex_length]⟩
  · exact ⟨_, rfl, flatMap_referencedVertex_length attrib shape.indices⟩

/-- For a shape with face indices, none of them with overflow, `loadOBJShape` returns: the
vertex buffer is the interleaved buffer after the UV remap (if any), the index buffer is
`0, ..., n - 1` modulo `2^32`, `indexCount = n` and the OpenGL names are the generated
ones. -/
theorem loadOBJShape_eq (loadTexture : String → Nat) (genVAO genVBO genEBO : Nat)
    (attrib : attrib_t α) (shape : shape_t) (logicalName texPath : String)
    (hne : shape.indices ≠ []) (h : ∀ idx ∈ shape.indices, NoIndexOverflow idx) :
    ∃ r, loadOBJShape loadTexture genVAO genVBO genEBO attrib shape logicalName texPath =
        some r ∧
      (if logicalName = "greenboard" ∧ lowerContains shape.name "green" = true then
        remapUVs (shape.indices.flatMap (referencedVertex attrib))
       else some (shape.indices.flatMap (referencedVertex attrib))) = some r.vertices ∧
      r.vertices.length = 8 * shape.indices.length ∧
      r.indices = (List.range shape.indices.length).map (fun k => k % 2 ^ 32) ∧
      r.mesh.indexCount = shape.indices.length ∧
      r.mesh.VAO = genVAO ∧ r.mesh.VBO = genVBO ∧ r.mesh.EBO = genEBO ∧
      r.mesh.logicalName = logicalName ∧ r.mesh.shapeName = shape.name := by
  obtain ⟨vertices, hv, hl⟩ := finalVertices_eq attrib shape logicalName
  have he : shape.indices.isEmpty = false := by
    cases hs : shape.indices with
    | nil => exact absurd hs hne
    | cons x t => rfl
  have hve : vertices.isEmpty = false := by
    cases hs : vertices with
    | nil =>
      rw [hs] at hl
      have : shape.indices.length = 0 := by simpa using hl.symm
      exact absurd (List.length_eq_zero.mp this) hne
    | cons x t => rfl
  refine ⟨_, by
    simp only [loadOBJShape, he, Bool.false_eq_true, if_false, interleave_eq attrib _ h, hv, hve]
    rfl, hv, hl, ?_, ?_, rfl, rfl, rfl, rfl, rfl⟩
  · rfl
  · simp

/-- For a shape without face indices `loadOBJShape` returns the default mesh. -/
theorem loadOBJShape_empty (loadTexture : String → Nat) (genVAO genVBO genEBO : Nat)
    (attrib : attrib_t α) (shape : shape_t) (logicalName texPath : String)
    (he : shape.indices = []) :
    loadOBJShape loadTexture genVAO genVBO genEBO attrib shape logicalName texPath =
      some ⟨{ VAO := 0, VBO := 0, EBO := 0, indexCount := 0, position := Vec3.splat 0,
              color := Vec3.splat 1, hasTexture := false, textureID := 0,
              logicalName := logicalName, shapeName := shape.name }, [], []⟩ := by
  simp [loadOBJShape, he]

end ShapeLemmas

section TexPathLemmas

/-- A prefixed texture name is not empty. -/
theorem assets_append_ne_empty (name : String) : "assets/" ++ name ≠ "" := by
  intro h
  have h2 := congrArg String.length h
  simp only [String.length_append] at h2
  have h3 : "assets/".length = 7 := by decide
  have h4 : "".length = 0 := by decide
  omega

/-- With fewer than `2^31` materials `loadOBJModels` reads `materials` inside its bounds and
the path it passes on is the one of the specification. -/
theorem useTex_eq (materials : List material_t) (defaultTexPath : String) (s : shape_t)
    (hsize : materials.length < 2 ^ 31) :
    useTex materials defaultTexPath s = some (texPathSpec materials defaultTexPath s) := by
  unfold useTex texPathSpec
  cases hm : s.material_ids with
  | nil => simp
  | cons matid rest =>
    simp only [List.head?_cons, toInt32_of_lt materials.length hsize, ge_iff_le]
    by_cases hr : 0 ≤ matid ∧ matid < (materials.length : Int)
    · have hidx : toSizeT matid = matid.toNat := toSizeT_of_nonneg matid hr.1 (by omega)
      rw [if_pos hr, if_pos hr, hidx,
        getElem?_eq_some_getD materials matid.toNat ⟨""⟩ (by omega)]
      simp only
      generalize (materials.getD matid.toNat ⟨""⟩).diffuse_texname = name
      by_cases hn : name = ""
      · subst hn
        simp
      · by_cases hs : '/' ∉ name.toList ∧ '\\' ∉ name.toList
        · rw [if_pos ⟨hn, hs⟩, if_pos hn, if_pos hs]
          simp only [Option.map_some', assets_append_ne_empty, if_false]
        · rw [if_neg (fun hc => hs hc.2), if_pos hn, if_neg hs]
          simp only [Option.map_some', hn, if_false]
    · rw [if_neg hr, if_neg hr]
      simp

end TexPathLemmas

section RoundingLemmas

/-- Rounding to an integer moves at most to the next integer. -/
theorem roundHalfEven_bounds (x : ℚ) :
    ⌊x⌋ ≤ roundHalfEven x ∧ roundHalfEven x ≤ ⌊x⌋ + 1 := by
  unfold roundHalfEven
  split_ifs <;> constructor <;> omega

/-- An integer rounds to itself. -/
theorem roundHalfEven_intCast (n : ℤ) : roundHalfEven (n : ℚ) = n := by
  unfold roundHalfEven
  simp

/-- Rounding to an integer is monotone. -/
theorem roundHalfEven_mono {x y : ℚ} (h : x ≤ y) : roundHalfEven x ≤ roundHalfEven y := by
  rcases (Int.floor_mono h).lt_or_eq with hlt | heq
  · have h1 := (roundHalfEven_bounds x).2
    have h2 := (roundHalfEven_bounds y).1
    omega
  · unfold roundHalfEven
    rw [← heq]
    have hxy : x - ⌊x⌋ ≤ y - ⌊x⌋ := by linarith
    split_ifs <;> first | omega | (exfalso; linarith)

/-- A number within half a unit of an integer rounds to it. -/
theorem roundHalfEven_eq_of_near (x : ℚ) (m : ℤ) (h1 : (m : ℚ) - 1 / 2 < x)
    (h2 : x < (m : ℚ) + 1 / 2) : roundHalfEven x = m := by
  have hf1 : m - 1 ≤ ⌊x⌋ := by
    rw [Int.le_floor]
    push_cast
    linarith
  have hf2 : ⌊x⌋ ≤ m := by
    have : ⌊x⌋ < m + 1 := by
      rw [Int.floor_lt]
      push_cast
      linarith
    omega
  rcases (show ⌊x⌋ = m - 1 ∨ ⌊x⌋ = m by omega) with hf | hf
  · unfold roundHalfEven
    have e : x - ((m - 1 : ℤ) : ℚ) = x - m + 1 := by push_cast; ring
    rw [hf, e]
    rw [if_neg (by linarith), if_pos (by linarith)]
    ring
  · unfold roundHalfEven
    rw [hf, if_pos (by linarith)]

end RoundingLemmas

section GridLemmas

/-- Two to a power is positive. -/
theorem two_zpow_pos (k : ℤ) : (0 : ℚ) < 2 ^ k := zpow_pos (by norm_num) k

/-- Powers of two grow with the exponent. -/
theorem two_zpow_le {j k : ℤ} (h : j ≤ k) : (2 : ℚ) ^ j ≤ 2 ^ k :=
  zpow_le_zpow_right₀ (by norm_num) h

/-- The binary exponent of a positive number brackets it. -/
theorem log_bracket (x : ℚ) (hx : 0 < x) :
    (2 : ℚ) ^ Int.log 2 x ≤ x ∧ x < 2 ^ (Int.log 2 x + 1) := by
  have h1 : ((2 : ℕ) : ℚ) ^ Int.log 2 x ≤ x := Int.zpow_log_le_self (by norm_num) hx
  have h2 : x < ((2 : ℕ) : ℚ) ^ (Int.log 2 x + 1) := Int.lt_zpow_succ_log_self (by norm_num) x
  simp only [Nat.cast_ofNat] at h1 h2
  exact ⟨h1, h2⟩

/-- The binary exponent of a number bracketed by `2^k` and `2^(k+1)` is `k`. -/
theorem log_eq_of_bracket (x : ℚ) (k : ℤ) (h1 : (2 : ℚ) ^ k ≤ x) (h2 : x < 2 ^ (k + 1)) :
    Int.log 2 x = k := by
  have hx : 0 < x := lt_of_lt_of_le (two_zpow_pos k) h1
  have a1 : k ≤ Int.log 2 x := by
    rw [← Int.zpow_le_iff_le_log (by norm_num) hx]
    simpa using h1
  have a2 : Int.log 2 x < k + 1 := by
    rw [← Int.lt_zpow_iff_log_lt (by norm_num) hx]
    simpa using h2
  omega

/-- The unit in the last place of a number bracketed by `2^k` and `2^(k+1)`, `k ≥ -126`. -/
theorem ulpExponent_eq (x : ℚ) (k : ℤ) (h1 : (2 : ℚ) ^ k ≤ |x|) (h2 : |x| < 2 ^ (k + 1))
    (hk : -126 ≤ k) : ulpExponent x = k - 23 := by
  unfold ulpExponent
  rw [log_eq_of_bracket |x| k h1 h2, max_eq_left hk]

/-- The unit in the last place is at least `2^-149`. -/
theorem ulpExponent_ge (x : ℚ) : -149 ≤ ulpExponent x := by
  unfold ulpExponent
  have := le_max_right (Int.log 2 |x|) (-126)
  omega

/-- The unit in the last place grows with the number. -/
theorem ulpExponent_mono {x y : ℚ} (hx : 0 < x) (h : x ≤ y) : ulpExponent x ≤ ulpExponent y := by
  unfold ulpExponent
  have hy : 0 < y := lt_of_lt_of_le hx h
  rw [abs_of_pos hx, abs_of_pos hy]
  have hlog : Int.log 2 x ≤ Int.log 2 y := Int.log_mono_right hx h
  have := max_le_max_right (-126) hlog
  omega

/-- A positive number is less than `2^24` units in the last place. -/
theorem div_ulp_lt (x : ℚ) (hx : 0 < x) : x / 2 ^ ulpExponent x < 2 ^ (24 : ℤ) := by
  rw [div_lt_iff₀ (two_zpow_pos _), ← zpow_add₀ (by norm_num : (2 : ℚ) ≠ 0)]
  have h2 := (log_bracket x hx).2
  have he : Int.log 2 x + 1 ≤ 24 + ulpExponent x := by
    unfold ulpExponent
    rw [abs_of_pos hx]
    have := le_max_left (Int.log 2 x) (-126)
    omega
  exact lt_of_lt_of_le h2 (two_zpow_le he)

/-- A positive number in the normal range is at least `2^23` units in the last place. -/
theorem le_div_ulp (x : ℚ) (hx : 0 < x) (hn : -126 ≤ Int.log 2 x) :
    (2 : ℚ) ^ (23 : ℤ) ≤ x / 2 ^ ulpExponent x := by
  rw [le_div_iff₀ (two_zpow_pos _), ← zpow_add₀ (by norm_num : (2 : ℚ) ≠ 0)]
  have h1 := (log_bracket x hx).1
  have he : 23 + ulpExponent x = Int.log 2 x := by
    unfold ulpExponent
    rw [abs_of_pos hx, max_eq_left hn]
    omega
  rw [he]
  exact h1

/-- Zero rounds to zero. -/
theorem roundToGrid_zero : roundToGrid 0 = 0 := by
  simp [roundToGrid, roundHalfEven]

/-- A non-negative number rounds to a non-negative number. -/
theorem roundToGrid_nonneg (x : ℚ) (hx : 0 ≤ x) : 0 ≤ roundToGrid x := by
  unfold roundToGrid
  apply mul_nonneg _ (le_of_lt (two_zpow_pos _))
  have h0 : (0 : ℚ) ≤ x / 2 ^ ulpExponent x := div_nonneg hx (le_of_lt (two_zpow_pos _))
  have h1 := roundHalfEven_mono h0
  have h2 : roundHalfEven ((0 : ℤ) : ℚ) = 0 := roundHalfEven_intCast 0
  rw [Int.cast_zero] at h2
  rw [h2] at h1
  exact_mod_cast h1

/-- A number that is an integer number of units in the last place rounds to itself. -/
theorem roundToGrid_of_int (x : ℚ) (m : ℤ) (h : x = (m : ℚ) * 2 ^ ulpExponent x) :
    roundToGrid x = x := by
  unfold roundToGrid
  have e : x / 2 ^ ulpExponent x = (m : ℚ) := by
    rw [div_eq_iff (ne_of_gt (two_zpow_pos _))]
    exact h
  rw [e, roundHalfEven_intCast]
  exact h.symm

/-- A power of two from `2^-149` on rounds to itself. -/
theorem roundToGrid_two_zpow (k : ℤ) (hk : -149 ≤ k) : roundToGrid (2 ^ k) = 2 ^ k := by
  have hl : Int.log 2 |(2 : ℚ) ^ k| = k := by
    rw [abs_of_pos (two_zpow_pos k)]
    have hz : Int.log 2 (((2 : ℕ) : ℚ) ^ k) = k := Int.log_zpow (by norm_num) k
    simpa using hz
  have he : ulpExponent ((2 : ℚ) ^ k) ≤ k := by
    unfold ulpExponent
    rw [hl]
    rcases max_cases k (-126) with ⟨h, -⟩ | ⟨h, -⟩ <;> omega
  apply roundToGrid_of_int _ ((2 : ℤ) ^ (k - ulpExponent ((2 : ℚ) ^ k)).toNat)
  have hn : ((k - ulpExponent ((2 : ℚ) ^ k)).toNat : ℤ) = k - ulpExponent ((2 : ℚ) ^ k) :=
    Int.toNat_of_nonneg (by omega)
  push_cast
  rw [← zpow_natCast, hn, ← zpow_add₀ (by norm_num : (2 : ℚ) ≠ 0)]
  congr 1
  ring

/-- One rounds to one. -/
theorem roundToGrid_one : roundToGrid 1 = 1 := by
  have := roundToGrid_two_zpow 0 (by norm_num)
  simpa using this

/-- Rounding is monotone on the non-negative numbers. -/
theorem roundToGrid_mono {x y : ℚ} (hx : 0 ≤ x) (h : x ≤ y) : roundToGrid x ≤ roundToGrid y := by
  rcases hx.lt_or_eq with hx0 | hx0
  · have hy0 : 0 < y := lt_of_lt_of_le hx0 h
    rcases (ulpExponent_mono hx0 h).lt_or_eq with hlt | heq
    · -- different binades
      have hn : -126 ≤ Int.log 2 y := by
        have h1 := ulpExponent_ge x
        by_contra hc
        have : ulpExponent y = -149 := by
          unfold ulpExponent
          rw [abs_of_pos hy0, max_eq_right (by omega)]
          norm_num
        omega
      have a1 : roundToGrid x ≤ 2 ^ (24 : ℤ) * 2 ^ ulpExponent x := by
        unfold roundToGrid
        apply mul_le_mul_of_nonneg_right _ (le_of_lt (two_zpow_pos _))
        have h1 := roundHalfEven_mono (le_of_lt (div_ulp_lt x hx0))
        have h2 : roundHalfEven (((2 : ℤ) ^ 24 : ℤ) : ℚ) = 2 ^ 24 := roundHalfEven_intCast _
        have h3 : (((2 : ℤ) ^ 24 : ℤ) : ℚ) = (2 : ℚ) ^ (24 : ℤ) := by norm_num
        rw [h3] at h2
        rw [h2] at h1
        have h4 : ((roundHalfEven (x / 2 ^ ulpExponent x) : ℤ) : ℚ) ≤ ((2 ^ 24 : ℤ) : ℚ) := by
          exact_mod_cast h1
        calc ((roundHalfEven (x / 2 ^ ulpExponent x) : ℤ) : ℚ) ≤ ((2 ^ 24 : ℤ) : ℚ) := h4
          _ = (2 : ℚ) ^ (24 : ℤ) := by norm_num
      have a2 : (2 : ℚ) ^ (23 : ℤ) * 2 ^ ulpExponent y ≤ roundToGrid y := by
        unfold roundToGrid
        apply mul_le_mul_of_nonneg_right _ (le_of_lt (two_zpow_pos _))
        have h1 := roundHalfEven_mono (le_div_ulp y hy0 hn)
        have h2 : roundHalfEven (((2 : ℤ) ^ 23 : ℤ) : ℚ) = 2 ^ 23 := roundHalfEven_intCast _
        have h3 : (((2 : ℤ) ^ 23 : ℤ) : ℚ) = (2 : ℚ) ^ (23 : ℤ) := by norm_num
        rw [h3] at h2
        rw [h2] at h1
        have h4 : ((2 ^ 23 : ℤ) : ℚ) ≤ ((roundHalfEven (y / 2 ^ ulpExponent y) : ℤ) : ℚ) := by
          exact_mod_cast h1
        calc (2 : ℚ) ^ (23 : ℤ) = ((2 ^ 23 : ℤ) : ℚ) := by norm_num
          _ ≤ _ := h4
      have a3 : (2 : ℚ) ^ (24 : ℤ) * 2 ^ ulpExponent x ≤ 2 ^ (23 : ℤ) * 2 ^ ulpExponent y := by
        rw [← zpow_add₀ (by norm_num : (2 : ℚ) ≠ 0), ← zpow_add₀ (by norm_num : (2 : ℚ) ≠ 0)]
        exact two_zpow_le (by omega)
      linarith
    · unfold roundToGrid
      rw [← heq]
      apply mul_le_mul_of_nonneg_right _ (le_of_lt (two_zpow_pos _))
      have h1 : x / 2 ^ ulpExponent x ≤ y / 2 ^ ulpExponent x :=
        div_le_div_of_nonneg_right h (le_of_lt (two_zpow_pos _))
      exact_mod_cast roundHalfEven_mono h1
  · rw [← hx0, roundToGrid_zero]
    exact roundToGrid_nonneg y (by linarith)

/-- The rounded value of a number whose unit in the last place is `2^e` and which is within
half a unit of `m` units. -/
theorem roundToGrid_eq (x : ℚ) (m e : ℤ) (he : ulpExponent x = e)
    (h1 : ((m : ℚ) - 1 / 2) * 2 ^ e < x) (h2 : x < ((m : ℚ) + 1 / 2) * 2 ^ e) :
    roundToGrid x = (m : ℚ) * 2 ^ e := by
  unfold roundToGrid
  rw [he, roundHalfEven_eq_of_near _ m]
  · rw [lt_div_iff₀ (two_zpow_pos _)]
    exact h1
  · rw [div_lt_iff₀ (two_zpow_pos _)]
    exact h2

end GridLemmas

section FloatLemmas

/-- The binary32 of a non-negative exact result is `+Inf` or a non-negative number below
`2^128`, and its value on the rational line is `clampRound`. -/
theorem round_isNonneg (x : ℚ) (hx : 0 ≤ x) :
    (F32.round x).IsNonneg ∧ (F32.round x).toRat = clampRound x := by
  have h0 := roundToGrid_nonneg x hx
  unfold F32.round clampRound
  by_cases h : (2 : ℚ) ^ 128 ≤ roundToGrid x
  · rw [if_pos h]
    exact ⟨Or.inl rfl, by rw [min_eq_right h]; rfl⟩
  · have hn : ¬ roundToGrid x ≤ -2 ^ 128 := by
      intro hc
      have : (0 : ℚ) < 2 ^ 128 := by norm_num
      linarith
    rw [if_neg h, if_neg hn]
    exact ⟨Or.inr ⟨_, rfl, h0, not_le.mp h⟩, by rw [min_eq_left (le_of_lt (not_le.mp h))]; rfl⟩

/-- The binary32 of an exact result that rounds below `2^128`. -/
theorem round_eq_fin (x : ℚ) (hx : 0 ≤ x) (h : roundToGrid x < 2 ^ 128) :
    F32.round x = F32.fin (roundToGrid x) := by
  have h0 := roundToGrid_nonneg x hx
  unfold F32.round
  rw [if_neg (not_le.mpr h), if_neg]
  intro hc
  have : (0 : ℚ) < 2 ^ 128 := by norm_num
  linarith

/-- `clampRound` is monotone on the non-negative numbers. -/
theorem clampRound_mono {x y : ℚ} (hx : 0 ≤ x) (h : x ≤ y) : clampRound x ≤ clampRound y :=
  min_le_min (roundToGrid_mono hx h) (le_refl _)

/-- `clampRound` of a non-negative number is non-negative. -/
theorem clampRound_nonneg (x : ℚ) (hx : 0 ≤ x) : 0 ≤ clampRound x :=
  le_min (roundToGrid_nonneg x hx) (by norm_num)

/-- `clampRound` is at most `2^128`. -/
theorem clampRound_le (x : ℚ) : clampRound x ≤ 2 ^ 128 := min_le_right _ _

/-- From `2^128` on `clampRound` is `2^128`. -/
theorem clampRound_of_ge (x : ℚ) (hx : 2 ^ 128 ≤ x) : clampRound x = 2 ^ 128 := by
  unfold clampRound
  apply min_eq_right
  have h0 : (0 : ℚ) ≤ 2 ^ 128 := by norm_num
  have h := roundToGrid_mono h0 hx
  have h2 := roundToGrid_two_zpow 128 (by norm_num)
  have h3 : (2 : ℚ) ^ (128 : ℤ) = 2 ^ 128 := by norm_num
  rw [h3] at h2
  rw [h2] at h
  exact h

/-- A bound by a power of two survives rounding. -/
theorem roundToGrid_le_two_zpow (x : ℚ) (k : ℤ) (hk : -149 ≤ k) (hx : 0 ≤ x)
    (h : x ≤ 2 ^ k) : roundToGrid x ≤ 2 ^ k := by
  have := roundToGrid_mono hx h
  rwa [roundToGrid_two_zpow k hk] at this

/-- A lower bound by a power of two survives rounding. -/
theorem two_zpow_le_roundToGrid (x : ℚ) (k : ℤ) (hk : -149 ≤ k) (h : 2 ^ k ≤ x) :
    2 ^ k ≤ roundToGrid x := by
  have := roundToGrid_mono (le_of_lt (two_zpow_pos k)) h
  rwa [roundToGrid_two_zpow k hk] at this

/-- The value of a non-negative binary32 lies in `[0, 2^128]`. -/
theorem isNonneg_toRat (X : F32) (h : X.IsNonneg) : 0 ≤ X.toRat ∧ X.toRat ≤ 2 ^ 128 := by
  rcases h with rfl | ⟨q, rfl, h0, h1⟩
  · exact ⟨by norm_num [F32.toRat], le_refl _⟩
  · exact ⟨h0, le_of_lt h1⟩

/-- A non-negative binary32 with value below `2^128` is finite. -/
theorem isNonneg_eq_fin (X : F32) (h : X.IsNonneg) (hlt : X.toRat < 2 ^ 128) :
    X = F32.fin X.toRat := by
  rcases h with rfl | ⟨q, rfl, -, -⟩
  · exact absurd hlt (lt_irrefl _)
  · rfl

/-- A non-negative binary32 with value `2^128` is `+Inf`. -/
theorem isNonneg_eq_pinf (X : F32) (h : X.IsNonneg) (hge : 2 ^ 128 ≤ X.toRat) :
    X = F32.pinf := by
  rcases h with rfl | ⟨q, rfl, -, h1⟩
  · rfl
  · exact absurd hge (not_le.mpr h1)

/-- The sum of two non-negative binary32 values. -/
theorem add_isNonneg (X Y : F32) (hX : X.IsNonneg) (hY : Y.IsNonneg) :
    (F32.add X Y).IsNonneg ∧ (F32.add X Y).toRat = clampRound (X.toRat + Y.toRat) := by
  have hx := isNonneg_toRat X hX
  have hy := isNonneg_toRat Y hY
  rcases hX with rfl | ⟨a, rfl, ha0, ha1⟩
  · have e : F32.add F32.pinf Y = F32.pinf := by
      rcases hY with rfl | ⟨b, rfl, -, -⟩ <;> rfl
    rw [e]
    refine ⟨Or.inl rfl, ?_⟩
    rw [clampRound_of_ge]
    · rfl
    · have : F32.pinf.toRat = 2 ^ 128 := rfl
      linarith
  · rcases hY with rfl | ⟨b, rfl, hb0, hb1⟩
    · refine ⟨Or.inl rfl, ?_⟩
      rw [clampRound_of_ge]
      · rfl
      · have : F32.pinf.toRat = 2 ^ 128 := rfl
        have : (F32.fin a).toRat = a := rfl
        linarith
    · exact round_isNonneg (a + b) (by linarith)

/-- The product of a positive finite binary32 and a non-negative binary32. -/
theorem mul_fin_isNonneg (c : ℚ) (hc : 0 < c) (Y : F32) (hY : Y.IsNonneg) :
    (F32.mul (F32.fin c) Y).IsNonneg ∧
    (F32.mul (F32.fin c) Y).toRat =
      if Y.toRat < 2 ^ 128 then clampRound (c * Y.toRat) else 2 ^ 128 := by
  rcases hY with rfl | ⟨b, rfl, hb0, hb1⟩
  · have e : F32.mul (F32.fin c) F32.pinf = F32.pinf := by
      simp only [F32.mul]
      rw [if_neg (ne_of_gt hc), if_pos hc]
    have t : F32.pinf.toRat = 2 ^ 128 := rfl
    rw [e, t, if_neg (lt_irrefl _)]
    exact ⟨Or.inl rfl, rfl⟩
  · have t : (F32.fin b).toRat = b := rfl
    rw [t, if_pos hb1]
    exact round_isNonneg (c * b) (mul_nonneg (le_of_lt hc) hb0)

/-- The quotient of one by a binary32 that is at least one. -/
theorem div_one_isNonneg (Y : F32) (hY : Y.IsNonneg) (h1 : 1 ≤ Y.toRat) :
    F32.div (F32.fin 1) Y =
      F32.fin (if Y.toRat < 2 ^ 128 then roundToGrid (1 / Y.toRat) else 0) ∧
    0 ≤ (if Y.toRat < 2 ^ 128 then roundToGrid (1 / Y.toRat) else 0) ∧
    (if Y.toRat < 2 ^ 128 then roundToGrid (1 / Y.toRat) else 0) ≤ 1 ∧
    (Y.toRat < 2 ^ 128 → 0 < (if Y.toRat < 2 ^ 128 then roundToGrid (1 / Y.toRat) else 0)) := by
  rcases hY with rfl | ⟨b, rfl, hb0, hb1⟩
  · have t : F32.pinf.toRat = 2 ^ 128 := rfl
    rw [t, if_neg (lt_irrefl _)]
    exact ⟨rfl, le_refl 0, zero_le_one, fun h => absurd h (lt_irrefl _)⟩
  · have t : (F32.fin b).toRat = b := rfl
    rw [t] at h1 ⊢
    rw [if_pos hb1]
    have hb : 0 < b := by linarith
    have hq0 : (0 : ℚ) ≤ 1 / b := by positivity
    have hq1 : 1 / b ≤ 1 := by
      rw [div_le_one hb]
      exact h1
    have hr1 : roundToGrid (1 / b) ≤ 1 := by
      have := roundToGrid_mono hq0 hq1
      rwa [roundToGrid_one] at this
    have hlow : (2 : ℚ) ^ (-128 : ℤ) ≤ 1 / b := by
      rw [le_div_iff₀ hb]
      have h2 : (2 : ℚ) ^ (-128 : ℤ) * 2 ^ 128 = 1 := by norm_num
      have h3 : (2 : ℚ) ^ (-128 : ℤ) * b ≤ 2 ^ (-128 : ℤ) * 2 ^ 128 :=
        mul_le_mul_of_nonneg_left (le_of_lt hb1) (le_of_lt (two_zpow_pos _))
      linarith
    have hr0 : (2 : ℚ) ^ (-128 : ℤ) ≤ roundToGrid (1 / b) :=
      two_zpow_le_roundToGrid _ _ (by norm_num) hlow
    have hpos : 0 < roundToGrid (1 / b) := lt_of_lt_of_le (two_zpow_pos _) hr0
    refine ⟨?_, le_of_lt hpos, hr1, fun _ => hpos⟩
    simp only [F32.div]
    rw [if_neg (ne_of_gt hb)]
    apply round_eq_fin _ hq0
    have : (1 : ℚ) < 2 ^ 128 := by norm_num
    linarith

/-- The literal `1.0` is the binary32 one. -/
theorem round_one : F32.round 1.0 = F32.fin 1 := by
  have e : (1.0 : ℚ) = 1 := by norm_num
  rw [e, round_eq_fin 1 zero_le_one (by rw [roundToGrid_one]; norm_num), roundToGrid_one]

/-- The literals `0.09` and `0.032` are finite, positive and at most one in binary32. -/
theorem attenuation_literals :
    (F32.round 0.09 = F32.fin (roundToGrid 0.09) ∧ 0 < roundToGrid 0.09 ∧
      roundToGrid 0.09 ≤ 1) ∧
    (F32.round 0.032 = F32.fin (roundToGrid 0.032) ∧ 0 < roundToGrid 0.032 ∧
      roundToGrid 0.032 ≤ 1) := by
  have a1 : roundToGrid 0.09 ≤ 1 := by
    have := roundToGrid_le_two_zpow 0.09 0 (by norm_num) (by norm_num) (by norm_num)
    simpa using this
  have a2 : 0 < roundToGrid 0.09 :=
    lt_of_lt_of_le (two_zpow_pos (-4))
      (two_zpow_le_roundToGrid 0.09 (-4) (by norm_num) (by norm_num))
  have b1 : roundToGrid 0.032 ≤ 1 := by
    have := roundToGrid_le_two_zpow 0.032 0 (by norm_num) (by norm_num) (by norm_num)
    simpa using this
  have b2 : 0 < roundToGrid 0.032 :=
    lt_of_lt_of_le (two_zpow_pos (-5))
      (two_zpow_le_roundToGrid 0.032 (-5) (by norm_num) (by norm_num))
  have one : (1 : ℚ) < 2 ^ 128 := by norm_num
  exact ⟨⟨round_eq_fin _ (by norm_num) (by linarith), a2, a1⟩,
    ⟨round_eq_fin _ (by norm_num) (by linarith), b2, b1⟩⟩

end FloatLemmas

section AttenuationLemmas

/-- The vertex shader's binary32 divisor is the fragment shader's. -/
theorem gouraudAttenuationDenominator32_eq (d : F32) :
    gouraudAttenuationDenominator32 d = phongAttenuationDenominator32 d := rfl

/-- The vertex shader's binary32 attenuation is the fragment shader's. -/
theorem gouraudAttenuation32_eq (d : F32) : gouraudAttenuation32 d = phongAttenuation32 d := rfl

/-- The binary32 divisor of the attenuation at a finite non-negative distance is `+Inf` or
finite and non-negative, with value `denominatorValue32`. -/
theorem phongAttenuationDenominator32_spec (q : ℚ) (hq : 0 ≤ q) :
    (phongAttenuationDenominator32 (F32.fin q)).IsNonneg ∧
    (phongAttenuationDenominator32 (F32.fin q)).toRat = denominatorValue32 q := by
  obtain ⟨⟨l1, l2, -⟩, ⟨m1, m2, -⟩⟩ := attenuation_literals
  have hA := round_isNonneg (roundToGrid 0.09 * q) (mul_nonneg (le_of_lt l2) hq)
  have hS := round_isNonneg (q * q) (mul_nonneg hq hq)
  have hB := mul_fin_isNonneg (roundToGrid 0.032) m2 (F32.round (q * q)) hS.1
  have h1 : (F32.fin 1).IsNonneg := Or.inr ⟨1, rfl, zero_le_one, by norm_num⟩
  have hT := add_isNonneg (F32.fin 1) (F32.round (roundToGrid 0.09 * q)) h1 hA.1
  have hD := add_isNonneg _ _ hT.1 hB.1
  have e : phongAttenuationDenominator32 (F32.fin q) =
      F32.add (F32.add (F32.fin 1) (F32.round (roundToGrid 0.09 * q)))
        (F32.mul (F32.fin (roundToGrid 0.032)) (F32.round (q * q))) := by
    simp only [phongAttenuationDenominator32, round_one, l1, m1, F32.mul]
  rw [e]
  refine ⟨hD.1, ?_⟩
  rw [hD.2, hT.2, hB.2, hA.2, hS.2]
  rfl

/-- The divisor value is at least one. -/
theorem one_le_denominatorValue32 (q : ℚ) (hq : 0 ≤ q) : 1 ≤ denominatorValue32 q := by
  obtain ⟨⟨-, l2, -⟩, ⟨-, m2, -⟩⟩ := attenuation_literals
  have hA := clampRound_nonneg (roundToGrid 0.09 * q) (mul_nonneg (le_of_lt l2) hq)
  have c1 : clampRound 1 = 1 := by
    unfold clampRound
    rw [roundToGrid_one]
    norm_num
  have hT : 1 ≤ clampRound (1 + clampRound (roundToGrid 0.09 * q)) := by
    have := clampRound_mono zero_le_one (show (1 : ℚ) ≤ 1 + clampRound (roundToGrid 0.09 * q)
      by linarith)
    rwa [c1] at this
  have hB : 0 ≤ (if clampRound (q * q) < 2 ^ 128 then
      clampRound (roundToGrid 0.032 * clampRound (q * q)) else 2 ^ 128) := by
    split_ifs
    · exact clampRound_nonneg _ (mul_nonneg (le_of_lt m2)
        (clampRound_nonneg _ (mul_nonneg hq hq)))
    · norm_num
  unfold denominatorValue32
  have := clampRound_mono zero_le_one (show (1 : ℚ) ≤
    clampRound (1 + clampRound (roundToGrid 0.09 * q)) +
    (if clampRound (q * q) < 2 ^ 128 then
      clampRound (roundToGrid 0.032 * clampRound (q * q)) else 2 ^ 128) by linarith)
  rwa [c1] at this

/-- The divisor value grows with the distance. -/
theorem denominatorValue32_mono {q1 q2 : ℚ} (h1 : 0 ≤ q1) (h12 : q1 ≤ q2) :
    denominatorValue32 q1 ≤ denominatorValue32 q2 := by
  obtain ⟨⟨-, l2, -⟩, ⟨-, m2, -⟩⟩ := attenuation_literals
  have h2 : 0 ≤ q2 := le_trans h1 h12
  have hA := clampRound_mono (mul_nonneg (le_of_lt l2) h1)
    (mul_le_mul_of_nonneg_left h12 (le_of_lt l2))
  have hA0 := clampRound_nonneg (roundToGrid 0.09 * q1) (mul_nonneg (le_of_lt l2) h1)
  have hT := clampRound_mono (show (0 : ℚ) ≤ 1 + clampRound (roundToGrid 0.09 * q1) by linarith)
    (show 1 + clampRound (roundToGrid 0.09 * q1) ≤ 1 + clampRound (roundToGrid 0.09 * q2)
      by linarith)
  have hT0 := clampRound_nonneg (1 + clampRound (roundToGrid 0.09 * q1)) (by linarith)
  have hS := clampRound_mono (mul_nonneg h1 h1) (mul_le_mul h12 h12 h1 h2)
  have hS0 := clampRound_nonneg (q1 * q1) (mul_nonneg h1 h1)
  have hB0 : 0 ≤ (if clampRound (q1 * q1) < 2 ^ 128 then
      clampRound (roundToGrid 0.032 * clampRound (q1 * q1)) else 2 ^ 128) := by
    split_ifs
    · exact clampRound_nonneg _ (mul_nonneg (le_of_lt m2) hS0)
    · norm_num
  have hB : (if clampRound (q1 * q1) < 2 ^ 128 then
      clampRound (roundToGrid 0.032 * clampRound (q1 * q1)) else 2 ^ 128) ≤
      (if clampRound (q2 * q2) < 2 ^ 128 then
        clampRound (roundToGrid 0.032 * clampRound (q2 * q2)) else 2 ^ 128) := by
    by_cases c2 : clampRound (q2 * q2) < 2 ^ 128
    · rw [if_pos c2, if_pos (lt_of_le_of_lt hS c2)]
      exact clampRound_mono (mul_nonneg (le_of_lt m2) hS0)
        (mul_le_mul_of_nonneg_left hS (le_of_lt m2))
    · rw [if_neg c2]
      split_ifs
      · exact clampRound_le _
      · exact le_refl _
  unfold denominatorValue32
  exact clampRound_mono (by linarith) (by linarith)

/-- Up to distance `2^63` the divisor is finite. -/
theorem denominatorValue32_lt (q : ℚ) (hq : 0 ≤ q) (h : q ≤ 2 ^ 63) :
    denominatorValue32 q < 2 ^ 128 := by
  obtain ⟨⟨-, l2, l3⟩, ⟨-, m2, m3⟩⟩ := attenuation_literals
  have p63 : (2 : ℚ) ^ (63 : ℤ) = 2 ^ 63 := by norm_num
  have p64 : (2 : ℚ) ^ (64 : ℤ) = 2 ^ 64 := by norm_num
  have p126 : (2 : ℚ) ^ (126 : ℤ) = 2 ^ 126 := by norm_num
  have p127 : (2 : ℚ) ^ (127 : ℤ) = 2 ^ 127 := by norm_num
  have hA : clampRound (roundToGrid 0.09 * q) ≤ 2 ^ 63 := by
    refine le_trans (min_le_left _ _) ?_
    have := roundToGrid_le_two_zpow (roundToGrid 0.09 * q) 63 (by norm_num)
      (mul_nonneg (le_of_lt l2) hq) (by rw [p63]; nlinarith)
    rwa [p63] at this
  have hA0 := clampRound_nonneg (roundToGrid 0.09 * q) (mul_nonneg (le_of_lt l2) hq)
  have hT : clampRound (1 + clampRound (roundToGrid 0.09 * q)) ≤ 2 ^ 64 := by
    refine le_trans (min_le_left _ _) ?_
    have := roundToGrid_le_two_zpow (1 + clampRound (roundToGrid 0.09 * q)) 64 (by norm_num)
      (by linarith) (by rw [p64]; norm_num at hA ⊢; linarith)
    rwa [p64] at this
  have hT0 := clampRound_nonneg (1 + clampRound (roundToGrid 0.09 * q)) (by linarith)
  have hS : clampRound (q * q) ≤ 2 ^ 126 := by
    refine le_trans (min_le_left _ _) ?_
    have := roundToGrid_le_two_zpow (q * q) 126 (by norm_num) (mul_nonneg hq hq)
      (by rw [p126]; nlinarith)
    rwa [p126] at this
  have hS0 := clampRound_nonneg (q * q) (mul_nonneg hq hq)
  have hS1 : clampRound (q * q) < 2 ^ 128 := lt_of_le_of_lt hS (by norm_num)
  have hB : clampRound (roundToGrid 0.032 * clampRound (q * q)) ≤ 2 ^ 126 := by
    refine le_trans (min_le_left _ _) ?_
    have := roundToGrid_le_two_zpow (roundToGrid 0.032 * clampRound (q * q)) 126 (by norm_num)
      (mul_nonneg (le_of_lt m2) hS0) (by rw [p126]; nlinarith)
    rwa [p126] at this
  have hB0 := clampRound_nonneg (roundToGrid 0.032 * clampRound (q * q))
    (mul_nonneg (le_of_lt m2) hS0)
  unfold denominatorValue32
  rw [if_pos hS1]
  have hD : clampRound (clampRound (1 + clampRound (roundToGrid 0.09 * q)) +
      clampRound (roundToGrid 0.032 * clampRound (q * q))) ≤ 2 ^ 127 := by
    refine le_trans (min_le_left _ _) ?_
    have := roundToGrid_le_two_zpow (clampRound (1 + clampRound (roundToGrid 0.09 * q)) +
      clampRound (roundToGrid 0.032 * clampRound (q * q))) 127 (by norm_num)
      (by linarith) (by rw [p127]; norm_num at hT hB ⊢; linarith)
    rwa [p127] at this
  exact lt_of_le_of_lt hD (by norm_num)

/-- From distance `2^64` on the divisor is `+Inf`. -/
theorem denominatorValue32_overflow (q : ℚ) (h : 2 ^ 64 ≤ q) :
    denominatorValue32 q = 2 ^ 128 := by
  obtain ⟨⟨-, l2, -⟩, -⟩ := attenuation_literals
  have hq : 0 ≤ q := le_trans (by norm_num) h
  have hS : clampRound (q * q) = 2 ^ 128 := clampRound_of_ge _ (by nlinarith)
  have hT0 := clampRound_nonneg (1 + clampRound (roundToGrid 0.09 * q))
    (by have := clampRound_nonneg (roundToGrid 0.09 * q) (mul_nonneg (le_of_lt l2) hq); linarith)
  unfold denominatorValue32
  rw [hS, if_neg (lt_irrefl _)]
  exact clampRound_of_ge _ (by linarith)

/-- The binary32 attenuation at a finite non-negative distance is the finite number
`attenuationValue32`. -/
theorem phongAttenuation32_spec (q : ℚ) (hq : 0 ≤ q) :
    phongAttenuation32 (F32.fin q) = F32.fin (attenuationValue32 q) ∧
    0 ≤ attenuationValue32 q ∧ attenuationValue32 q ≤ 1 ∧
    (denominatorValue32 q < 2 ^ 128 → 0 < attenuationValue32 q) := by
  obtain ⟨hN, hV⟩ := phongAttenuationDenominator32_spec q hq
  have h1 := one_le_denominatorValue32 q hq
  rw [← hV] at h1
  have h := div_one_isNonneg _ hN h1
  rw [hV] at h
  unfold phongAttenuation32 attenuationValue32
  rw [round_one]
  exact h

/-- The binary32 attenuation does not grow with the distance. -/
theorem attenuationValue32_antitone {q1 q2 : ℚ} (h1 : 0 ≤ q1) (h12 : q1 ≤ q2) :
    attenuationValue32 q2 ≤ attenuationValue32 q1 := by
  have hm := denominatorValue32_mono h1 h12
  have hd1 := one_le_denominatorValue32 q1 h1
  have hd2 := one_le_denominatorValue32 q2 (le_trans h1 h12)
  have ha1 := (phongAttenuation32_spec q1 h1).2.1
  unfold attenuationValue32 at ha1 ⊢
  by_cases c2 : denominatorValue32 q2 < 2 ^ 128
  · rw [if_pos c2, if_pos (lt_of_le_of_lt hm c2)]
    apply roundToGrid_mono (div_nonneg zero_le_one (by linarith))
    exact one_div_le_one_div_of_le (by linarith) hm
  · rw [if_neg c2]
    exact ha1

end AttenuationLemmas

section EvalLemmas

/-- Rounding a positive number to binary32, from its binade `[2^k, 2^(k+1))` and the
multiple `m` of the unit in the last place nearest to it. -/
theorem roundToGrid_eval (x r : ℚ) (k m : ℤ) (hk : -126 ≤ k) (h1 : 2 ^ k ≤ x)
    (h2 : x < 2 ^ (k + 1)) (h3 : ((m : ℚ) - 1 / 2) * 2 ^ (k - 23) < x)
    (h4 : x < ((m : ℚ) + 1 / 2) * 2 ^ (k - 23)) (hr : (m : ℚ) * 2 ^ (k - 23) = r) :
    roundToGrid x = r := by
  have hx : 0 < x := lt_of_lt_of_le (two_zpow_pos k) h1
  have he : ulpExponent x = k - 23 :=
    ulpExponent_eq x k (by rwa [abs_of_pos hx]) (by rwa [abs_of_pos hx]) hk
  rw [roundToGrid_eq x m (k - 23) he h3 h4, hr]

/-- The literal `0.09` in binary32. -/
theorem roundToGrid_linear : roundToGrid 0.09 = (3019899 / 33554432 : ℚ) :=
  roundToGrid_eval _ _ (-4) 12079596 (by norm_num) (by norm_num) (by norm_num) (by norm_num)
    (by norm_num) (by norm_num)

/-- The literal `0.032` in binary32. -/
theorem roundToGrid_quadratic : roundToGrid 0.032 = (8589935 / 268435456 : ℚ) :=
  roundToGrid_eval _ _ (-5) 8589935 (by norm_num) (by norm_num) (by norm_num) (by norm_num)
    (by norm_num) (by norm_num)

/-- The distance `5/2` is a binary32 value. -/
theorem eval_a_dist : roundToGrid (5 / 2 : ℚ) = (5 / 2 : ℚ) :=
  roundToGrid_eval _ _ (1) 10485760 (by norm_num) (by norm_num) (by norm_num) (by norm_num)
    (by norm_num) (by norm_num)

/-- Step `linear * dist` of the attenuation at distance `5/2`. -/
theorem eval_a_linear : roundToGrid ((3019899 / 33554432 : ℚ) * (5 / 2 : ℚ)) = (15099495 / 67108864 : ℚ) :=
  roundToGrid_eval _ _ (-3) 15099495 (by norm_num) (by norm_num) (by norm_num) (by norm_num)
    (by norm_num) (by norm_num)

/-- Step `constant + linear * dist` of the attenuation at distance `5/2`. -/
theorem eval_a_sum : roundToGrid (1 + (15099495 / 67108864 : ℚ)) = (10276045 / 8388608 : ℚ) :=
  roundToGrid_eval _ _ (0) 10276045 (by norm_num) (by norm_num) (by norm_num) (by norm_num)
    (by norm_num) (by norm_num)

/-- Step `dist * dist` of the attenuation at distance `5/2`. -/
theorem eval_a_square : roundToGrid ((5 / 2 : ℚ) * (5 / 2 : ℚ)) = (25 / 4 : ℚ) :=
  roundToGrid_eval _ _ (2) 13107200 (by norm_num) (by norm_num) (by norm_num) (by norm_num)
    (by norm_num) (by norm_num)

/-- Step `quadratic * (dist * dist)` of the attenuation at distance `5/2`. -/
theorem eval_a_quadratic : roundToGrid ((8589935 / 268435456 : ℚ) * (25 / 4 : ℚ)) = (13421773 / 67108864 : ℚ) :=
  roundToGrid_eval _ _ (-3) 13421773 (by norm_num) (by norm_num) (by norm_num) (by norm_num)
    (by norm_num) (by norm_num)

/-- The divisor of the attenuation at distance `5/2`. -/
theorem eval_a_denominator : roundToGrid ((10276045 / 8388608 : ℚ) + (13421773 / 67108864 : ℚ)) = (11953767 / 8388608 : ℚ) :=
  roundToGrid_eval _ _ (0) 11953767 (by norm_num) (by norm_num) (by norm_num) (by norm_num)
    (by norm_num) (by norm_num)

/-- The quotient of the attenuation at distance `5/2`. -/
theorem eval_a_quotient : roundToGrid (1 / (11953767 / 8388608 : ℚ)) = (2943371 / 4194304 : ℚ) :=
  roundToGrid_eval _ _ (-1) 11773484 (by norm_num) (by norm_num) (by norm_num) (by norm_num)
    (by norm_num) (by norm_num)

/-- The binary32 attenuation at distance `5/2`. -/
theorem attenuationValue32_a : denominatorValue32 (5 / 2 : ℚ) = (11953767 / 8388608 : ℚ) ∧
    attenuationValue32 (5 / 2 : ℚ) = (2943371 / 4194304 : ℚ) := by
  have hD : denominatorValue32 (5 / 2 : ℚ) = (11953767 / 8388608 : ℚ) := by
    unfold denominatorValue32 clampRound
    rw [roundToGrid_linear, roundToGrid_quadratic, eval_a_linear, eval_a_square]
    have m1 : min (15099495 / 67108864 : ℚ) (2 ^ 128) = (15099495 / 67108864 : ℚ) := min_eq_left (by norm_num)
    have m2 : min (25 / 4 : ℚ) (2 ^ 128) = (25 / 4 : ℚ) := min_eq_left (by norm_num)
    rw [m1, m2, if_pos (by norm_num), eval_a_sum, eval_a_quadratic]
    have m3 : min (10276045 / 8388608 : ℚ) (2 ^ 128) = (10276045 / 8388608 : ℚ) := min_eq_left (by norm_num)
    have m4 : min (13421773 / 67108864 : ℚ) (2 ^ 128) = (13421773 / 67108864 : ℚ) := min_eq_left (by norm_num)
    rw [m3, m4, eval_a_denominator]
    exact min_eq_left (by norm_num)
  refine ⟨hD, ?_⟩
  unfold attenuationValue32
  rw [hD, if_pos (by norm_num), eval_a_quotient]

/-- The distance `10485761/4194304` is a binary32 value. -/
theorem eval_b_dist : roundToGrid (10485761 / 4194304 : ℚ) = (10485761 / 4194304 : ℚ) :=
  roundToGrid_eval _ _ (1) 10485761 (by norm_num) (by norm_num) (by norm_num) (by norm_num)
    (by norm_num) (by norm_num)

/-- Step `linear * dist` of the attenuation at distance `10485761/4194304`. -/
theorem eval_b_linear : roundToGrid ((3019899 / 33554432 : ℚ) * (10485761 / 4194304 : ℚ)) = (1887437 / 8388608 : ℚ) :=
  roundToGrid_eval _ _ (-3) 15099496 (by norm_num) (by norm_num) (by norm_num) (by norm_num)
    (by norm_num) (by norm_num)

/-- Step `constant + linear * dist` of the attenuation at distance `10485761/4194304`. -/
theorem eval_b_sum : roundToGrid (1 + (1887437 / 8388608 : ℚ)) = (10276045 / 8388608 : ℚ) :=
  roundToGrid_eval _ _ (0) 10276045 (by norm_num) (by norm_num) (by norm_num) (by norm_num)
    (by norm_num) (by norm_num)

/-- Step `dist * dist` of the attenuation at distance `10485761/4194304`. -/
theorem eval_b_square : roundToGrid ((10485761 / 4194304 : ℚ) * (10485761 / 4194304 : ℚ)) = (13107203 / 2097152 : ℚ) :=
  roundToGrid_eval _ _ (2) 13107203 (by norm_num) (by norm_num) (by norm_num) (by norm_num)
    (by norm_num) (by norm_num)

/-- Step `quadratic * (dist * dist)` of the attenuation at distance `10485761/4194304`. -/
theorem eval_b_quadratic : roundToGrid ((8589935 / 268435456 : ℚ) * (13107203 / 2097152 : ℚ)) = (13421777 / 67108864 : ℚ) :=
  roundToGrid_eval _ _ (-3) 13421777 (by norm_num) (by norm_num) (by norm_num) (by norm_num)
    (by norm_num) (by norm_num)

/-- The divisor of the attenuation at distance `10485761/4194304`. -/
theorem eval_b_denominator : roundToGrid ((10276045 / 8388608 : ℚ) + (13421777 / 67108864 : ℚ)) = (11953767 / 8388608 : ℚ) :=
  roundToGrid_eval _ _ (0) 11953767 (by norm_num) (by norm_num) (by norm_num) (by norm_num)
    (by norm_num) (by norm_num)

/-- The quotient of the attenuation at distance `10485761/4194304`. -/
theorem eval_b_quotient : roundToGrid (1 / (11953767 / 8388608 : ℚ)) = (2943371 / 4194304 : ℚ) :=
  roundToGrid_eval _ _ (-1) 11773484 (by norm_num) (by norm_num) (by norm_num) (by norm_num)
    (by norm_num) (by norm_num)

/-- The binary32 attenuation at distance `10485761/4194304`. -/
theorem attenuationValue32_b : denominatorValue32 (10485761 / 4194304 : ℚ) = (11953767 / 8388608 : ℚ) ∧
    attenuationValue32 (10485761 / 4194304 : ℚ) = (2943371 / 4194304 : ℚ) := by
  have hD : denominatorValue32 (10485761 / 4194304 : ℚ) = (11953767 / 8388608 : ℚ) := by
    unfold denominatorValue32 clampRound
    rw [roundToGrid_linear, roundToGrid_quadratic, eval_b_linear, eval_b_square]
    have m1 : min (1887437 / 8388608 : ℚ) (2 ^ 128) = (1887437 / 8388608 : ℚ) := min_eq_left (by norm_num)
    have m2 : min (13107203 / 2097152 : ℚ) (2 ^ 128) = (13107203 / 2097152 : ℚ) := min_eq_left (by norm_num)
    rw [m1, m2, if_pos (by norm_num), eval_b_sum, eval_b_quadratic]
    have m3 : min (10276045 / 8388608 : ℚ) (2 ^ 128) = (10276045 / 8388608 : ℚ) := min_eq_left (by norm_num)
    have m4 : min (13421777 / 67108864 : ℚ) (2 ^ 128) = (13421777 / 67108864 : ℚ) := min_eq_left (by norm_num)
    rw [m3, m4, eval_b_denominator]
    exact min_eq_left (by norm_num)
  refine ⟨hD, ?_⟩
  unfold attenuationValue32
  rw [hD, if_pos (by norm_num), eval_b_quotient]

end EvalLemmas

section AttenuationLemmas2

/-- The binary32 divisor of the attenuation at a finite non-negative distance: `+Inf` or a
finite number that is at least one; finite up to distance `2^63`, `+Inf` from `2^64` on. -/
theorem phongAttenuationDenominator32_cases (q : ℚ) (hq : 0 ≤ q) :
    (phongAttenuationDenominator32 (F32.fin q) = F32.pinf ∨
      ∃ r : ℚ, phongAttenuationDenominator32 (F32.fin q) = F32.fin r ∧ 1 ≤ r) ∧
    (q ≤ 2 ^ 63 → phongAttenuationDenominator32 (F32.fin q) ≠ F32.pinf) ∧
    (2 ^ 64 ≤ q → phongAttenuationDenominator32 (F32.fin q) = F32.pinf) := by
  obtain ⟨hN, hV⟩ := phongAttenuationDenominator32_spec q hq
  have h1 := one_le_denominatorValue32 q hq
  refine ⟨?_, ?_, ?_⟩
  · rcases hN with e | ⟨r, e, -, -⟩
    · exact Or.inl e
    · refine Or.inr ⟨r, e, ?_⟩
      rw [e] at hV
      have : r = denominatorValue32 q := hV
      rw [this]
      exact h1
  · intro h63 e
    have hlt := denominatorValue32_lt q hq h63
    rw [← hV, e] at hlt
    exact absurd hlt (lt_irrefl _)
  · intro h64
    exact isNonneg_eq_pinf _ hN (by rw [hV, denominatorValue32_overflow q h64])

/-- The binary32 attenuation at a finite non-negative distance is a finite number in
`[0, 1]`, positive up to distance `2^63` and zero from `2^64` on. -/
theorem phongAttenuation32_cases (q : ℚ) (hq : 0 ≤ q) :
    ∃ a : ℚ, phongAttenuation32 (F32.fin q) = F32.fin a ∧ 0 ≤ a ∧ a ≤ 1 ∧
      (q ≤ 2 ^ 63 → 0 < a) ∧ (2 ^ 64 ≤ q → a = 0) := by
  obtain ⟨e, h0, h1, hp⟩ := phongAttenuation32_spec q hq
  refine ⟨attenuationValue32 q, e, h0, h1, fun h63 => hp (denominatorValue32_lt q hq h63), ?_⟩
  intro h64
  unfold attenuationValue32
  rw [denominatorValue32_overflow q h64, if_neg (lt_irrefl _)]

/-- At distance `+Inf` the binary32 divisor is `+Inf` and the attenuation is zero. -/
theorem phongAttenuation32_pinf :
    phongAttenuationDenominator32 F32.pinf = F32.pinf ∧
    phongAttenuation32 F32.pinf = F32.fin 0 := by
  obtain ⟨⟨l1, l2, -⟩, ⟨m1, m2, -⟩⟩ := attenuation_literals
  have hD : phongAttenuationDenominator32 F32.pinf = F32.pinf := by
    simp only [phongAttenuationDenominator32, round_one, l1, m1, F32.mul, F32.add,
      if_neg (ne_of_gt l2), if_pos l2, if_neg (ne_of_gt m2), if_pos m2]
  refine ⟨hD, ?_⟩
  simp only [phongAttenuation32, hD, round_one, F32.div]

/-- The number `2^64` is a binary32 value. -/
theorem round_two_pow_64 : F32.round (2 ^ 64) = F32.fin (2 ^ 64) := by
  have h : roundToGrid ((2 : ℚ) ^ 64) = 2 ^ 64 := by
    have := roundToGrid_two_zpow 64 (by norm_num)
    norm_num at this ⊢
    exact this
  rw [round_eq_fin _ (by norm_num) (by rw [h]; norm_num), h]

end AttenuationLemmas2

section Loader32Basics

end Loader32Basics

section Remap32Lemmas

end Remap32Lemmas

section Remap32Values

end Remap32Values

section Remap32Shape

end Remap32Shape

section NormalLemmas
variable {α : Type} [LinearOrderedField α]

/-- For a model matrix with non-zero determinant whose bottom row starts `0, 0, 0`, the
product of `mat3(transpose(inverse(M)))` with `n` and the product of `mat3(M)` with `t` have
the dot product of `n` and `t`. -/
theorem normalMatrix_dot (M : Mat4 α) (hdet : M.det ≠ 0)
    (h30 : M 3 0 = 0) (h31 : M 3 1 = 0) (h32 : M 3 2 = 0) (n t : Vec3 α) :
    dot (Mat3.mulVec3 (mat3 (transpose (inverse M))) n) (Mat3.mulVec3 (mat3 M) t) =
      dot n t := by
  have hI := inverse_mul_self M hdet
  have e : ∀ a b : Fin 4, (inverse M * M) a b = (1 : Mat4 α) a b := by
    intro a b
    rw [hI]
  have e00 := e 0 0
  have e01 := e 0 1
  have e02 := e 0 2
  have e10 := e 1 0
  have e11 := e 1 1
  have e12 := e 1 2
  have e20 := e 2 0
  have e21 := e 2 1
  have e22 := e 2 2
  simp only [Matrix.mul_apply, Fin.sum_univ_four, h30, h31, h32, mul_zero, add_zero,
    Matrix.one_apply_eq] at e00 e11 e22
  have z : ∀ a b : Fin 4, a ≠ b → (1 : Mat4 α) a b = 0 := fun a b h => Matrix.one_apply_ne h
  rw [z 0 1 (by decide)] at e01
  rw [z 0 2 (by decide)] at e02
  rw [z 1 0 (by decide)] at e10
  rw [z 1 2 (by decide)] at e12
  rw [z 2 0 (by decide)] at e20
  rw [z 2 1 (by decide)] at e21
  simp only [Matrix.mul_apply, Fin.sum_univ_four, h30, h31, h32, mul_zero, add_zero] at e01
  simp only [Matrix.mul_apply, Fin.sum_univ_four, h30, h31, h32, mul_zero, add_zero] at e02
  simp only [Matrix.mul_apply, Fin.sum_univ_four, h30, h31, h32, mul_zero, add_zero] at e10
  simp only [Matrix.mul_apply, Fin.sum_univ_four, h30, h31, h32, mul_zero, add_zero] at e12
  simp only [Matrix.mul_apply, Fin.sum_univ_four, h30, h31, h32, mul_zero, add_zero] at e20
  simp only [Matrix.mul_apply, Fin.sum_univ_four, h30, h31, h32, mul_zero, add_zero] at e21
  simp only [mat3_mulVec3, dot, transpose, Matrix.transpose_apply]
  linear_combination n.x * t.x * e00 + n.x * t.y * e01 + n.x * t.z * e02 +
    n.y * t.x * e10 + n.y * t.y * e11 + n.y * t.z * e12 +
    n.z * t.x * e20 + n.z * t.y * e21 + n.z * t.z * e22

/-- The world positions of two points that differ by `t` differ by `mat3(model) * t`. -/
theorem vertexWorldPos_add (u : Uniforms α) (aPos t : Vec3 α) :
    vertexWorldPos u (aPos + t) - vertexWorldPos u aPos = Mat3.mulVec3 (mat3 u.model) t := by
  rw [mat3_mulVec3]
  have hx : (aPos + t).x = aPos.x + t.x := rfl
  have hy : (aPos + t).y = aPos.y + t.y := rfl
  have hz : (aPos + t).z = aPos.z + t.z := rfl
  have hs : ∀ a b : Vec3 α, a - b = ⟨a.x - b.x, a.y - b.y, a.z - b.z⟩ := fun _ _ => rfl
  simp only [vertexWorldPos, Mat4.mulVec4, Vec4.ofVec3, Vec4.toVec3, hs, hx, hy, hz]
  ext <;> simp only <;> ring

/-- Dividing a vector by its length keeps it perpendicular to what it was perpendicular
to. -/
theorem dot_normalize_eq_zero (sqrt : α → α) (v w : Vec3 α) (h : dot v w = 0) :
    dot (normalize sqrt v) w = 0 := by
  simp only [dot] at h
  have e : dot (normalize sqrt v) w = (v.x * w.x + v.y * w.y + v.z * w.z) / length sqrt v := by
    simp only [dot, normalize]
    ring
  rw [e, h, zero_div]

end NormalLemmas

section Claims

variable {α : Type} [LinearOrderedField α]

/-- C1: for every surface position `P`, interpolated normal `N` (non-zero or not), uniforms
with `0 ≤ numLights ≤ 6` and texture coordinate, the Phong fragment shader writes
`vec4(c, 1)` where `c` is the reference model
`0.05*surfaceColor + Σ_{i < numLights} referenceLightTerm i` evaluated at the camera position
`viewPos`, and `surfaceColor` is the texture sample when `hasTexture` is set and
`objectColor` otherwise. -/
theorem phongFragment_eq_reference (sqrt : α → α) (u : Uniforms α) (P N : Vec3 α)
    (TexCoord : Vec2 α) (h0 : 0 ≤ u.numLights) (h6 : u.numLights ≤ 6) :
    phongFragment sqrt u P N TexCoord =
      some (Vec4.ofVec3
        (referenceColor sqrt P N u.viewPos
          (if u.hasTexture then (u.textureSampler TexCoord).rgb else u.objectColor)
          u.lightPos u.lightColor u.numLights) 1) := by
  have hn : u.numLights.toNat ≤ NUM_LIGHTS := by
    show u.numLights.toNat ≤ 6
    omega
  have hlt : ∀ i : Fin NUM_LIGHTS,
      ((i : Nat) < u.numLights.toNat) = (((i : Nat) : Int) < u.numLights) := by
    intro i
    apply propext
    constructor <;> intro h <;> omega
  simp only [phongFragment, phongLoop, phong_foldlM_range sqrt u P _ _ _ _ hn,
    Option.map_some', phongLightContrib_mul_eq_reference, referenceColor, hlt, vec3_mul_x,
    vec3_mul_y, vec3_mul_z, Vec3.splat]

/-- Witness for C1: the start-up scene with two active lights, over the reals. -/
theorem phongFragment_eq_reference_witness :
    (0 : Int) ≤ (sceneUniforms ℝ 2).numLights ∧ (sceneUniforms ℝ 2).numLights ≤ 6 ∧
    phongFragment Real.sqrt (sceneUniforms ℝ 2) ⟨0, 0, 0⟩ ⟨0, 1, 0⟩ ⟨0, 0⟩ =
      some (Vec4.ofVec3
        (referenceColor Real.sqrt ⟨0, 0, 0⟩ ⟨0, 1, 0⟩ (sceneUniforms ℝ 2).viewPos
          (if (sceneUniforms ℝ 2).hasTexture then
            ((sceneUniforms ℝ 2).textureSampler ⟨0, 0⟩).rgb
           else (sceneUniforms ℝ 2).objectColor)
          (sceneUniforms ℝ 2).lightPos (sceneUniforms ℝ 2).lightColor
          (sceneUniforms ℝ 2).numLights) 1) :=
  ⟨by simp [sceneUniforms], by simp [sceneUniforms],
    phongFragment_eq_reference Real.sqrt (sceneUniforms ℝ 2) ⟨0, 0, 0⟩ ⟨0, 1, 0⟩ ⟨0, 0⟩
      (by simp [sceneUniforms]) (by simp [sceneUniforms])⟩

/-- C2, as stated, fails in the arithmetic of the shaders: at the finite binary32 distance
`2^64` the product `dist * dist` overflows, the divisor of both shaders is `+Inf` and the
attenuation is exactly 0, outside `(0, 1]`. -/
theorem attenuation32_zero_at_two_pow_64 :
    F32.round (2 ^ 64) = F32.fin (2 ^ 64) ∧
    phongAttenuationDenominator32 (F32.fin (2 ^ 64)) = F32.pinf ∧
    gouraudAttenuationDenominator32 (F32.fin (2 ^ 64)) = F32.pinf ∧
    phongAttenuation32 (F32.fin (2 ^ 64)) = F32.fin 0 ∧
    gouraudAttenuation32 (F32.fin (2 ^ 64)) = F32.fin 0 := by
  have hD := (phongAttenuationDenominator32_cases (2 ^ 64) (by norm_num)).2.2 (le_refl _)
  obtain ⟨a, ha, -, -, -, h0⟩ := phongAttenuation32_cases (2 ^ 64) (by norm_num)
  rw [h0 (le_refl _)] at ha
  exact ⟨round_two_pow_64, hD, hD, ha, ha⟩

/-- C2, amended: for every finite distance `d ≥ 0`, in binary32 the attenuation divisor of
the Phong fragment shader and of the Gouraud vertex shader is `+Inf` or a finite number that
is at least 1, never zero; it is finite for `d ≤ 2^63` and `+Inf` for `d ≥ 2^64`; the
attenuation of both shaders is a finite number in `[0, 1]`, positive for `d ≤ 2^63` and
exactly 0 for `d ≥ 2^64`.  In exact arithmetic the divisor is at least 1 and the attenuation
lies in `(0, 1]`.  At the distance `+Inf` the binary32 divisor is `+Inf` and the attenuation
is 0. -/
theorem attenuation32_range (q : ℚ) (hq : 0 ≤ q) :
    ((phongAttenuationDenominator32 (F32.fin q) = F32.pinf ∨
        ∃ r : ℚ, phongAttenuationDenominator32 (F32.fin q) = F32.fin r ∧ 1 ≤ r) ∧
      (q ≤ 2 ^ 63 → phongAttenuationDenominator32 (F32.fin q) ≠ F32.pinf) ∧
      (2 ^ 64 ≤ q → phongAttenuationDenominator32 (F32.fin q) = F32.pinf) ∧
      ∃ a : ℚ, phongAttenuation32 (F32.fin q) = F32.fin a ∧ 0 ≤ a ∧ a ≤ 1 ∧
        (q ≤ 2 ^ 63 → 0 < a) ∧ (2 ^ 64 ≤ q → a = 0)) ∧
    ((gouraudAttenuationDenominator32 (F32.fin q) = F32.pinf ∨
        ∃ r : ℚ, gouraudAttenuationDenominator32 (F32.fin q) = F32.fin r ∧ 1 ≤ r) ∧
      (q ≤ 2 ^ 63 → gouraudAttenuationDenominator32 (F32.fin q) ≠ F32.pinf) ∧
      (2 ^ 64 ≤ q → gouraudAttenuationDenominator32 (F32.fin q) = F32.pinf) ∧
      ∃ a : ℚ, gouraudAttenuation32 (F32.fin q) = F32.fin a ∧ 0 ≤ a ∧ a ≤ 1 ∧
        (q ≤ 2 ^ 63 → 0 < a) ∧ (2 ^ 64 ≤ q → a = 0)) ∧
    ((1 ≤ phongAttenuationDenominator q ∧ 0 < phongAttenuation q ∧ phongAttenuation q ≤ 1) ∧
      (1 ≤ gouraudAttenuationDenominator q ∧ 0 < gouraudAttenuation q ∧
        gouraudAttenuation q ≤ 1)) ∧
    ((phongAttenuationDenominator32 F32.pinf = F32.pinf ∧
        phongAttenuation32 F32.pinf = F32.fin 0) ∧
      (gouraudAttenuationDenominator32 F32.pinf = F32.pinf ∧
        gouraudAttenuation32 F32.pinf = F32.fin 0)) := by
  obtain ⟨d1, d2, d3⟩ := phongAttenuationDenominator32_cases q hq
  have ha := phongAttenuation32_cases q hq
  have hp : 1 ≤ phongAttenuationDenominator q := by
    simpa [phongAttenuationDenominator] using one_le_attenuation_poly q hq
  have hg : 1 ≤ gouraudAttenuationDenominator q := by
    simpa [gouraudAttenuationDenominator] using one_le_attenuation_poly q hq
  have hp0 : 0 < phongAttenuationDenominator q := lt_of_lt_of_le one_pos hp
  have hg0 : 0 < gouraudAttenuationDenominator q := lt_of_lt_of_le one_pos hg
  exact ⟨⟨d1, d2, d3, ha⟩, ⟨d1, d2, d3, ha⟩,
    ⟨⟨hp, one_div_pos.mpr hp0, (div_le_one hp0).mpr hp⟩,
      ⟨hg, one_div_pos.mpr hg0, (div_le_one hg0).mpr hg⟩⟩,
    phongAttenuation32_pinf, phongAttenuation32_pinf⟩

/-- Witness for the amended C2 at distance 5: the binary32 attenuation of the fragment
shader is a finite positive number that is at most 1. -/
theorem attenuation32_range_witness :
    (0 : ℚ) ≤ 5 ∧ (5 : ℚ) ≤ 2 ^ 63 ∧
    ∃ a : ℚ, phongAttenuation32 (F32.fin 5) = F32.fin a ∧ 0 < a ∧ a ≤ 1 :=
  ⟨by norm_num, by norm_num,
    match (attenuation32_range 5 (by norm_num)).1.2.2.2 with
    | ⟨a, e, _, h1, hp, _⟩ => ⟨a, e, hp (by norm_num), h1⟩⟩

/-- C3, as stated, fails in the arithmetic of the shader: the binary32 distances `2.5` and
the next one above it, `2.5 + 2^-22`, have the same attenuation `2943371 / 4194304`. -/
theorem attenuation32_not_strictly_decreasing :
    F32.round (5 / 2) = F32.fin (5 / 2) ∧
    F32.round (10485761 / 4194304) = F32.fin (10485761 / 4194304) ∧
    (0 : ℚ) ≤ 5 / 2 ∧ (5 / 2 : ℚ) < 10485761 / 4194304 ∧
    phongAttenuation32 (F32.fin (5 / 2)) = F32.fin (2943371 / 4194304) ∧
    phongAttenuation32 (F32.fin (10485761 / 4194304)) = F32.fin (2943371 / 4194304) ∧
    ¬ ((2943371 / 4194304 : ℚ) < 2943371 / 4194304) := by
  have r1 : F32.round (5 / 2) = F32.fin (5 / 2) := by
    rw [round_eq_fin _ (by norm_num) (by rw [eval_a_dist]; norm_num), eval_a_dist]
  have r2 : F32.round (10485761 / 4194304) = F32.fin (10485761 / 4194304) := by
    rw [round_eq_fin _ (by norm_num) (by rw [eval_b_dist]; norm_num), eval_b_dist]
  have a1 := (phongAttenuation32_spec (5 / 2) (by norm_num)).1
  have a2 := (phongAttenuation32_spec (10485761 / 4194304) (by norm_num)).1
  rw [attenuationValue32_a.2] at a1
  rw [attenuationValue32_b.2] at a2
  exact ⟨r1, r2, by norm_num, by norm_num, a1, a2, lt_irrefl _⟩

/-- C3, amended: in binary32 the attenuation of both shaders is a finite number that does
not grow with the distance: for finite distances `0 ≤ d1 ≤ d2`,
`attenuation(d2) ≤ attenuation(d1)`.  In exact arithmetic the attenuation
`1 / (1 + 0.09 d + 0.032 d^2)` is strictly decreasing: `d1 < d2` gives
`attenuation(d2) < attenuation(d1)`. -/
theorem attenuation32_nonincreasing (q1 q2 : ℚ) (h1 : 0 ≤ q1) (h12 : q1 ≤ q2) :
    (∃ a1 a2 : ℚ, phongAttenuation32 (F32.fin q1) = F32.fin a1 ∧
      phongAttenuation32 (F32.fin q2) = F32.fin a2 ∧ a2 ≤ a1) ∧
    (∃ a1 a2 : ℚ, gouraudAttenuation32 (F32.fin q1) = F32.fin a1 ∧
      gouraudAttenuation32 (F32.fin q2) = F32.fin a2 ∧ a2 ≤ a1) ∧
    (q1 < q2 → phongAttenuation q2 < phongAttenuation q1 ∧
      gouraudAttenuation q2 < gouraudAttenuation q1) := by
  have e1 := (phongAttenuation32_spec q1 h1).1
  have e2 := (phongAttenuation32_spec q2 (le_trans h1 h12)).1
  have hm := attenuationValue32_antitone h1 h12
  refine ⟨⟨_, _, e1, e2, hm⟩, ⟨_, _, e1, e2, hm⟩, ?_⟩
  intro hlt
  have hpos : 0 < phongAttenuationDenominator q1 := by
    have := one_le_attenuation_poly q1 h1
    simp only [phongAttenuationDenominator]
    linarith
  have hl : phongAttenuationDenominator q1 < phongAttenuationDenominator q2 := by
    simpa [phongAttenuationDenominator] using attenuation_poly_strictMono q1 q2 h1 hlt
  exact ⟨one_div_lt_one_div_of_lt hpos hl, one_div_lt_one_div_of_lt hpos hl⟩

/-- Witness for the amended C3 at distances 0 and 5. -/
theorem attenuation32_nonincreasing_witness :
    (0 : ℚ) ≤ 0 ∧ (0 : ℚ) ≤ 5 ∧
    (∃ a1 a2 : ℚ, phongAttenuation32 (F32.fin 0) = F32.fin a1 ∧
      phongAttenuation32 (F32.fin 5) = F32.fin a2 ∧ a2 ≤ a1) ∧
    phongAttenuation (5 : ℚ) < phongAttenuation (0 : ℚ) :=
  ⟨le_refl 0, by norm_num,
    (attenuation32_nonincreasing 0 5 (le_refl 0) (by norm_num)).1,
    ((attenuation32_nonincreasing 0 5 (le_refl 0) (by norm_num)).2.2 (by norm_num)).1⟩

/-- C4: at distance 0 the attenuation factor of both shaders is exactly 1, the inverse of
the constant term `Kc = 1`. -/
theorem attenuation_at_zero :
    phongAttenuation (0 : α) = 1 ∧ gouraudAttenuation (0 : α) = 1 := by
  simp [phongAttenuation, gouraudAttenuation, phongAttenuationDenominator,
    gouraudAttenuationDenominator]

/-- C5, as stated, fails: with the unit normal `(0,1,0)` at the origin, a light at
`(24,-7,0)` and the camera at `(0,1,0)`, the light direction has `dot(n, L) = -7/25 < 0`
and the diffuse term is 0, yet the half-vector is `(4/5, 3/5, 0)` and the specular term of
the fragment shader is `0.6 * (3/5)^32 * lightColor`, which is not 0. -/
theorem specular_nonzero_facing_away :
    dot (⟨0, 1, 0⟩ : Vec3 ℝ) ⟨0, 1, 0⟩ = 1 ∧
    dot (⟨0, 1, 0⟩ : Vec3 ℝ) (phongLightDir Real.sqrt ⟨0, 0, 0⟩ ⟨24, -7, 0⟩) < 0 ∧
    ¬ (phongDiffuse Real.sqrt ⟨0, 0, 0⟩ ⟨0, 1, 0⟩ ⟨24, -7, 0⟩ ⟨1, 1, 1⟩ = (0 : Vec3 ℝ) ∧
       phongSpecular Real.sqrt ⟨0, 0, 0⟩ ⟨0, 1, 0⟩
         (normalize Real.sqrt ((⟨0, 1, 0⟩ : Vec3 ℝ) - ⟨0, 0, 0⟩)) ⟨24, -7, 0⟩ ⟨1, 1, 1⟩
         = (0 : Vec3 ℝ)) := by
  have h625 : Real.sqrt 625 = 25 := by
    rw [show (625 : ℝ) = 25 ^ 2 by norm_num]
    exact Real.sqrt_sq (by norm_num)
  have h3625 : Real.sqrt (36 / 25) = 6 / 5 := by
    rw [show (36 / 25 : ℝ) = (6 / 5) ^ 2 by norm_num]
    exact Real.sqrt_sq (by norm_num)
  have hL : phongLightDir Real.sqrt (⟨0, 0, 0⟩ : Vec3 ℝ) ⟨24, -7, 0⟩ = ⟨24 / 25, -7 / 25, 0⟩ := by
    ext <;> simp only [phongLightDir, normalize, length, dot, vec3_sub_x, vec3_sub_y,
      vec3_sub_z] <;> norm_num [h625]
  have hV : normalize Real.sqrt ((⟨0, 1, 0⟩ : Vec3 ℝ) - ⟨0, 0, 0⟩) = ⟨0, 1, 0⟩ := by
    ext <;> simp only [normalize, length, dot, vec3_sub_x, vec3_sub_y, vec3_sub_z] <;> norm_num
  have hH : phongHalfwayDir Real.sqrt (⟨0, 0, 0⟩ : Vec3 ℝ) ⟨0, 1, 0⟩ ⟨24, -7, 0⟩ =
      ⟨4 / 5, 3 / 5, 0⟩ := by
    ext <;> simp only [phongHalfwayDir, hL, normalize, length, dot, vec3_add_x, vec3_add_y,
      vec3_add_z] <;> norm_num [h3625]
  refine ⟨by norm_num [dot], ?_, ?_⟩
  · rw [hL]
    norm_num [dot]
  · rintro ⟨-, hs⟩
    have hx := congrArg Vec3.x hs
    rw [hV] at hx
    simp only [phongSpecular, phongSpec, hH, Vec3.scale, dot, vec3_zero_x] at hx
    norm_num at hx

/-- C5, amended: when the normalised light direction has `dot(n, L) < 0`, the per-light
diffuse term of both shaders is exactly 0.  The specular term does not depend on
`dot(n, L)`: in both shaders it is exactly 0 when `dot(n, H) ≤ 0` for the half-vector `H`,
and each of its components is non-negative when the light colour is non-negative. -/
theorem diffuse_zero_specular_nonneg (sqrt : α → α)
    (FragPos norm viewDir lightPos_i lightColor_i : Vec3 α)
    (h : dot norm (phongLightDir sqrt FragPos lightPos_i) < 0) :
    (phongDiffuse sqrt FragPos norm lightPos_i lightColor_i = 0 ∧
      gouraudDiffuse sqrt FragPos norm lightPos_i lightColor_i = 0) ∧
    (dot norm (phongHalfwayDir sqrt FragPos viewDir lightPos_i) ≤ 0 →
      phongSpecular sqrt FragPos norm viewDir lightPos_i lightColor_i = 0 ∧
      gouraudSpecular sqrt FragPos norm viewDir lightPos_i lightColor_i = 0) ∧
    (0 ≤ lightColor_i.x → 0 ≤ lightColor_i.y → 0 ≤ lightColor_i.z →
      (0 ≤ (phongSpecular sqrt FragPos norm viewDir lightPos_i lightColor_i).x ∧
       0 ≤ (phongSpecular sqrt FragPos norm viewDir lightPos_i lightColor_i).y ∧
       0 ≤ (phongSpecular sqrt FragPos norm viewDir lightPos_i lightColor_i).z) ∧
      (0 ≤ (gouraudSpecular sqrt FragPos norm viewDir lightPos_i lightColor_i).x ∧
       0 ≤ (gouraudSpecular sqrt FragPos norm viewDir lightPos_i lightColor_i).y ∧
       0 ≤ (gouraudSpecular sqrt FragPos norm viewDir lightPos_i lightColor_i).z)) := by
  have hg : dot norm (gouraudLightDir sqrt FragPos lightPos_i) < 0 := h
  have hdp : phongDiff sqrt FragPos norm lightPos_i = 0 := by
    simp only [phongDiff]
    exact max_eq_right (le_of_lt h)
  have hdg : gouraudDiff sqrt FragPos norm lightPos_i = 0 := by
    simp only [gouraudDiff]
    exact max_eq_right (le_of_lt hg)
  have hsp : 0 ≤ phongSpec sqrt FragPos norm viewDir lightPos_i := by
    simp only [phongSpec]
    exact pow_nonneg (le_max_right _ _) 32
  refine ⟨⟨?_, ?_⟩, ?_, ?_⟩
  · ext <;> simp [phongDiffuse, Vec3.scale, hdp, vec3_zero_x, vec3_zero_y, vec3_zero_z]
  · ext <;> simp [gouraudDiffuse, Vec3.scale, hdg, vec3_zero_x, vec3_zero_y, vec3_zero_z]
  · intro hH
    have hHg : dot norm (gouraudHalfwayDir sqrt FragPos viewDir lightPos_i) ≤ 0 := hH
    have h1 : phongSpec sqrt FragPos norm viewDir lightPos_i = 0 := by
      simp only [phongSpec, max_eq_right hH]
      norm_num
    have h2 : gouraudSpec sqrt FragPos norm viewDir lightPos_i = 0 := by
      simp only [gouraudSpec, max_eq_right hHg]
      norm_num
    constructor
    · ext <;> simp [phongSpecular, Vec3.scale, h1, vec3_zero_x, vec3_zero_y, vec3_zero_z]
    · ext <;> simp [gouraudSpecular, Vec3.scale, h2, vec3_zero_x, vec3_zero_y, vec3_zero_z]
  · intro hx hy hz
    have h06 : (0 : α) ≤ 0.6 := by norm_num
    simp only [phongSpec] at hsp
    refine ⟨⟨?_, ?_, ?_⟩, ⟨?_, ?_, ?_⟩⟩ <;>
      simp only [phongSpecular, gouraudSpecular, phongSpec, gouraudSpec, phongHalfwayDir,
        gouraudHalfwayDir, phongLightDir, gouraudLightDir, Vec3.scale] <;>
      first
        | exact mul_nonneg (mul_nonneg h06 hsp) hx
        | exact mul_nonneg (mul_nonneg h06 hsp) hy
        | exact mul_nonneg (mul_nonneg h06 hsp) hz

/-- Witness for the amended C5: the unit normal `(0,1,0)` at the origin with a light
straight below it at `(0,-1,0)` and view direction `(0,0,1)`, over the reals. -/
theorem diffuse_zero_specular_nonneg_witness :
    dot (⟨0, 1, 0⟩ : Vec3 ℝ) (phongLightDir Real.sqrt ⟨0, 0, 0⟩ ⟨0, -1, 0⟩) < 0 ∧
    dot (⟨0, 1, 0⟩ : Vec3 ℝ) (phongHalfwayDir Real.sqrt ⟨0, 0, 0⟩ ⟨0, 0, 1⟩ ⟨0, -1, 0⟩) ≤ 0 ∧
    (phongDiffuse Real.sqrt (⟨0, 0, 0⟩ : Vec3 ℝ) ⟨0, 1, 0⟩ ⟨0, -1, 0⟩ ⟨1, 1, 0.95⟩ = 0 ∧
      gouraudDiffuse Real.sqrt (⟨0, 0, 0⟩ : Vec3 ℝ) ⟨0, 1, 0⟩ ⟨0, -1, 0⟩ ⟨1, 1, 0.95⟩ = 0) ∧
    (phongSpecular Real.sqrt (⟨0, 0, 0⟩ : Vec3 ℝ) ⟨0, 1, 0⟩ ⟨0, 0, 1⟩ ⟨0, -1, 0⟩ ⟨1, 1, 0.95⟩ = 0 ∧
      gouraudSpecular Real.sqrt (⟨0, 0, 0⟩ : Vec3 ℝ) ⟨0, 1, 0⟩ ⟨0, 0, 1⟩ ⟨0, -1, 0⟩ ⟨1, 1, 0.95⟩
        = 0) ∧
    0 ≤ (phongSpecular Real.sqrt (⟨0, 0, 0⟩ : Vec3 ℝ) ⟨0, 1, 0⟩ ⟨0, 0, 1⟩ ⟨0, -1, 0⟩
      ⟨1, 1, 0.95⟩).z :=
  have hL : phongLightDir Real.sqrt (⟨0, 0, 0⟩ : Vec3 ℝ) ⟨0, -1, 0⟩ = ⟨0, -1, 0⟩ := by
    ext <;> simp only [phongLightDir, normalize, length, dot, vec3_sub_x, vec3_sub_y,
      vec3_sub_z] <;> norm_num
  have h : dot (⟨0, 1, 0⟩ : Vec3 ℝ) (phongLightDir Real.sqrt ⟨0, 0, 0⟩ ⟨0, -1, 0⟩) < 0 := by
    rw [hL]
    norm_num [dot]
  have hH : dot (⟨0, 1, 0⟩ : Vec3 ℝ)
      (phongHalfwayDir Real.sqrt ⟨0, 0, 0⟩ ⟨0, 0, 1⟩ ⟨0, -1, 0⟩) ≤ 0 := by
    simp only [phongHalfwayDir, hL, normalize, length, dot, vec3_add_x, vec3_add_y, vec3_add_z]
    have hs := Real.sqrt_nonneg ((0 + 0) * (0 + 0) + (-1 + 0) * (-1 + 0) + (0 + 1) * (0 + 1))
    have hq : (-1 + 0) / Real.sqrt ((0 + 0) * (0 + 0) + (-1 + 0) * (-1 + 0) + (0 + 1) * (0 + 1))
        ≤ 0 := div_nonpos_of_nonpos_of_nonneg (by norm_num) hs
    linarith
  have hc := diffuse_zero_specular_nonneg Real.sqrt (⟨0, 0, 0⟩ : Vec3 ℝ) ⟨0, 1, 0⟩ ⟨0, 0, 1⟩
    ⟨0, -1, 0⟩ ⟨1, 1, 0.95⟩ h
  ⟨h, hH, hc.1, hc.2.1 hH,
    (hc.2.2 (by norm_num) (by norm_num) (by norm_num)).1.2.2⟩

/-- C7: the litColor written by the Gouraud vertex shader equals the RGB result of the Phong
fragment shader run with `hasTexture = false` and the same `objectColor` on the world
position and normal that the vertex shader derives from the vertex; in particular, with the
identity model matrix, on every position `P` and normal `n`.  Both are defined whenever
`numLights ≤ 6`. -/
theorem gouraud_litColor_eq_phong (sqrt : α → α) (u : Uniforms α) (aPos aNormal : Vec3 α)
    (aTexCoord TexCoord : Vec2 α) :
    ((gouraudVertex sqrt u aPos aNormal aTexCoord).map GouraudVaryings.litColor =
      (phongFragment sqrt { u with hasTexture := false }
        (Mat4.mulVec4 u.model (Vec4.ofVec3 aPos 1)).toVec3
        (Mat3.mulVec3 (mat3 (transpose (inverse u.model))) aNormal) TexCoord).map Vec4.rgb) ∧
    ((gouraudVertex sqrt { u with model := 1 } aPos aNormal aTexCoord).map
        GouraudVaryings.litColor =
      (phongFragment sqrt { u with hasTexture := false } aPos aNormal TexCoord).map
        Vec4.rgb) ∧
    (u.numLights ≤ 6 →
      ((gouraudVertex sqrt u aPos aNormal aTexCoord).map
        GouraudVaryings.litColor).isSome = true) := by
  have key : ∀ v : Uniforms α,
      (gouraudVertex sqrt v aPos aNormal aTexCoord).map GouraudVaryings.litColor =
      (phongFragment sqrt { v with hasTexture := false }
        (Mat4.mulVec4 v.model (Vec4.ofVec3 aPos 1)).toVec3
        (Mat3.mulVec3 (mat3 (transpose (inverse v.model))) aNormal) TexCoord).map
        Vec4.rgb := by
    intro v
    simp only [gouraudVertex, phongFragment, gouraudLoop_eq_phongLoop, Option.map_map]
    have hloop : ∀ (P n w c r : Vec3 α),
        phongLoop sqrt { v with hasTexture := false } P n w c r = phongLoop sqrt v P n w c r :=
      fun _ _ _ _ _ => rfl
    simp only [hloop, Bool.false_eq_true, if_false]
    congr 1
  refine ⟨key u, ?_, ?_⟩
  · have h1 := key { u with model := 1 }
    dsimp only at h1
    rw [mulVec4_one_toVec3, normalMatrix_one_mulVec3] at h1
    exact h1
  · intro h6
    simp only [gouraudVertex, gouraudLoop_eq_phongLoop, Option.map_map, Option.isSome_map']
    exact phongLoop_isSome sqrt u _ _ _ _ _ h6

/-- Witness for C7: the start-up scene with all six lights, over the reals. -/
theorem gouraud_litColor_eq_phong_witness :
    (sceneUniforms ℝ 6).numLights ≤ 6 ∧
    ((gouraudVertex Real.sqrt (sceneUniforms ℝ 6) ⟨0, 0, 0⟩ ⟨0, 1, 0⟩ ⟨0, 0⟩).map
      GouraudVaryings.litColor).isSome = true :=
  ⟨by simp [sceneUniforms],
    (gouraud_litColor_eq_phong Real.sqrt (sceneUniforms ℝ 6) ⟨0, 0, 0⟩ ⟨0, 1, 0⟩ ⟨0, 0⟩
      ⟨0, 0⟩).2.2 (by simp [sceneUniforms])⟩

/-- C6, as stated, fails: for an untextured surface of colour `(1/2,1/2,1/2)` with the
vertex at the origin, normal `(0,1,0)`, one white light straight above at distance 1 and the
camera at the light, the Phong program writes `16561/22440` per channel at the vertex and
the Gouraud program writes half of it, `16561/44880`. -/
theorem gouraud_ne_phong_at_vertex :
    phongAtVertex Real.sqrt
        (oneLightUniforms ℝ ⟨0, 1, 0⟩ ⟨1, 1, 1⟩ ⟨0, 1, 0⟩ ⟨1 / 2, 1 / 2, 1 / 2⟩ false)
        ⟨0, 0, 0⟩ ⟨0, 1, 0⟩ ⟨0, 0⟩ =
      some ⟨16561 / 22440, 16561 / 22440, 16561 / 22440, 1⟩ ∧
    gouraudAtVertex Real.sqrt
        (oneLightUniforms ℝ ⟨0, 1, 0⟩ ⟨1, 1, 1⟩ ⟨0, 1, 0⟩ ⟨1 / 2, 1 / 2, 1 / 2⟩ false)
        ⟨0, 0, 0⟩ ⟨0, 1, 0⟩ ⟨0, 0⟩ =
      some ⟨16561 / 44880, 16561 / 44880, 16561 / 44880, 1⟩ ∧
    gouraudAtVertex Real.sqrt
        (oneLightUniforms ℝ ⟨0, 1, 0⟩ ⟨1, 1, 1⟩ ⟨0, 1, 0⟩ ⟨1 / 2, 1 / 2, 1 / 2⟩ false)
        ⟨0, 0, 0⟩ ⟨0, 1, 0⟩ ⟨0, 0⟩ ≠
      phongAtVertex Real.sqrt
        (oneLightUniforms ℝ ⟨0, 1, 0⟩ ⟨1, 1, 1⟩ ⟨0, 1, 0⟩ ⟨1 / 2, 1 / 2, 1 / 2⟩ false)
        ⟨0, 0, 0⟩ ⟨0, 1, 0⟩ ⟨0, 0⟩ := by
  have hp : phongAtVertex Real.sqrt
        (oneLightUniforms ℝ ⟨0, 1, 0⟩ ⟨1, 1, 1⟩ ⟨0, 1, 0⟩ ⟨1 / 2, 1 / 2, 1 / 2⟩ false)
        ⟨0, 0, 0⟩ ⟨0, 1, 0⟩ ⟨0, 0⟩ =
      some ⟨16561 / 22440, 16561 / 22440, 16561 / 22440, 1⟩ := by
    have hm : (oneLightUniforms ℝ ⟨0, 1, 0⟩ ⟨1, 1, 1⟩ ⟨0, 1, 0⟩ ⟨1 / 2, 1 / 2, 1 / 2⟩
        false).model = 1 := rfl
    simp only [phongAtVertex, phongVertex, hm, mulVec4_one_toVec3, normalMatrix_one_mulVec3,
      phongFragment_overhead, Option.some.injEq]
    ext <;> simp only [Vec4.ofVec3, Vec3.splat, vec3_add_x, vec3_add_y, vec3_add_z,
      vec3_mul_x, vec3_mul_y, vec3_mul_z] <;> norm_num
  have hg : gouraudAtVertex Real.sqrt
        (oneLightUniforms ℝ ⟨0, 1, 0⟩ ⟨1, 1, 1⟩ ⟨0, 1, 0⟩ ⟨1 / 2, 1 / 2, 1 / 2⟩ false)
        ⟨0, 0, 0⟩ ⟨0, 1, 0⟩ ⟨0, 0⟩ =
      some ⟨16561 / 44880, 16561 / 44880, 16561 / 44880, 1⟩ := by
    have hu : ({ oneLightUniforms ℝ ⟨0, 1, 0⟩ ⟨1, 1, 1⟩ ⟨0, 1, 0⟩ ⟨1 / 2, 1 / 2, 1 / 2⟩ false
        with hasTexture := false } : Uniforms ℝ) =
        oneLightUniforms ℝ ⟨0, 1, 0⟩ ⟨1, 1, 1⟩ ⟨0, 1, 0⟩ ⟨1 / 2, 1 / 2, 1 / 2⟩ false := rfl
    rw [gouraudAtVertex_modulated, hu, hp]
    simp only [Option.map_some', Option.some.injEq, oneLightUniforms, Bool.false_eq_true,
      if_false]
    ext <;> simp only [Vec4.ofVec3, Vec4.rgb, vec3_mul_x, vec3_mul_y, vec3_mul_z] <;> norm_num
  refine ⟨hp, hg, ?_⟩
  rw [hp, hg]
  intro h
  have hx := congrArg Vec4.x (Option.some.inj h)
  norm_num at hx

/-- C6, amended: at a mesh vertex the Gouraud program writes `vec4(m * c, 1)`, where `c` is
the RGB colour the Phong program writes there when run untextured with the same
`objectColor`, and `m` is the texture sample when `hasTexture` is set and `objectColor`
otherwise.  The two programs write the same colour at the vertex whenever the surface
colour `s` of the Phong program (`s = m`) satisfies `s * objectColor = s` component-wise,
for instance an untextured surface whose colour components are all 0 or 1, or a textured
surface with `objectColor = (1,1,1)`. -/
theorem gouraud_phong_at_vertex (sqrt : α → α) (u : Uniforms α) (aPos aNormal : Vec3 α)
    (aTexCoord : Vec2 α) :
    gouraudAtVertex sqrt u aPos aNormal aTexCoord =
      (phongAtVertex sqrt { u with hasTexture := false } aPos aNormal aTexCoord).map
        (fun c => Vec4.ofVec3
          ((if u.hasTexture then (u.textureSampler (aTexCoord * u.uvScale)).rgb
            else u.objectColor) * c.rgb) 1) ∧
    ((if u.hasTexture then (u.textureSampler (aTexCoord * u.uvScale)).rgb
        else u.objectColor) * u.objectColor =
      (if u.hasTexture then (u.textureSampler (aTexCoord * u.uvScale)).rgb
        else u.objectColor) →
      gouraudAtVertex sqrt u aPos aNormal aTexCoord =
        phongAtVertex sqrt u aPos aNormal aTexCoord) := by
  refine ⟨gouraudAtVertex_modulated sqrt u aPos aNormal aTexCoord, ?_⟩
  intro hm
  have hx := congrArg Vec3.x hm
  have hy := congrArg Vec3.y hm
  have hz := congrArg Vec3.z hm
  simp only [vec3_mul_x, vec3_mul_y, vec3_mul_z] at hx hy hz
  have hinit : (if u.hasTexture then (u.textureSampler (aTexCoord * u.uvScale)).rgb
        else u.objectColor) * (Vec3.splat 0.05 * u.objectColor) =
      Vec3.splat 0.05 * (if u.hasTexture then (u.textureSampler (aTexCoord * u.uvScale)).rgb
        else u.objectColor) := by
    ext
    · simp only [vec3_mul_x, Vec3.splat]
      linear_combination (0.05 : α) * hx
    · simp only [vec3_mul_y, Vec3.splat]
      linear_combination (0.05 : α) * hy
    · simp only [vec3_mul_z, Vec3.splat]
      linear_combination (0.05 : α) * hz
  simp only [gouraudAtVertex, gouraudVertex, phongAtVertex, phongVertex, phongFragment,
    gouraudLoop_eq_phongLoop, Option.map_map]
  rcases phongLoop_modulated sqrt u (Mat4.mulVec4 u.model (Vec4.ofVec3 aPos 1)).toVec3
      (normalize sqrt (Mat3.mulVec3 (mat3 (transpose (inverse u.model))) aNormal))
      (normalize sqrt (u.viewPos - (Mat4.mulVec4 u.model (Vec4.ofVec3 aPos 1)).toVec3))
      u.objectColor _ _ _ hm hinit with ⟨h1, h2⟩ | ⟨a', b', h1, h2, hab⟩
  · rw [h1, h2]
    rfl
  · rw [h1, h2]
    simp only [Option.map_some', Function.comp_apply, Option.some.injEq]
    rw [← hab]
    cases hT : u.hasTexture <;> simp [gouraudFragment, hT]

/-- Witness for the amended C6: an untextured white surface in the one-light scene, over
the reals. -/
theorem gouraud_phong_at_vertex_witness :
    (⟨1, 1, 1⟩ : Vec3 ℝ) * ⟨1, 1, 1⟩ = ⟨1, 1, 1⟩ ∧
    gouraudAtVertex Real.sqrt (oneLightUniforms ℝ ⟨0, 1, 0⟩ ⟨1, 1, 1⟩ ⟨0, 1, 0⟩ ⟨1, 1, 1⟩ false)
        ⟨0, 0, 0⟩ ⟨0, 1, 0⟩ ⟨0, 0⟩ =
      phongAtVertex Real.sqrt (oneLightUniforms ℝ ⟨0, 1, 0⟩ ⟨1, 1, 1⟩ ⟨0, 1, 0⟩ ⟨1, 1, 1⟩ false)
        ⟨0, 0, 0⟩ ⟨0, 1, 0⟩ ⟨0, 0⟩ :=
  have h : (⟨1, 1, 1⟩ : Vec3 ℝ) * ⟨1, 1, 1⟩ = ⟨1, 1, 1⟩ := by
    ext <;> simp [vec3_mul_x, vec3_mul_y, vec3_mul_z]
  ⟨h, (gouraud_phong_at_vertex Real.sqrt
    (oneLightUniforms ℝ ⟨0, 1, 0⟩ ⟨1, 1, 1⟩ ⟨0, 1, 0⟩ ⟨1, 1, 1⟩ false)
    ⟨0, 0, 0⟩ ⟨0, 1, 0⟩ ⟨0, 0⟩).2 h⟩

/-- C8: with `numLights = 0` the Phong fragment shader writes `vec4(0.05 * surfaceColor, 1)`,
whatever the six `lightPos` / `lightColor` slots hold; `surfaceColor` is the texture sample
when `hasTexture` is set and `objectColor` otherwise. -/
theorem phongFragment_numLights_zero (sqrt : α → α) (u : Uniforms α) (FragPos Normal : Vec3 α)
    (TexCoord : Vec2 α) (h : u.numLights = 0) :
    phongFragment sqrt u FragPos Normal TexCoord =
      some (Vec4.ofVec3
        (Vec3.scale 0.05
          (if u.hasTexture then (u.textureSampler TexCoord).rgb else u.objectColor)) 1) := by
  simp only [phongFragment, phongLoop, h, Int.toNat_zero, List.range_zero, List.foldlM_nil,
    Option.pure_def, Option.map_some', Option.some.injEq]
  rfl

/-- Witness for C8: the start-up scene with all six slots populated and `numLights = 0`. -/
theorem phongFragment_numLights_zero_witness :
    (sceneUniforms ℝ 0).numLights = 0 ∧
    (sceneUniforms ℝ 0).lightColor ⟨5, by decide⟩ = ⟨1, 1, 0.95⟩ ∧
    phongFragment Real.sqrt (sceneUniforms ℝ 0) ⟨1, 0, 2⟩ ⟨0, 1, 0⟩ ⟨0, 0⟩ =
      some (Vec4.ofVec3 (Vec3.scale 0.05 (Vec3.splat 0.95)) 1) :=
  ⟨rfl, rfl, phongFragment_numLights_zero Real.sqrt (sceneUniforms ℝ 0) ⟨1, 0, 2⟩ ⟨0, 1, 0⟩
    ⟨0, 0⟩ rfl⟩

/-- C9: for `0 ≤ numLights ≤ 6`, replacing the contents of `lightPos[j]` and `lightColor[j]`
for `j ≥ numLights` by anything, with every other uniform and input unchanged, changes
nothing: the Phong fragment shader returns the same colour, the Gouraud vertex shader
returns the same outputs, and the Gouraud program writes the same colour at a vertex; all
of them are defined. -/
theorem unused_slots_contribute_nothing (sqrt : α → α) (u : Uniforms α)
    (lightPos2 lightColor2 : Fin NUM_LIGHTS → Vec3 α)
    (FragPos Normal aPos aNormal : Vec3 α) (TexCoord aTexCoord : Vec2 α)
    (h0 : 0 ≤ u.numLights) (h6 : u.numLights ≤ 6)
    (hagree : ∀ i : Fin NUM_LIGHTS, ((i : Nat) : Int) < u.numLights →
      lightPos2 i = u.lightPos i ∧ lightColor2 i = u.lightColor i) :
    (phongFragment sqrt { u with lightPos := lightPos2, lightColor := lightColor2 }
        FragPos Normal TexCoord = phongFragment sqrt u FragPos Normal TexCoord ∧
      (phongFragment sqrt u FragPos Normal TexCoord).isSome = true) ∧
    (gouraudVertex sqrt { u with lightPos := lightPos2, lightColor := lightColor2 }
        aPos aNormal aTexCoord = gouraudVertex sqrt u aPos aNormal aTexCoord ∧
      (gouraudVertex sqrt u aPos aNormal aTexCoord).isSome = true) ∧
    (gouraudAtVertex sqrt { u with lightPos := lightPos2, lightColor := lightColor2 }
        aPos aNormal aTexCoord = gouraudAtVertex sqrt u aPos aNormal aTexCoord ∧
      (gouraudAtVertex sqrt u aPos aNormal aTexCoord).isSome = true) := by
  have hn : (0 : Int) ≤ u.numLights := h0
  have hloop : ∀ (P n w c r : Vec3 α),
      phongLoop sqrt { u with lightPos := lightPos2, lightColor := lightColor2 } P n w c r =
        phongLoop sqrt u P n w c r :=
    fun P n w c r => phongLoop_congr_slots sqrt u _ P n w c r rfl h6 hagree
  have hsome : ∀ (P n w c r : Vec3 α), (phongLoop sqrt u P n w c r).isSome = true :=
    fun P n w c r => phongLoop_isSome sqrt u P n w c r h6
  have hgv : gouraudVertex sqrt { u with lightPos := lightPos2, lightColor := lightColor2 }
      aPos aNormal aTexCoord = gouraudVertex sqrt u aPos aNormal aTexCoord := by
    simp only [gouraudVertex, gouraudLoop_eq_phongLoop, hloop]
  have hgs : (gouraudVertex sqrt u aPos aNormal aTexCoord).isSome = true := by
    simp only [gouraudVertex, gouraudLoop_eq_phongLoop, Option.isSome_map', hsome]
  refine ⟨⟨?_, ?_⟩, ⟨hgv, hgs⟩, ⟨?_, ?_⟩⟩
  · simp only [phongFragment, hloop]
  · simp only [phongFragment, Option.isSome_map', hsome]
  · simp only [gouraudAtVertex, hgv]
    rfl
  · simp only [gouraudAtVertex, Option.isSome_map', hgs]

/-- Witness for C9: the one-light scene, whose unused slots 1..5 hold zero, against the same
scene with every slot holding the light of slot 0. -/
theorem unused_slots_contribute_nothing_witness :
    (0 : Int) ≤ (oneLightUniforms ℝ ⟨0, 1, 0⟩ ⟨1, 1, 1⟩ ⟨0, 1, 0⟩ ⟨1, 1, 1⟩ false).numLights ∧
    (oneLightUniforms ℝ ⟨0, 1, 0⟩ ⟨1, 1, 1⟩ ⟨0, 1, 0⟩ ⟨1, 1, 1⟩ false).numLights ≤ 6 ∧
    phongFragment Real.sqrt
        { oneLightUniforms ℝ ⟨0, 1, 0⟩ ⟨1, 1, 1⟩ ⟨0, 1, 0⟩ ⟨1, 1, 1⟩ false with
          lightPos := fun _ => ⟨0, 1, 0⟩, lightColor := fun _ => ⟨1, 1, 1⟩ }
        ⟨0, 0, 0⟩ ⟨0, 1, 0⟩ ⟨0, 0⟩ =
      phongFragment Real.sqrt
        (oneLightUniforms ℝ ⟨0, 1, 0⟩ ⟨1, 1, 1⟩ ⟨0, 1, 0⟩ ⟨1, 1, 1⟩ false)
        ⟨0, 0, 0⟩ ⟨0, 1, 0⟩ ⟨0, 0⟩ :=
  have h0 : (0 : Int) ≤
      (oneLightUniforms ℝ ⟨0, 1, 0⟩ ⟨1, 1, 1⟩ ⟨0, 1, 0⟩ ⟨1, 1, 1⟩ false).numLights := by
    simp [oneLightUniforms]
  have h6 : (oneLightUniforms ℝ ⟨0, 1, 0⟩ ⟨1, 1, 1⟩ ⟨0, 1, 0⟩ ⟨1, 1, 1⟩ false).numLights ≤ 6 := by
    simp [oneLightUniforms]
  ⟨h0, h6, (unused_slots_contribute_nothing Real.sqrt
    (oneLightUniforms ℝ ⟨0, 1, 0⟩ ⟨1, 1, 1⟩ ⟨0, 1, 0⟩ ⟨1, 1, 1⟩ false)
    (fun _ => ⟨0, 1, 0⟩) (fun _ => ⟨1, 1, 1⟩) ⟨0, 0, 0⟩ ⟨0, 1, 0⟩ ⟨0, 0, 0⟩ ⟨0, 1, 0⟩ ⟨0, 0⟩ ⟨0, 0⟩
    h0 h6
    (by
      intro i hi
      have hi0 : (i : Nat) = 0 := by
        simp only [oneLightUniforms] at hi
        omega
      simp [oneLightUniforms, hi0])).1.1⟩

/-- C11: the shading toggle changes nothing but the program selection, its shadow
`lastActiveProgram` and the text printed: the bulb lists, the camera state, the meshes and
every other field of the state are the same after the toggle as before it, and for every
program the calls of the frame (light, camera and transform uploads, draws) computed from
the state after the toggle are the calls computed from the state before it. -/
theorem shadingToggle_leaves_scene (keys : Keys) (s : AppState α) :
    ((shadingToggle keys s).bulbPositions = s.bulbPositions ∧
      (shadingToggle keys s).bulbColors = s.bulbColors ∧
      (shadingToggle keys s).lightPos = s.lightPos) ∧
    ((shadingToggle keys s).cameraPos = s.cameraPos ∧
      (shadingToggle keys s).cameraFront = s.cameraFront ∧
      (shadingToggle keys s).cameraUp = s.cameraUp ∧
      (shadingToggle keys s).yaw = s.yaw ∧
      (shadingToggle keys s).pitch = s.pitch ∧
      (shadingToggle keys s).fov = s.fov) ∧
    ((shadingToggle keys s).sceneMeshes = s.sceneMeshes ∧
      (shadingToggle keys s).roomVAO = s.roomVAO ∧
      (shadingToggle keys s).projectorVAO = s.projectorVAO ∧
      (shadingToggle keys s).lightBoxVAO = s.lightBoxVAO ∧
      (shadingToggle keys s).ceilingTexture = s.ceilingTexture ∧
      (shadingToggle keys s).floorTexture = s.floorTexture) ∧
    shadingToggle keys s =
      { s with
        activeProgram := (shadingToggle keys s).activeProgram
        lastActiveProgram := (shadingToggle keys s).lastActiveProgram
        stdout := (shadingToggle keys s).stdout } ∧
    (∀ (getUniformLocation : Nat → String → Int) (p : Nat),
      frameCalls getUniformLocation p (shadingToggle keys s) =
        frameCalls getUniformLocation p s) ∧
    (∀ (getUniformLocation : Nat → String → Int),
      renderFrame getUniformLocation (shadingToggle keys s) =
        frameCalls getUniformLocation (shadingToggle keys s).activeProgram s) := by
  have h := shadingToggle_eq_update keys s
  have hf : ∀ (getUniformLocation : Nat → String → Int) (p : Nat),
      frameCalls getUniformLocation p (shadingToggle keys s) =
        frameCalls getUniformLocation p s := by
    intro g p
    rw [h]
    rfl
  refine ⟨?_, ?_, ?_, h, hf, ?_⟩
  · rw [h]
    exact ⟨rfl, rfl, rfl⟩
  · rw [h]
    exact ⟨rfl, rfl, rfl, rfl, rfl, rfl⟩
  · rw [h]
    exact ⟨rfl, rfl, rfl, rfl, rfl, rfl⟩
  · intro g
    exact hf g _

/-- C12, as stated, fails in its last part: for the surface point at the origin with normal
`(0,1,0)` and a white light straight above it at distance 1, the attenuated diffuse term is
`1/(1 + 0.09 + 0.032) = 500/561 = 0.89126...` per channel, which is not within half a unit
of the fourth decimal of `0.8928`. -/
theorem attenuated_diffuse_not_8928 :
    Vec3.scaleR (phongDiffuse Real.sqrt (⟨0, 0, 0⟩ : Vec3 ℝ) ⟨0, 1, 0⟩ ⟨0, 1, 0⟩ ⟨1, 1, 1⟩)
        (phongAttenuation (length Real.sqrt ((⟨0, 1, 0⟩ : Vec3 ℝ) - ⟨0, 0, 0⟩))) =
      ⟨500 / 561, 500 / 561, 500 / 561⟩ ∧
    ¬ (|(500 / 561 : ℝ) - 0.8928| ≤ 0.00005) := by
  have hL : phongLightDir Real.sqrt (⟨0, 0, 0⟩ : Vec3 ℝ) ⟨0, 1, 0⟩ = ⟨0, 1, 0⟩ := by
    ext <;> simp only [phongLightDir, normalize, length, dot, vec3_sub_x, vec3_sub_y,
      vec3_sub_z] <;> norm_num
  have hd : length Real.sqrt ((⟨0, 1, 0⟩ : Vec3 ℝ) - ⟨0, 0, 0⟩) = 1 := by
    simp only [length, dot, vec3_sub_x, vec3_sub_y, vec3_sub_z]
    norm_num
  constructor
  · ext <;> simp only [phongDiffuse, phongDiff, phongAttenuation, phongAttenuationDenominator,
      hL, hd, Vec3.scale, Vec3.scaleR, dot] <;> norm_num
  · rw [abs_le]
    norm_num

/-- C12, amended: for the surface point at the origin with normal `(0,1,0)` and a light of
colour `(1,1,1)` straight above it at distance 1, the diffuse factor is 1, the attenuation
is `1/(1 + 0.09 + 0.032)`, and the attenuated diffuse term is `1/(1 + 0.09 + 0.032)` per
channel, which is `500/561` and rounds to `0.8913` at four decimal places. -/
theorem attenuated_diffuse_overhead :
    phongDiff Real.sqrt (⟨0, 0, 0⟩ : Vec3 ℝ) ⟨0, 1, 0⟩ ⟨0, 1, 0⟩ = 1 ∧
    phongAttenuation (length Real.sqrt ((⟨0, 1, 0⟩ : Vec3 ℝ) - ⟨0, 0, 0⟩)) =
      1 / (1 + 0.09 + 0.032) ∧
    Vec3.scaleR (phongDiffuse Real.sqrt (⟨0, 0, 0⟩ : Vec3 ℝ) ⟨0, 1, 0⟩ ⟨0, 1, 0⟩ ⟨1, 1, 1⟩)
        (phongAttenuation (length Real.sqrt ((⟨0, 1, 0⟩ : Vec3 ℝ) - ⟨0, 0, 0⟩))) =
      Vec3.splat (1 / (1 + 0.09 + 0.032)) ∧
    (1 / (1 + 0.09 + 0.032) : ℝ) = 500 / 561 ∧
    |(500 / 561 : ℝ) - 0.8913| ≤ 0.00005 := by
  have hL : phongLightDir Real.sqrt (⟨0, 0, 0⟩ : Vec3 ℝ) ⟨0, 1, 0⟩ = ⟨0, 1, 0⟩ := by
    ext <;> simp only [phongLightDir, normalize, length, dot, vec3_sub_x, vec3_sub_y,
      vec3_sub_z] <;> norm_num
  have hd : length Real.sqrt ((⟨0, 1, 0⟩ : Vec3 ℝ) - ⟨0, 0, 0⟩) = 1 := by
    simp only [length, dot, vec3_sub_x, vec3_sub_y, vec3_sub_z]
    norm_num
  refine ⟨?_, ?_, ?_, by norm_num, ?_⟩
  · simp only [phongDiff, hL, dot]
    norm_num
  · simp only [phongAttenuation, phongAttenuationDenominator, hd]
    norm_num
  · ext <;> simp only [phongDiffuse, phongDiff, phongAttenuation, phongAttenuationDenominator,
      hL, hd, Vec3.scale, Vec3.scaleR, Vec3.splat, dot] <;> norm_num
  · rw [abs_le]
    constructor <;> norm_num

/-- C13: with a model matrix of non-zero determinant whose bottom row starts `0, 0, 0` (as
the bottom row `(0,0,0,1)` of an affine matrix does), a normal `n` and a surface tangent `t`
with `dot(n, t) = 0`: the world positions that the Phong vertex shader writes to `FragPos`
for the surface points `aPos + t` and `aPos` differ by the transformed tangent
`mat3(model) * t`; the `Normal` the shader writes is `mat3(transpose(inverse(model))) * n`
and is perpendicular to that difference; the Gouraud vertex shader runs its light loop at
the same world position with the normalised vector `mat3(transpose(inverse(model))) * n`,
which is perpendicular to the transformed tangent as well. -/
theorem normal_matrix_keeps_perpendicular (sqrt : α → α) (u : Uniforms α)
    (hdet : u.model.det ≠ 0)
    (h30 : u.model 3 0 = 0) (h31 : u.model 3 1 = 0) (h32 : u.model 3 2 = 0)
    (aPos n t : Vec3 α) (aTexCoord : Vec2 α) (hnt : dot n t = 0) :
    ((phongVertex u (aPos + t) n aTexCoord).FragPos - (phongVertex u aPos n aTexCoord).FragPos =
        Mat3.mulVec3 (mat3 u.model) t ∧
      (phongVertex u aPos n aTexCoord).Normal =
        Mat3.mulVec3 (mat3 (transpose (inverse u.model))) n ∧
      dot (phongVertex u aPos n aTexCoord).Normal
        ((phongVertex u (aPos + t) n aTexCoord).FragPos -
          (phongVertex u aPos n aTexCoord).FragPos) = 0) ∧
    (gouraudVertex sqrt u aPos n aTexCoord =
        (gouraudLoop sqrt u (vertexWorldPos u aPos) (normalize sqrt (vertexWorldNormal u n))
          (normalize sqrt (u.viewPos - vertexWorldPos u aPos)) u.objectColor
          (Vec3.splat 0.05 * u.objectColor)).map
          (fun result =>
            { litColor := result
              TexCoord := aTexCoord * u.uvScale
              gl_Position :=
                Mat4.mulVec4 (u.projection * u.view * u.model) (Vec4.ofVec3 aPos 1) }) ∧
      vertexWorldNormal u n = Mat3.mulVec3 (mat3 (transpose (inverse u.model))) n ∧
      vertexWorldPos u (aPos + t) - vertexWorldPos u aPos = Mat3.mulVec3 (mat3 u.model) t ∧
      dot (vertexWorldNormal u n) (vertexWorldPos u (aPos + t) - vertexWorldPos u aPos) = 0 ∧
      dot (normalize sqrt (vertexWorldNormal u n))
        (vertexWorldPos u (aPos + t) - vertexWorldPos u aPos) = 0) := by
  have hd := vertexWorldPos_add u aPos t
  have hz : dot (vertexWorldNormal u n) (vertexWorldPos u (aPos + t) - vertexWorldPos u aPos)
      = 0 := by
    rw [hd]
    exact (normalMatrix_dot u.model hdet h30 h31 h32 n t).trans hnt
  exact ⟨⟨hd, rfl, hz⟩, rfl, rfl, hd, hz, dot_normalize_eq_zero sqrt _ _ hz⟩

/-- Witness for C13: the model matrix `scaledModel` in the uniforms of the scene, the point
`(1,1,1)`, normal `(1,2,0)` and tangent `(2,-1,0)`, over the rationals with the square root
replaced by the identity. -/
theorem normal_matrix_keeps_perpendicular_witness :
    ({ sceneUniforms ℚ 6 with model := scaledModel ℚ } : Uniforms ℚ).model.det ≠ 0 ∧
    scaledModel ℚ 3 0 = 0 ∧ scaledModel ℚ 3 1 = 0 ∧ scaledModel ℚ 3 2 = 0 ∧
    dot (⟨1, 2, 0⟩ : Vec3 ℚ) ⟨2, -1, 0⟩ = 0 ∧
    (phongVertex { sceneUniforms ℚ 6 with model := scaledModel ℚ } ⟨1, 1, 1⟩ ⟨1, 2, 0⟩
      ⟨0, 0⟩).Normal = Mat3.mulVec3 (mat3 (transpose (inverse (scaledModel ℚ)))) ⟨1, 2, 0⟩ ∧
    dot (phongVertex { sceneUniforms ℚ 6 with model := scaledModel ℚ } ⟨1, 1, 1⟩ ⟨1, 2, 0⟩
        ⟨0, 0⟩).Normal
      ((phongVertex { sceneUniforms ℚ 6 with model := scaledModel ℚ }
          ((⟨1, 1, 1⟩ : Vec3 ℚ) + ⟨2, -1, 0⟩) ⟨1, 2, 0⟩ ⟨0, 0⟩).FragPos -
        (phongVertex { sceneUniforms ℚ 6 with model := scaledModel ℚ } ⟨1, 1, 1⟩ ⟨1, 2, 0⟩
          ⟨0, 0⟩).FragPos) = 0 ∧
    dot (normalize (fun x => x)
        (vertexWorldNormal { sceneUniforms ℚ 6 with model := scaledModel ℚ } ⟨1, 2, 0⟩))
      (vertexWorldPos { sceneUniforms ℚ 6 with model := scaledModel ℚ }
          ((⟨1, 1, 1⟩ : Vec3 ℚ) + ⟨2, -1, 0⟩) -
        vertexWorldPos { sceneUniforms ℚ 6 with model := scaledModel ℚ } ⟨1, 1, 1⟩) = 0 :=
  have hdet : ({ sceneUniforms ℚ 6 with model := scaledModel ℚ } : Uniforms ℚ).model.det ≠ 0 := by
    show (scaledModel ℚ).det ≠ 0
    rw [scaledModel_det]
    norm_num
  have h30 : scaledModel ℚ 3 0 = 0 := by simp [scaledModel, Matrix.vecHead, Matrix.vecTail]
  have h31 : scaledModel ℚ 3 1 = 0 := by simp [scaledModel, Matrix.vecHead, Matrix.vecTail]
  have h32 : scaledModel ℚ 3 2 = 0 := by simp [scaledModel, Matrix.vecHead, Matrix.vecTail]
  have hnt : dot (⟨1, 2, 0⟩ : Vec3 ℚ) ⟨2, -1, 0⟩ = 0 := by norm_num [dot]
  have h := normal_matrix_keeps_perpendicular (fun x => x)
    { sceneUniforms ℚ 6 with model := scaledModel ℚ } hdet h30 h31 h32 ⟨1, 1, 1⟩ ⟨1, 2, 0⟩
    ⟨2, -1, 0⟩ ⟨0, 0⟩ hnt
  ⟨hdet, h30, h31, h32, hnt, h.1.2.1, h.1.2.2, h.2.2.2.2.2⟩

/-- C14, evaluated on the code.  With two normals in `attrib.normals`, the out-of-range
`normal_index` 1431655766 passes the bounds test, because `3 * 1431655766 + 2` wraps to 4 in
`int`, and the vertex gets the floats at positions 2, 3, 4 of the array instead of `(0,1,0)`;
the out-of-range `normal_index` 1431655765 passes the test too (`3 * 1431655765 + 2` wraps
to 1) and the read `attrib.normals[3 * 1431655765 + 0]`, at index `-1`, is out of bounds.
A negative index and a small out-of-range index do get `(0,1,0)`. -/
theorem loadOBJShape_normal_index_overflow :
    emitNormal (⟨[], [10, 11, 12, 13, 14, 15], []⟩ : attrib_t ℚ) ⟨0, 1431655766, 0⟩ =
      some [12, 13, 14] ∧
    emitNormal (⟨[], [10, 11, 12, 13, 14, 15], []⟩ : attrib_t ℚ) ⟨0, 1431655765, 0⟩ = none ∧
    emitNormal (⟨[], [10, 11, 12, 13, 14, 15], []⟩ : attrib_t ℚ) ⟨0, -1, 0⟩ = some [0, 1, 0] ∧
    emitNormal (⟨[], [10, 11, 12, 13, 14, 15], []⟩ : attrib_t ℚ) ⟨0, 2, 0⟩ = some [0, 1, 0] ∧
    interleave (⟨[], [10, 11, 12, 13, 14, 15], []⟩ : attrib_t ℚ) [⟨0, 1431655766, 0⟩] =
      some ([0, 0, 0, 12, 13, 14, 0, 0], [0]) := by
  have e1 : toSizeT (intMulAdd 3 1431655766 2) = 4 := by decide
  have e2 : toSizeT (intMulAdd 3 1431655766 0) = 2 := by decide
  have e3 : toSizeT (intMulAdd 3 1431655766 1) = 3 := by decide
  have f1 : toSizeT (intMulAdd 3 1431655765 2) = 1 := by decide
  have f2 : toSizeT (intMulAdd 3 1431655765 0) = 18446744073709551615 := by decide
  have g1 : toSizeT (intMulAdd 3 2 2) = 8 := by decide
  have h1 : emitNormal (⟨[], [10, 11, 12, 13, 14, 15], []⟩ : attrib_t ℚ) ⟨0, 1431655766, 0⟩ =
      some [12, 13, 14] := by
    simp [emitNormal, readAt, e1, e2, e3]
  refine ⟨h1, ?_, ?_, ?_, ?_⟩
  · simp [emitNormal, readAt, f1, f2]
  · simp [emitNormal]
  · simp [emitNormal, g1]
  · have hp : emitPosition (⟨[], [10, 11, 12, 13, 14, 15], []⟩ : attrib_t ℚ)
        ⟨0, 1431655766, 0⟩ = some [0, 0, 0] := by
      simp [emitPosition]
    have ht : emitTexcoord (⟨[], [10, 11, 12, 13, 14, 15], []⟩ : attrib_t ℚ)
        ⟨0, 1431655766, 0⟩ = some [0, 0] := by
      simp [emitTexcoord]
    simp [interleave, emitVertex, h1, hp, ht]


/-- C15: for bulb lists of equal length below `2^31`, as the set-up of `main` builds them,
the `numLights` value uploaded is `min(bulbPositions.size(), 6)`, so `0 ≤ numLights ≤ 6`;
every index `i < numLights` is in bounds of `bulbPositions`, of `bulbColors` and of the six
shader slots; the upload loop reads no entry out of bounds and uploads exactly
`lightPos[i]`, `lightColor[i]` for `i < numLights` followed by `numLights`; and a shader run
with that `numLights` reads no slot out of bounds. -/
theorem numLights_upload_in_bounds (sqrt : α → α) (p : Nat)
    (bulbPositions bulbColors : List (Vec3 α))
    (hlen : bulbColors.length = bulbPositions.length)
    (hsize : bulbPositions.length < 2 ^ 31) :
    numToSend bulbPositions = min (bulbPositions.length : Int) 6 ∧
    (0 ≤ numToSend bulbPositions ∧ numToSend bulbPositions ≤ 6) ∧
    (∀ i : Nat, (i : Int) < numToSend bulbPositions →
      i < bulbPositions.length ∧ i < bulbColors.length ∧ i < NUM_LIGHTS) ∧
    uploadLights p bulbPositions bulbColors =
      some (((List.range (min bulbPositions.length 6)).map
          (lightUploads p bulbPositions bulbColors)).flatten ++
        [GLCall.uniform p "numLights"
          (UniformValue.int (min (bulbPositions.length : Int) 6))]) ∧
    (∀ (u : Uniforms α) (FragPos Normal aPos aNormal : Vec3 α) (TexCoord : Vec2 α),
      u.numLights = numToSend bulbPositions →
      (phongFragment sqrt u FragPos Normal TexCoord).isSome = true ∧
      (gouraudVertex sqrt u aPos aNormal TexCoord).isSome = true) := by
  have hn := numToSend_eq bulbPositions hsize
  refine ⟨hn, ?_, ?_, uploadLights_eq p bulbPositions bulbColors hlen hsize, ?_⟩
  · rw [hn]
    omega
  · intro i hi
    rw [hn] at hi
    refine ⟨by omega, by omega, ?_⟩
    show i < 6
    omega
  · intro u FragPos Normal aPos aNormal TexCoord hu
    have h6 : u.numLights ≤ 6 := by
      rw [hu, hn]
      omega
    constructor
    · simp only [phongFragment, Option.isSome_map']
      exact phongLoop_isSome sqrt u _ _ _ _ _ h6
    · simp only [gouraudVertex, gouraudLoop_eq_phongLoop, Option.isSome_map']
      exact phongLoop_isSome sqrt u _ _ _ _ _ h6

/-- Witness for C15: the bulb lists that `main` sets up, over the reals; `numLights`
is 6. -/
theorem numLights_upload_in_bounds_witness :
    (bulbSetup ℝ).2.length = (bulbSetup ℝ).1.length ∧
    (bulbSetup ℝ).1.length < 2 ^ 31 ∧
    numToSend (bulbSetup ℝ).1 = 6 := by
  have h1 := (bulbSetup_length ℝ).1
  have h2 := (bulbSetup_length ℝ).2
  have hlen : (bulbSetup ℝ).2.length = (bulbSetup ℝ).1.length := by
    rw [h1, h2]
  have hsize : (bulbSetup ℝ).1.length < 2 ^ 31 := by
    rw [h1]
    norm_num
  refine ⟨hlen, hsize, ?_⟩
  rw [(numLights_upload_in_bounds Real.sqrt 0 (bulbSetup ℝ).1 (bulbSetup ℝ).2
    hlen hsize).1, h1]
  rfl

/-- C16: in vertex mode the texture never enters the lighting sum.  For a textured surface
with `numLights ≤ 6` the Gouraud vertex stage does not read the texture (any other sampler
gives the same outputs), its litColor is `objectColor * (0.05 + sum of the active lights'
contributions)`, and the Gouraud fragment stage writes `vec4(textureSample * litColor, 1)`
for whatever interpolated litColor it receives. -/
theorem gouraud_texture_after_lighting (sqrt : α → α) (u : Uniforms α)
    (aPos aNormal litColor : Vec3 α) (aTexCoord TexCoord : Vec2 α)
    (otherSampler : Vec2 α → Vec4 α) (hT : u.hasTexture = true) (h6 : u.numLights ≤ 6) :
    gouraudVertex sqrt { u with textureSampler := otherSampler } aPos aNormal aTexCoord =
      gouraudVertex sqrt u aPos aNormal aTexCoord ∧
    (gouraudVertex sqrt u aPos aNormal aTexCoord).map GouraudVaryings.litColor =
      some (u.objectColor * (Vec3.splat 0.05 + activeLightSum
        (fun i => gouraudLightContrib sqrt (vertexWorldPos u aPos)
          (normalize sqrt (vertexWorldNormal u aNormal))
          (normalize sqrt (u.viewPos - vertexWorldPos u aPos))
          (u.lightPos i) (u.lightColor i)) u.numLights)) ∧
    gouraudFragment u litColor TexCoord =
      Vec4.ofVec3 ((u.textureSampler TexCoord).rgb * litColor) 1 := by
  refine ⟨rfl, gouraudVertex_litColor_closed sqrt u aPos aNormal aTexCoord h6, ?_⟩
  simp only [gouraudFragment, hT, if_true]

/-- Witness for C16: the one-light scene with a textured surface of `objectColor`
`(1/2, 1/2, 1/2)`, over the reals. -/
theorem gouraud_texture_after_lighting_witness :
    (oneLightUniforms ℝ ⟨0, 1, 0⟩ ⟨1, 1, 1⟩ ⟨0, 1, 0⟩ ⟨1 / 2, 1 / 2, 1 / 2⟩ true).hasTexture
      = true ∧
    (oneLightUniforms ℝ ⟨0, 1, 0⟩ ⟨1, 1, 1⟩ ⟨0, 1, 0⟩ ⟨1 / 2, 1 / 2, 1 / 2⟩ true).numLights
      ≤ 6 ∧
    gouraudFragment
        (oneLightUniforms ℝ ⟨0, 1, 0⟩ ⟨1, 1, 1⟩ ⟨0, 1, 0⟩ ⟨1 / 2, 1 / 2, 1 / 2⟩ true)
        ⟨1 / 4, 1 / 4, 1 / 4⟩ ⟨0, 0⟩ =
      Vec4.ofVec3
        (((oneLightUniforms ℝ ⟨0, 1, 0⟩ ⟨1, 1, 1⟩ ⟨0, 1, 0⟩ ⟨1 / 2, 1 / 2, 1 / 2⟩
          true).textureSampler ⟨0, 0⟩).rgb * ⟨1 / 4, 1 / 4, 1 / 4⟩) 1 :=
  have h6 : (oneLightUniforms ℝ ⟨0, 1, 0⟩ ⟨1, 1, 1⟩ ⟨0, 1, 0⟩ ⟨1 / 2, 1 / 2, 1 / 2⟩
      true).numLights ≤ 6 := by
    simp [oneLightUniforms]
  ⟨rfl, h6, (gouraud_texture_after_lighting Real.sqrt
    (oneLightUniforms ℝ ⟨0, 1, 0⟩ ⟨1, 1, 1⟩ ⟨0, 1, 0⟩ ⟨1 / 2, 1 / 2, 1 / 2⟩ true)
    ⟨0, 0, 0⟩ ⟨0, 1, 0⟩ ⟨1 / 4, 1 / 4, 1 / 4⟩ ⟨0, 0⟩ ⟨0, 0⟩ (fun _ => ⟨0, 0, 0, 1⟩) rfl h6).2.2⟩


/-- C17: with bulb lists of equal length below `2^31`, as the set-up of `main` builds them,
an iteration of the render loop selects its program once, in the toggle step, and then
issues `glClearColor`, `glClear`, `glUseProgram(activeProgram)` and after them only calls
that are not `glUseProgram` and that look their uniform locations up in that same program,
all of `drawScene` included.  Hence, whatever program was in use before the iteration,
every uniform upload and every draw call of the iteration takes effect with the selected
program in use, and the state the iteration leaves has that program active. -/
theorem program_fixed_within_iteration (sqrt : α → α)
    (getUniformLocation : Nat → String → Int) (keys : Keys) (currentFrame : α)
    (s : AppState α) (cur : Option Nat)
    (hlen : s.bulbColors.length = s.bulbPositions.length)
    (hsize : s.bulbPositions.length < 2 ^ 31) :
    ∃ (t : AppState α) (rest : List (GLCall α)),
      mainLoopIteration sqrt getUniformLocation keys currentFrame s =
        some (t, GLCall.clearColor 0.1 0.1 0.1 1 :: GLCall.clear ::
          GLCall.useProgram t.activeProgram :: rest) ∧
      t.activeProgram =
        (if keys.key2 then s.gouraudProgram
         else if keys.key1 then s.phongProgram else s.activeProgram) ∧
      (∀ c ∈ rest, c.isUseProgram = false ∧
        ∀ q, c.lookupProgram = some q → q = t.activeProgram) ∧
      (∀ x ∈ programInUse cur (GLCall.clearColor 0.1 0.1 0.1 1 :: GLCall.clear ::
          GLCall.useProgram t.activeProgram :: rest),
        x.1.needsProgram = true → x.2 = some t.activeProgram) := by
  have hp := processInput_programs sqrt keys
    { s with deltaTime := currentFrame - s.lastFrame, lastFrame := currentFrame }
  have ht := shadingToggle_eq_update keys (processInput sqrt keys
    { s with deltaTime := currentFrame - s.lastFrame, lastFrame := currentFrame })
  have hb1 : (shadingToggle keys (processInput sqrt keys
      { s with deltaTime := currentFrame - s.lastFrame, lastFrame := currentFrame })).bulbPositions
      = s.bulbPositions := by
    rw [ht]
    exact hp.2.2.2.1
  have hb2 : (shadingToggle keys (processInput sqrt keys
      { s with deltaTime := currentFrame - s.lastFrame, lastFrame := currentFrame })).bulbColors
      = s.bulbColors := by
    rw [ht]
    exact hp.2.2.2.2
  obtain ⟨rest, hrest, hstay⟩ := frameCalls_staysOn getUniformLocation
    (shadingToggle keys (processInput sqrt keys
      { s with deltaTime := currentFrame - s.lastFrame, lastFrame := currentFrame })).activeProgram
    (shadingToggle keys (processInput sqrt keys
      { s with deltaTime := currentFrame - s.lastFrame, lastFrame := currentFrame }))
    (by rw [hb1, hb2]; exact hlen) (by rw [hb1]; exact hsize)
  refine ⟨_, rest, by
    simp only [mainLoopIteration, renderFrame, hrest, Option.map_some'], ?_, hstay, ?_⟩
  · rw [shadingToggle_activeProgram, hp.1, hp.2.1, hp.2.2.1]
  · intro x hx hneeds
    simp only [programInUse, List.mem_cons] at hx
    rcases hx with rfl | rfl | rfl | hx
    · simp [GLCall.needsProgram] at hneeds
    · simp [GLCall.needsProgram] at hneeds
    · simp [GLCall.needsProgram] at hneeds
    · exact (programInUse_of_staysOn _ rest hstay x hx).1

/-- Witness for C17: the start-up state with programs 3 (Phong) and 6 (Gouraud) and no
meshes, over the reals, in a frame with key 1 pressed: every call of the frame is issued
with program 3. -/
theorem program_fixed_within_iteration_witness :
    (mainSetup 3 6 1 2 1 2 3 [] [] [] : AppState ℝ).bulbColors.length =
      (mainSetup 3 6 1 2 1 2 3 [] [] [] : AppState ℝ).bulbPositions.length ∧
    (mainSetup 3 6 1 2 1 2 3 [] [] [] : AppState ℝ).bulbPositions.length < 2 ^ 31 ∧
    ∃ (t : AppState ℝ) (rest : List (GLCall ℝ)),
      mainLoopIteration Real.sqrt (fun _ _ => 0)
          ⟨true, false, false, false, false, false, false, false, false⟩ 1
          (mainSetup 3 6 1 2 1 2 3 [] [] [] : AppState ℝ) =
        some (t, GLCall.clearColor 0.1 0.1 0.1 1 :: GLCall.clear ::
          GLCall.useProgram t.activeProgram :: rest) ∧
      t.activeProgram = 3 ∧
      (∀ x ∈ programInUse (some 6) (GLCall.clearColor 0.1 0.1 0.1 1 :: GLCall.clear ::
          GLCall.useProgram t.activeProgram :: rest),
        x.1.needsProgram = true → x.2 = some t.activeProgram) :=
  have hlen : (mainSetup 3 6 1 2 1 2 3 [] [] [] : AppState ℝ).bulbColors.length =
      (mainSetup 3 6 1 2 1 2 3 [] [] [] : AppState ℝ).bulbPositions.length := by
    show (bulbSetup ℝ).2.length = (bulbSetup ℝ).1.length
    rw [(bulbSetup_length ℝ).1, (bulbSetup_length ℝ).2]
  have hsize : (mainSetup 3 6 1 2 1 2 3 [] [] [] : AppState ℝ).bulbPositions.length < 2 ^ 31 := by
    show (bulbSetup ℝ).1.length < 2 ^ 31
    rw [(bulbSetup_length ℝ).1]
    norm_num
  ⟨hlen, hsize,
    match program_fixed_within_iteration Real.sqrt (fun _ _ => 0)
      ⟨true, false, false, false, false, false, false, false, false⟩ 1
      (mainSetup 3 6 1 2 1 2 3 [] [] [] : AppState ℝ) (some 6) hlen hsize with
    | ⟨t, rest, h1, h2, _, h4⟩ => ⟨t, rest, h1, h2, h4⟩⟩

/-- C18: after the toggle step the active program is the Gouraud program if key 2 is
pressed (whether or not key 1 is), the Phong program if key 1 is pressed and key 2 is not,
and the program of the previous frame if neither is pressed; a whole iteration of the render
loop selects the same program.  Hence a state whose active program is one of the two
programs keeps that property, every state reached from the start-up state has it, and over
any run of frames without key 1 or key 2 the active program stays what it was. -/
theorem mode_transition (sqrt : α → α) (getUniformLocation : Nat → String → Int)
    (keys : Keys) (currentFrame : α) (s : AppState α) :
    (shadingToggle keys s).activeProgram =
      (if keys.key2 then s.gouraudProgram
       else if keys.key1 then s.phongProgram else s.activeProgram) ∧
    (∀ r, mainLoopIteration sqrt getUniformLocation keys currentFrame s = some r →
      r.1.activeProgram =
        (if keys.key2 then s.gouraudProgram
         else if keys.key1 then s.phongProgram else s.activeProgram)) ∧
    ((s.activeProgram = s.phongProgram ∨ s.activeProgram = s.gouraudProgram) →
      (shadingToggle keys s).activeProgram = (shadingToggle keys s).phongProgram ∨
      (shadingToggle keys s).activeProgram = (shadingToggle keys s).gouraudProgram) ∧
    (∀ (ks : List Keys) (p g ct ft rv pv lv : Nat) (podiums gbs benches : List (Mesh α)),
      (ks.foldl (fun t k => shadingToggle k t)
          (mainSetup p g ct ft rv pv lv podiums gbs benches)).activeProgram = p ∨
      (ks.foldl (fun t k => shadingToggle k t)
          (mainSetup p g ct ft rv pv lv podiums gbs benches)).activeProgram = g) ∧
    (∀ ks : List Keys, (∀ k ∈ ks, k.key1 = false ∧ k.key2 = false) →
      (ks.foldl (fun t k => shadingToggle k t) s).activeProgram = s.activeProgram) := by
  refine ⟨shadingToggle_activeProgram keys s, ?_, ?_, ?_, ?_⟩
  · intro r hr
    simp only [mainLoopIteration, Option.map_eq_some'] at hr
    obtain ⟨calls, -, rfl⟩ := hr
    simp only [shadingToggle_activeProgram, (processInput_programs sqrt keys _).1,
      (processInput_programs sqrt keys _).2.1, (processInput_programs sqrt keys _).2.2.1]
  · intro h
    rw [(shadingToggle_programs keys s).1, (shadingToggle_programs keys s).2,
      shadingToggle_activeProgram]
    split_ifs
    · exact Or.inr rfl
    · exact Or.inl rfl
    · exact h
  · intro ks p g ct ft rv pv lv podiums gbs benches
    have key : ∀ (l : List Keys) (t : AppState α), t.phongProgram = p → t.gouraudProgram = g →
        (t.activeProgram = p ∨ t.activeProgram = g) →
        ((l.foldl (fun t k => shadingToggle k t) t).activeProgram = p ∨
         (l.foldl (fun t k => shadingToggle k t) t).activeProgram = g) := by
      intro l
      induction l with
      | nil =>
        intro t _ _ h
        exact h
      | cons k l ih =>
        intro t hp hg h
        simp only [List.foldl_cons]
        apply ih
        · rw [(shadingToggle_programs k t).1, hp]
        · rw [(shadingToggle_programs k t).2, hg]
        · rw [shadingToggle_activeProgram, hp, hg]
          split_ifs
          · exact Or.inr rfl
          · exact Or.inl rfl
          · exact h
    exact key ks _ rfl rfl (Or.inr rfl)
  · intro ks
    induction ks generalizing s with
    | nil =>
      intro _
      rfl
    | cons k l ih =>
      intro h
      have hk := h k (List.mem_cons_self k l)
      simp only [List.foldl_cons]
      rw [ih (shadingToggle k s) (fun k2 hk2 => h k2 (List.mem_cons_of_mem k hk2)),
        shadingToggle_activeProgram, hk.1, hk.2]
      simp

/-- Witness for C18: the start-up state with programs 3 (Phong) and 6 (Gouraud), over the
reals; key 1 selects program 3, and two frames without key 1 or key 2 keep the start-up
program. -/
theorem mode_transition_witness :
    ((mainSetup 3 6 1 2 1 2 3 [] [] [] : AppState ℝ).activeProgram =
        (mainSetup 3 6 1 2 1 2 3 [] [] [] : AppState ℝ).phongProgram ∨
      (mainSetup 3 6 1 2 1 2 3 [] [] [] : AppState ℝ).activeProgram =
        (mainSetup 3 6 1 2 1 2 3 [] [] [] : AppState ℝ).gouraudProgram) ∧
    (shadingToggle ⟨true, false, false, false, false, false, false, false, false⟩
      (mainSetup 3 6 1 2 1 2 3 [] [] [] : AppState ℝ)).activeProgram = 3 ∧
    ((shadingToggle ⟨true, false, false, false, false, false, false, false, false⟩
        (mainSetup 3 6 1 2 1 2 3 [] [] [] : AppState ℝ)).activeProgram =
        (shadingToggle ⟨true, false, false, false, false, false, false, false, false⟩
          (mainSetup 3 6 1 2 1 2 3 [] [] [] : AppState ℝ)).phongProgram ∨
      (shadingToggle ⟨true, false, false, false, false, false, false, false, false⟩
        (mainSetup 3 6 1 2 1 2 3 [] [] [] : AppState ℝ)).activeProgram =
        (shadingToggle ⟨true, false, false, false, false, false, false, false, false⟩
          (mainSetup 3 6 1 2 1 2 3 [] [] [] : AppState ℝ)).gouraudProgram) ∧
    (([⟨false, false, true, false, false, false, false, false, false⟩,
        ⟨false, false, false, false, false, false, true, false, false⟩] : List Keys).foldl
      (fun t k => shadingToggle k t)
      (mainSetup 3 6 1 2 1 2 3 [] [] [] : AppState ℝ)).activeProgram = 6 :=
  have h := mode_transition Real.sqrt (fun _ _ => 0)
    ⟨true, false, false, false, false, false, false, false, false⟩ 0
    (mainSetup 3 6 1 2 1 2 3 [] [] [] : AppState ℝ)
  have h0 : (mainSetup 3 6 1 2 1 2 3 [] [] [] : AppState ℝ).activeProgram =
        (mainSetup 3 6 1 2 1 2 3 [] [] [] : AppState ℝ).phongProgram ∨
      (mainSetup 3 6 1 2 1 2 3 [] [] [] : AppState ℝ).activeProgram =
        (mainSetup 3 6 1 2 1 2 3 [] [] [] : AppState ℝ).gouraudProgram := Or.inr rfl
  ⟨h0, h.1, h.2.2.1 h0,
    h.2.2.2.2 [⟨false, false, true, false, false, false, false, false, false⟩,
        ⟨false, false, false, false, false, false, true, false, false⟩]
      (by
        intro k hk
        simp only [List.mem_cons, List.mem_singleton, List.not_mem_nil, or_false] at hk
        rcases hk with rfl | rfl <;> exact ⟨rfl, rfl⟩)⟩

/-- C19, evaluated on the code: `main` enters the render loop with the Gouraud program
active.  With `createPhongProgram()` returning 3 and `createGouraudProgram()` returning 6,
the active program at start-up is 6, not 3, and it is still 6 after a frame in which no key
is pressed. -/
theorem startup_program_is_gouraud :
    (mainSetup 3 6 1 2 1 2 3 [] [] [] : AppState ℚ).activeProgram = 6 ∧
    (mainSetup 3 6 1 2 1 2 3 [] [] [] : AppState ℚ).activeProgram ≠
      (mainSetup 3 6 1 2 1 2 3 [] [] [] : AppState ℚ).phongProgram ∧
    (shadingToggle ⟨false, false, false, false, false, false, false, false, false⟩
      (mainSetup 3 6 1 2 1 2 3 [] [] [] : AppState ℚ)).activeProgram = 6 := by
  refine ⟨rfl, by decide, ?_⟩
  rw [shadingToggle_activeProgram]
  rfl

/-- C20: for an untextured surface with `numLights ≤ 6` the Gouraud program applies the base
colour twice.  The fragment stage writes `vec4(objectColor * litColor, 1)` for whatever
interpolated litColor it receives, litColor at a vertex already is `objectColor * (0.05 + sum
of the active lights' contributions)`, and so the colour written at a vertex is
`objectColor * objectColor * (0.05 + sum of the active lights' contributions)`,
component-wise. -/
theorem gouraud_untextured_color_twice (sqrt : α → α) (u : Uniforms α)
    (aPos aNormal litColor : Vec3 α) (aTexCoord TexCoord : Vec2 α)
    (hT : u.hasTexture = false) (h6 : u.numLights ≤ 6) :
    gouraudFragment u litColor TexCoord = Vec4.ofVec3 (u.objectColor * litColor) 1 ∧
    (gouraudVertex sqrt u aPos aNormal aTexCoord).map GouraudVaryings.litColor =
      some (u.objectColor * (Vec3.splat 0.05 + activeLightSum
        (fun i => gouraudLightContrib sqrt (vertexWorldPos u aPos)
          (normalize sqrt (vertexWorldNormal u aNormal))
          (normalize sqrt (u.viewPos - vertexWorldPos u aPos))
          (u.lightPos i) (u.lightColor i)) u.numLights)) ∧
    gouraudAtVertex sqrt u aPos aNormal aTexCoord =
      some (Vec4.ofVec3 (u.objectColor * u.objectColor * (Vec3.splat 0.05 + activeLightSum
        (fun i => gouraudLightContrib sqrt (vertexWorldPos u aPos)
          (normalize sqrt (vertexWorldNormal u aNormal))
          (normalize sqrt (u.viewPos - vertexWorldPos u aPos))
          (u.lightPos i) (u.lightColor i)) u.numLights)) 1) := by
  have hf : ∀ c : Vec3 α, gouraudFragment u c TexCoord = Vec4.ofVec3 (u.objectColor * c) 1 := by
    intro c
    simp [gouraudFragment, hT]
  have hl := gouraudVertex_litColor_closed sqrt u aPos aNormal aTexCoord h6
  refine ⟨hf litColor, hl, ?_⟩
  cases hv : gouraudVertex sqrt u aPos aNormal aTexCoord with
  | none =>
    rw [hv] at hl
    simp at hl
  | some v =>
    rw [hv] at hl
    simp only [Option.map_some', Option.some.injEq] at hl
    simp only [gouraudAtVertex, hv, Option.map_some', Option.some.injEq, gouraudFragment, hT,
      Bool.false_eq_true, if_false, hl]
    ext <;> simp only [Vec4.ofVec3, vec3_mul_x, vec3_mul_y, vec3_mul_z] <;> ring

/-- Witness for C20: the one-light scene with an untextured surface of colour
`(1/2, 1/2, 1/2)`, over the reals; the fragment stage multiplies the interpolated litColor
`(1/4, 1/4, 1/4)` by the base colour once more. -/
theorem gouraud_untextured_color_twice_witness :
    (oneLightUniforms ℝ ⟨0, 1, 0⟩ ⟨1, 1, 1⟩ ⟨0, 1, 0⟩ ⟨1 / 2, 1 / 2, 1 / 2⟩ false).hasTexture
      = false ∧
    (oneLightUniforms ℝ ⟨0, 1, 0⟩ ⟨1, 1, 1⟩ ⟨0, 1, 0⟩ ⟨1 / 2, 1 / 2, 1 / 2⟩ false).numLights
      ≤ 6 ∧
    gouraudFragment
        (oneLightUniforms ℝ ⟨0, 1, 0⟩ ⟨1, 1, 1⟩ ⟨0, 1, 0⟩ ⟨1 / 2, 1 / 2, 1 / 2⟩ false)
        ⟨1 / 4, 1 / 4, 1 / 4⟩ ⟨0, 0⟩ =
      Vec4.ofVec3 ((⟨1 / 2, 1 / 2, 1 / 2⟩ : Vec3 ℝ) * ⟨1 / 4, 1 / 4, 1 / 4⟩) 1 :=
  have h6 : (oneLightUniforms ℝ ⟨0, 1, 0⟩ ⟨1, 1, 1⟩ ⟨0, 1, 0⟩ ⟨1 / 2, 1 / 2, 1 / 2⟩
      false).numLights ≤ 6 := by
    simp [oneLightUniforms]
  ⟨rfl, h6, (gouraud_untextured_color_twice Real.sqrt
    (oneLightUniforms ℝ ⟨0, 1, 0⟩ ⟨1, 1, 1⟩ ⟨0, 1, 0⟩ ⟨1 / 2, 1 / 2, 1 / 2⟩ false)
    ⟨0, 0, 0⟩ ⟨0, 1, 0⟩ ⟨1 / 4, 1 / 4, 1 / 4⟩ ⟨0, 0⟩ ⟨0, 0⟩ rfl h6).1⟩

/-- C21: the state in which `main` enters the render loop holds exactly six bulbs, in
row-major order (-8,4.85,-6), (0,4.85,-6), (8,4.85,-6), (-8,4.85,6), (0,4.85,6), (8,4.85,6),
each with colour (1,1,0.95); every bulb lies strictly inside the room box
[-10,10] x [0,5] x [-8,8]; `bulbPositions` and `bulbColors` have equal length; and the
legacy `lightPos` is the first bulb. -/
theorem ceiling_bulb_grid (phongProgram gouraudProgram ceilingTexture floorTexture roomVAO
    projectorVAO lightBoxVAO : Nat) (podiums gbs benches : List (Mesh α)) :
    (mainSetup phongProgram gouraudProgram ceilingTexture floorTexture roomVAO projectorVAO
        lightBoxVAO podiums gbs benches).bulbPositions =
      [⟨-8, 4.85, -6⟩, ⟨0, 4.85, -6⟩, ⟨8, 4.85, -6⟩,
       ⟨-8, 4.85, 6⟩, ⟨0, 4.85, 6⟩, ⟨8, 4.85, 6⟩] ∧
    (mainSetup phongProgram gouraudProgram ceilingTexture floorTexture roomVAO projectorVAO
        lightBoxVAO podiums gbs benches).bulbColors = List.replicate 6 ⟨1, 1, 0.95⟩ ∧
    (∀ p ∈ (mainSetup phongProgram gouraudProgram ceilingTexture floorTexture roomVAO
        projectorVAO lightBoxVAO podiums gbs benches).bulbPositions, insideRoom p) ∧
    (mainSetup phongProgram gouraudProgram ceilingTexture floorTexture roomVAO projectorVAO
        lightBoxVAO podiums gbs benches).bulbPositions.length =
      (mainSetup phongProgram gouraudProgram ceilingTexture floorTexture roomVAO projectorVAO
        lightBoxVAO podiums gbs benches).bulbColors.length ∧
    (mainSetup phongProgram gouraudProgram ceilingTexture floorTexture roomVAO projectorVAO
        lightBoxVAO podiums gbs benches).lightPos = ⟨-8, 4.85, -6⟩ := by
  obtain ⟨h1, h2, h3⟩ := mainSetup_bulbs phongProgram gouraudProgram ceilingTexture floorTexture
    roomVAO projectorVAO lightBoxVAO podiums gbs benches
  rw [h1, h2, h3]
  refine ⟨rfl, rfl, ?_, rfl, rfl⟩
  intro p hp
  simp only [List.mem_cons, List.mem_singleton, List.not_mem_nil, or_false] at hp
  rcases hp with rfl | rfl | rfl | rfl | rfl | rfl <;>
    (simp only [insideRoom]; norm_num)

/-- C23: with fewer than `2^31` materials, the texture path `loadOBJModels` computes for a
shape is the one the specification names: the diffuse texture name of the shape's first
material id when that id is in `[0, materials.size())` and the name is not empty, prefixed
with `assets/` exactly when the name contains neither `/` nor `\`, and `defaultTexPath` in
every other case; and `loadOBJModels` calls `loadOBJShape` with that path for each shape. -/
theorem texture_path_resolution (loadTexture : String → Nat)
    (genNames : Nat → Nat × Nat × Nat) (attrib : attrib_t α) (shapes : List shape_t)
    (materials : List material_t) (logicalName defaultTexPath : String)
    (hsize : materials.length < 2 ^ 31) :
    (∀ s : shape_t,
      useTex materials defaultTexPath s = some (texPathSpec materials defaultTexPath s)) ∧
    loadOBJModels loadTexture genNames (some (attrib, shapes, materials)) logicalName
        defaultTexPath =
      (List.zip (List.range shapes.length) shapes).mapM (fun ks =>
        loadOBJShape loadTexture (genNames ks.1).1 (genNames ks.1).2.1 (genNames ks.1).2.2
          attrib ks.2 logicalName (texPathSpec materials defaultTexPath ks.2)) := by
  refine ⟨fun s => useTex_eq materials defaultTexPath s hsize, ?_⟩
  simp only [loadOBJModels, useTex_eq materials defaultTexPath _ hsize]

/-- Witness for C23: two materials, `wood.png` and `tex/board.png`, and shapes that name
the first, the second, none and one out of range. -/
theorem texture_path_resolution_witness :
    ([⟨"wood.png"⟩, ⟨"tex/board.png"⟩] : List material_t).length < 2 ^ 31 ∧
    useTex [⟨"wood.png"⟩, ⟨"tex/board.png"⟩] "assets/d.png" ⟨"a", [], [0, 1]⟩ =
      some "assets/wood.png" ∧
    useTex [⟨"wood.png"⟩, ⟨"tex/board.png"⟩] "assets/d.png" ⟨"b", [], [1]⟩ =
      some "tex/board.png" ∧
    useTex [⟨"wood.png"⟩, ⟨"tex/board.png"⟩] "assets/d.png" ⟨"c", [], []⟩ =
      some "assets/d.png" ∧
    useTex [⟨"wood.png"⟩, ⟨"tex/board.png"⟩] "assets/d.png" ⟨"d", [], [2]⟩ =
      some "assets/d.png" :=
  have hsize : ([⟨"wood.png"⟩, ⟨"tex/board.png"⟩] : List material_t).length < 2 ^ 31 := by
    norm_num
  have hw := (texture_path_resolution (fun _ => 0) (fun _ => (0, 0, 0))
    (⟨[], [], []⟩ : attrib_t ℚ) [] [⟨"wood.png"⟩, ⟨"tex/board.png"⟩] "bench" "assets/d.png"
    hsize).1
  ⟨hsize, (hw ⟨"a", [], [0, 1]⟩).trans (by decide), (hw ⟨"b", [], [1]⟩).trans (by decide),
    (hw ⟨"c", [], []⟩).trans (by decide), (hw ⟨"d", [], [2]⟩).trans (by decide)⟩

/-- C24: `setTexture(enabled, tex, col)` on the program in use always leaves `hasTexture`
equal to `enabled`; it writes `objectColor := col` exactly when not (`enabled` and
`tex != 0`), and otherwise binds `tex` and leaves `objectColor` as it was; in particular
`setTexture(true, 0, col)` leaves `hasTexture = 1` and binds nothing.  Hence in a frame on
program `p` with both room textures loaded the floor and ceiling draws are issued with the
`objectColor` that `p` had before the frame (its initial value on the first frame), every
frame leaves the projector colour (0.92,0.92,0.88) in `objectColor`, and so the floor and
ceiling draws of the next frame on `p` are issued with that colour. -/
theorem setTexture_stale_objectColor (getUniformLocation : Nat → String → Int) (p : Nat)
    (s s2 : AppState α) (σ : GLState α)
    (hlen : s.bulbColors.length = s.bulbPositions.length)
    (hsize : s.bulbPositions.length < 2 ^ 31)
    (hft : s.floorTexture ≠ 0) (hct : s.ceilingTexture ≠ 0)
    (hlen2 : s2.bulbColors.length = s2.bulbPositions.length)
    (hsize2 : s2.bulbPositions.length < 2 ^ 31)
    (hft2 : s2.floorTexture ≠ 0) (hct2 : s2.ceilingTexture ≠ 0) :
    (∀ (enabled : Bool) (tex : Nat) (col : Vec3 α) (τ : GLState α),
      τ.currentProgram = some p →
      (runCalls τ (setTexture p enabled tex col)).current "hasTexture" =
        some (UniformValue.int (if enabled then 1 else 0)) ∧
      (runCalls τ (setTexture p enabled tex col)).current "objectColor" =
        (if enabled && tex != 0 then τ.current "objectColor"
         else some (UniformValue.vec3 col)) ∧
      (runCalls τ (setTexture p enabled tex col)).boundTexture =
        (if enabled && tex != 0 then tex else τ.boundTexture) ∧
      uniformWrites "objectColor" (setTexture p enabled tex col) =
        (if enabled && tex != 0 then [] else [UniformValue.vec3 col])) ∧
    (∀ (col : Vec3 α) (τ : GLState α), τ.currentProgram = some p →
      (runCalls τ (setTexture p true 0 col)).current "hasTexture" =
        some (UniformValue.int 1) ∧
      (runCalls τ (setTexture p true 0 col)).boundTexture = τ.boundTexture) ∧
    (∃ f f2 rest rest2,
      frameCalls getUniformLocation p s = some f ∧
      frameCalls getUniformLocation p s2 = some f2 ∧
      drawRecords σ f =
        { count := 6, byteOffset := 0, program := some p,
          hasTexture := some (UniformValue.int 1), objectColor := σ.uniforms p "objectColor",
          uvScale := some (UniformValue.vec2 8 8), texture := s.floorTexture } ::
        { count := 6, byteOffset := 24, program := some p,
          hasTexture := some (UniformValue.int 1), objectColor := σ.uniforms p "objectColor",
          uvScale := some (UniformValue.vec2 6 6), texture := s.ceilingTexture } :: rest ∧
      (runCalls σ f).uniforms p "objectColor" =
        some (UniformValue.vec3 ⟨0.92, 0.92, 0.88⟩) ∧
      drawRecords (runCalls σ f) f2 =
        { count := 6, byteOffset := 0, program := some p,
          hasTexture := some (UniformValue.int 1),
          objectColor := some (UniformValue.vec3 ⟨0.92, 0.92, 0.88⟩),
          uvScale := some (UniformValue.vec2 8 8), texture := s2.floorTexture } ::
        { count := 6, byteOffset := 24, program := some p,
          hasTexture := some (UniformValue.int 1),
          objectColor := some (UniformValue.vec3 ⟨0.92, 0.92, 0.88⟩),
          uvScale := some (UniformValue.vec2 6 6), texture := s2.ceilingTexture } :: rest2) := by
  refine ⟨?_, ?_, ?_⟩
  · intro enabled tex col τ hτ
    exact (setTexture_effect p enabled tex col τ hτ).2
  · intro col τ hτ
    have h := setTexture_effect p true 0 col τ hτ
    exact ⟨h.2.1, h.2.2.2.1⟩
  · obtain ⟨f, rest, hf, hr, he⟩ := frame_objectColor getUniformLocation p s σ hlen hsize hft hct
    obtain ⟨f2, rest2, hf2, hr2, -⟩ := frame_objectColor getUniformLocation p s2 (runCalls σ f)
      hlen2 hsize2 hft2 hct2
    rw [he] at hr2
    exact ⟨f, f2, rest, rest2, hf, hf2, hr, he, hr2⟩

/-- Witness for C24: two frames of the Gouraud program 6 from the start-up state with floor
texture 2 and ceiling texture 1, over the rationals, from an OpenGL state in which no uniform
was written yet. -/
theorem setTexture_stale_objectColor_witness :
    (mainSetup 3 6 1 2 1 2 3 [] [] [] : AppState ℚ).bulbColors.length =
      (mainSetup 3 6 1 2 1 2 3 [] [] [] : AppState ℚ).bulbPositions.length ∧
    (mainSetup 3 6 1 2 1 2 3 [] [] [] : AppState ℚ).bulbPositions.length < 2 ^ 31 ∧
    (mainSetup 3 6 1 2 1 2 3 [] [] [] : AppState ℚ).floorTexture ≠ 0 ∧
    (mainSetup 3 6 1 2 1 2 3 [] [] [] : AppState ℚ).ceilingTexture ≠ 0 ∧
    ∃ f f2 rest rest2,
      frameCalls (fun _ _ => 0) 6 (mainSetup 3 6 1 2 1 2 3 [] [] [] : AppState ℚ) = some f ∧
      frameCalls (fun _ _ => 0) 6 (mainSetup 3 6 1 2 1 2 3 [] [] [] : AppState ℚ) = some f2 ∧
      drawRecords (⟨none, fun _ _ => none, 0⟩ : GLState ℚ) f =
        { count := 6, byteOffset := 0, program := some 6,
          hasTexture := some (UniformValue.int 1), objectColor := none,
          uvScale := some (UniformValue.vec2 8 8), texture := 2 } ::
        { count := 6, byteOffset := 24, program := some 6,
          hasTexture := some (UniformValue.int 1), objectColor := none,
          uvScale := some (UniformValue.vec2 6 6), texture := 1 } :: rest ∧
      (runCalls (⟨none, fun _ _ => none, 0⟩ : GLState ℚ) f).uniforms 6 "objectColor" =
        some (UniformValue.vec3 ⟨0.92, 0.92, 0.88⟩) ∧
      drawRecords (runCalls (⟨none, fun _ _ => none, 0⟩ : GLState ℚ) f) f2 =
        { count := 6, byteOffset := 0, program := some 6,
          hasTexture := some (UniformValue.int 1),
          objectColor := some (UniformValue.vec3 ⟨0.92, 0.92, 0.88⟩),
          uvScale := some (UniformValue.vec2 8 8), texture := 2 } ::
        { count := 6, byteOffset := 24, program := some 6,
          hasTexture := some (UniformValue.int 1),
          objectColor := some (UniformValue.vec3 ⟨0.92, 0.92, 0.88⟩),
          uvScale := some (UniformValue.vec2 6 6), texture := 1 } :: rest2 :=
  have hl := mainSetup_bulb_lengths 3 6 1 2 1 2 3 ([] : List (Mesh ℚ)) [] []
  have hft : (mainSetup 3 6 1 2 1 2 3 [] [] [] : AppState ℚ).floorTexture ≠ 0 := by
    rw [(mainSetup_textures 3 6 1 2 1 2 3 ([] : List (Mesh ℚ)) [] []).1]
    decide
  have hct : (mainSetup 3 6 1 2 1 2 3 [] [] [] : AppState ℚ).ceilingTexture ≠ 0 := by
    rw [(mainSetup_textures 3 6 1 2 1 2 3 ([] : List (Mesh ℚ)) [] []).2]
    decide
  ⟨hl.1, hl.2, hft, hct,
    (setTexture_stale_objectColor (fun _ _ => 0) 6
      (mainSetup 3 6 1 2 1 2 3 [] [] [] : AppState ℚ)
      (mainSetup 3 6 1 2 1 2 3 [] [] [] : AppState ℚ)
      (⟨none, fun _ _ => none, 0⟩ : GLState ℚ) hl.1 hl.2 hft hct hl.1 hl.2 hft hct).2.2⟩

/-- C25: within one call of `drawScene` the uniform `uvScale` is written exactly twice, (8,8)
and then (6,6); the first draw, the floor, is issued with (8,8), the second, the ceiling, with
(6,6), and every later draw of the call with (6,6) as well. -/
theorem uvScale_written_twice (s : AppState α) (p ct ft : Nat) (σ : GLState α)
    (hlen : s.bulbColors.length = s.bulbPositions.length)
    (hsize : s.bulbPositions.length < 2 ^ 31) (hcur : σ.currentProgram = some p) :
    ∃ l r1 r2 rest, drawScene s p ct ft = some l ∧
      uniformWrites "uvScale" l = [UniformValue.vec2 8 8, UniformValue.vec2 6 6] ∧
      drawRecords σ l = r1 :: r2 :: rest ∧
      (r1.count = 6 ∧ r1.byteOffset = 0 ∧ r1.uvScale = some (UniformValue.vec2 8 8)) ∧
      (r2.count = 6 ∧ r2.byteOffset = 24 ∧ r2.uvScale = some (UniformValue.vec2 6 6)) ∧
      ∀ r ∈ rest, r.uvScale = some (UniformValue.vec2 6 6) := by
  obtain ⟨r1, r2, hA, h1, h2, hσ, hw⟩ := floorCeilingCalls_uvScale s p ct ft σ hcur
  have hk : ∀ c ∈ wallsToMeshesCalls s p ++ projectorSheetCalls p,
      c.isUseProgram = false ∧ c.leaves "uvScale" := by
    intro c hc
    rcases List.mem_append.mp hc with hc | hc
    · exact wallsToMeshesCalls_keeps "uvScale" (by decide) (by decide) (by decide) s p c hc
    · exact projectorSheetCalls_keeps "uvScale" (by decide) (by decide) p c hc
  refine ⟨_, r1, r2, drawRecords (runCalls σ (floorCeilingCalls s p ct ft))
      (wallsToMeshesCalls s p ++ projectorSheetCalls p),
    drawScene_eq_parts s p ct ft hlen hsize, ?_, ?_, h1, h2, ?_⟩
  · rw [uniformWrites_append, hw, uniformWrites_of_leaves "uvScale" _ (fun c hc => (hk c hc).2),
      List.append_nil]
  · rw [drawRecords_append, hA]
    rfl
  · intro r hr
    rw [drawRecords_uvScale _ _ hk r hr, hσ]

/-- Witness for C25: `drawScene` on the Gouraud program 6 in the start-up state, over the
rationals, with program 6 in use. -/
theorem uvScale_written_twice_witness :
    (mainSetup 3 6 1 2 1 2 3 [] [] [] : AppState ℚ).bulbColors.length =
      (mainSetup 3 6 1 2 1 2 3 [] [] [] : AppState ℚ).bulbPositions.length ∧
    (mainSetup 3 6 1 2 1 2 3 [] [] [] : AppState ℚ).bulbPositions.length < 2 ^ 31 ∧
    (⟨some 6, fun _ _ => none, 0⟩ : GLState ℚ).currentProgram = some 6 ∧
    ∃ l r1 r2 rest,
      drawScene (mainSetup 3 6 1 2 1 2 3 [] [] [] : AppState ℚ) 6 1 2 = some l ∧
      uniformWrites "uvScale" l = [UniformValue.vec2 8 8, UniformValue.vec2 6 6] ∧
      drawRecords (⟨some 6, fun _ _ => none, 0⟩ : GLState ℚ) l = r1 :: r2 :: rest ∧
      (r1.count = 6 ∧ r1.byteOffset = 0 ∧ r1.uvScale = some (UniformValue.vec2 8 8)) ∧
      (r2.count = 6 ∧ r2.byteOffset = 24 ∧ r2.uvScale = some (UniformValue.vec2 6 6)) ∧
      ∀ r ∈ rest, r.uvScale = some (UniformValue.vec2 6 6) :=
  have hl := mainSetup_bulb_lengths 3 6 1 2 1 2 3 ([] : List (Mesh ℚ)) [] []
  ⟨hl.1, hl.2, rfl,
    uvScale_written_twice (mainSetup 3 6 1 2 1 2 3 [] [] [] : AppState ℚ) 6 1 2
      (⟨some 6, fun _ _ => none, 0⟩ : GLState ℚ) hl.1 hl.2 rfl⟩

/-- C27: absent integer overflow in the index arithmetic, `loadOBJShape` reads nothing out of
bounds, whatever the attrib arrays and the face indices (negative and too large ones
included): whenever the bounds test of a block passes, the offsets `3 * v + j`, `3 * n + j`
(`j` in 0..2) and `2 * t + j` (`j` in 0..1) it reads lie inside `attrib.vertices`,
`attrib.normals` and `attrib.texcoords`; the offsets `i * 8 + 6` and `i * 8 + 7` of the UV
remap lie inside the interleaved buffer for every `i < vertices.size() / 8`; and so the
interleave loop, the UV remap and `loadOBJShape` as a whole run without a failed read. -/
theorem loadOBJShape_reads_in_bounds (loadTexture : String → Nat) (genVAO genVBO genEBO : Nat)
    (attrib : attrib_t α) (shape : shape_t) (logicalName texPath : String)
    (h : ∀ idx ∈ shape.indices, NoIndexOverflow idx) :
    (∀ idx ∈ shape.indices,
      (idx.vertex_index ≥ 0 ∧
          toSizeT (intMulAdd 3 idx.vertex_index 2) < attrib.vertices.length →
        ∀ j : Int, 0 ≤ j → j ≤ 2 →
          toSizeT (intMulAdd 3 idx.vertex_index j) < attrib.vertices.length) ∧
      (idx.normal_index ≥ 0 ∧
          toSizeT (intMulAdd 3 idx.normal_index 2) < attrib.normals.length →
        ∀ j : Int, 0 ≤ j → j ≤ 2 →
          toSizeT (intMulAdd 3 idx.normal_index j) < attrib.normals.length) ∧
      (idx.texcoord_index ≥ 0 ∧
          toSizeT (intMulAdd 2 idx.texcoord_index 1) < attrib.texcoords.length →
        ∀ j : Int, 0 ≤ j → j ≤ 1 →
          toSizeT (intMulAdd 2 idx.texcoord_index j) < attrib.texcoords.length)) ∧
    (∀ (vertices : List α) (i : Nat), i < vertices.length / 8 →
      i * 8 + 6 < vertices.length ∧ i * 8 + 7 < vertices.length) ∧
    (∀ vertices : List α, (remapUVs vertices).isSome = true) ∧
    (interleave attrib shape.indices).isSome = true ∧
    (loadOBJShape loadTexture genVAO genVBO genEBO attrib shape logicalName
      texPath).isSome = true := by
  refine ⟨?_, ?_, ?_, ?_, ?_⟩
  · intro idx hidx
    obtain ⟨⟨-, hv⟩, ⟨-, hn⟩, ⟨-, ht⟩⟩ := h idx hidx
    refine ⟨?_, ?_, ?_⟩
    · rintro ⟨h0, hlt⟩ j hj0 hj2
      rw [toSizeT_intMulAdd_three _ 2 h0 hv (by norm_num) (le_refl 2)] at hlt
      rw [toSizeT_intMulAdd_three _ j h0 hv hj0 hj2]
      have e2 : (2 : Int).toNat = 2 := rfl
      omega
    · rintro ⟨h0, hlt⟩ j hj0 hj2
      rw [toSizeT_intMulAdd_three _ 2 h0 hn (by norm_num) (le_refl 2)] at hlt
      rw [toSizeT_intMulAdd_three _ j h0 hn hj0 hj2]
      have e2 : (2 : Int).toNat = 2 := rfl
      omega
    · rintro ⟨h0, hlt⟩ j hj0 hj1
      rw [toSizeT_intMulAdd_two _ 1 h0 ht (by norm_num) (le_refl 1)] at hlt
      rw [toSizeT_intMulAdd_two _ j h0 ht hj0 hj1]
      have e1 : (1 : Int).toNat = 1 := rfl
      omega
  · intro vertices i hi
    exact ⟨by omega, by omega⟩
  · intro vertices
    obtain ⟨out, ho, -, -⟩ := remapUVs_eq vertices
    rw [ho]
    rfl
  · rw [interleave_eq attrib shape.indices h]
    rfl
  · by_cases he : shape.indices = []
    · rw [loadOBJShape_empty loadTexture genVAO genVBO genEBO attrib shape logicalName texPath
        he]
      rfl
    · obtain ⟨r, hr, -⟩ := loadOBJShape_eq loadTexture genVAO genVBO genEBO attrib shape
        logicalName texPath he h
      rw [hr]
      rfl

/-- Witness for C27: two vertices, one normal and two texture coordinates, over the
rationals, and three face indices of which some are negative and some too large. -/
theorem loadOBJShape_reads_in_bounds_witness :
    (∀ idx ∈ ([⟨0, -1, 5⟩, ⟨7, 0, -3⟩, ⟨1, 1, 1⟩] : List index_t), NoIndexOverflow idx) ∧
    (interleave (⟨[0, 0, 0, 1, 0, 0], [0, 0, 1], [2, 3, 4, 7]⟩ : attrib_t ℚ)
      [⟨0, -1, 5⟩, ⟨7, 0, -3⟩, ⟨1, 1, 1⟩]).isSome = true ∧
    (loadOBJShape (fun _ => 0) 1 2 3 (⟨[0, 0, 0, 1, 0, 0], [0, 0, 1], [2, 3, 4, 7]⟩ : attrib_t ℚ)
      ⟨"GreenBoard", [⟨0, -1, 5⟩, ⟨7, 0, -3⟩, ⟨1, 1, 1⟩], []⟩ "greenboard"
      "assets/boardt.png").isSome = true :=
  have h : ∀ idx ∈ ([⟨0, -1, 5⟩, ⟨7, 0, -3⟩, ⟨1, 1, 1⟩] : List index_t),
      NoIndexOverflow idx := by
    intro idx hidx
    simp only [List.mem_cons, List.mem_singleton, List.not_mem_nil, or_false] at hidx
    rcases hidx with rfl | rfl | rfl <;> (unfold NoIndexOverflow; norm_num)
  ⟨h,
    (loadOBJShape_reads_in_bounds (fun _ => 0) 1 2 3
      (⟨[0, 0, 0, 1, 0, 0], [0, 0, 1], [2, 3, 4, 7]⟩ : attrib_t ℚ)
      ⟨"GreenBoard", [⟨0, -1, 5⟩, ⟨7, 0, -3⟩, ⟨1, 1, 1⟩], []⟩ "greenboard"
      "assets/boardt.png" h).2.2.2⟩

/-- C28, evaluated on the code.  With two vertices in `attrib.vertices`, the out-of-range
`vertex_index` 1431655766 passes the bounds test, because `3 * 1431655766 + 2` wraps to 4 in
`int`, and the vertex built for it gets the floats at positions 2, 3, 4 of the array as its
position, where the referenced position does not exist and `(0, 0, 0)` is due.  The valid
index 1 gets its position and the small out-of-range index 2 gets `(0, 0, 0)`; in each case
the buffer has eight floats, the index buffer is `[0]` and `indexCount` is 1.  A shape
without indices gets `indexCount = 0` and `VAO = 0` and `drawScene` issues no call for it. -/
theorem loadOBJShape_vertex_index_overflow :
    (loadOBJShape (fun _ => 0) 1 2 3 (⟨[10, 11, 12, 13, 14, 15], [], []⟩ : attrib_t ℚ)
        ⟨"podium", [⟨1431655766, -1, -1⟩], []⟩ "podium" "").map
        (fun r => (r.vertices, r.indices, r.mesh.indexCount)) =
      some ([12, 13, 14, 0, 1, 0, 0, 0], [0], 1) ∧
    referencedPosition (⟨[10, 11, 12, 13, 14, 15], [], []⟩ : attrib_t ℚ)
      ⟨1431655766, -1, -1⟩ = [0, 0, 0] ∧
    (loadOBJShape (fun _ => 0) 1 2 3 (⟨[10, 11, 12, 13, 14, 15], [], []⟩ : attrib_t ℚ)
        ⟨"podium", [⟨1, -1, -1⟩], []⟩ "podium" "").map
        (fun r => (r.vertices, r.indices, r.mesh.indexCount)) =
      some ([13, 14, 15, 0, 1, 0, 0, 0], [0], 1) ∧
    (loadOBJShape (fun _ => 0) 1 2 3 (⟨[10, 11, 12, 13, 14, 15], [], []⟩ : attrib_t ℚ)
        ⟨"podium", [⟨2, -1, -1⟩], []⟩ "podium" "").map
        (fun r => (r.vertices, r.indices, r.mesh.indexCount)) =
      some ([0, 0, 0, 0, 1, 0, 0, 0], [0], 1) ∧
    (loadOBJShape (fun _ => 0) 1 2 3 (⟨[10, 11, 12, 13, 14, 15], [], []⟩ : attrib_t ℚ)
        ⟨"podium", [], []⟩ "podium" "").map
        (fun r => (r.mesh.indexCount, r.mesh.VAO, drawMesh 6 r.mesh)) =
      some (0, 0, []) := by
  have e1 : toSizeT (intMulAdd 3 1431655766 2) = 4 := by decide
  have e2 : toSizeT (intMulAdd 3 1431655766 0) = 2 := by decide
  have e3 : toSizeT (intMulAdd 3 1431655766 1) = 3 := by decide
  have f1 : toSizeT (intMulAdd 3 1 2) = 5 := by decide
  have f2 : toSizeT (intMulAdd 3 1 0) = 3 := by decide
  have f3 : toSizeT (intMulAdd 3 1 1) = 4 := by decide
  have g1 : toSizeT (intMulAdd 3 2 2) = 8 := by decide
  have hn : ∀ v : Int, emitNormal (⟨[10, 11, 12, 13, 14, 15], [], []⟩ : attrib_t ℚ)
      ⟨v, -1, -1⟩ = some [0, 1, 0] := by
    intro v
    simp [emitNormal]
  have ht : ∀ v : Int, emitTexcoord (⟨[10, 11, 12, 13, 14, 15], [], []⟩ : attrib_t ℚ)
      ⟨v, -1, -1⟩ = some [0, 0] := by
    intro v
    simp [emitTexcoord]
  have hp1 : emitPosition (⟨[10, 11, 12, 13, 14, 15], [], []⟩ : attrib_t ℚ)
      ⟨1431655766, -1, -1⟩ = some [12, 13, 14] := by
    simp [emitPosition, readAt, e1, e2, e3]
  have hp2 : emitPosition (⟨[10, 11, 12, 13, 14, 15], [], []⟩ : attrib_t ℚ)
      ⟨1, -1, -1⟩ = some [13, 14, 15] := by
    simp [emitPosition, readAt, f1, f2, f3]
  have hp3 : emitPosition (⟨[10, 11, 12, 13, 14, 15], [], []⟩ : attrib_t ℚ)
      ⟨2, -1, -1⟩ = some [0, 0, 0] := by
    simp [emitPosition, g1]
  have hi1 : interleave (⟨[10, 11, 12, 13, 14, 15], [], []⟩ : attrib_t ℚ)
      [⟨1431655766, -1, -1⟩] = some ([12, 13, 14, 0, 1, 0, 0, 0], [0]) := by
    simp [interleave, emitVertex, hp1, hn, ht]
  have hi2 : interleave (⟨[10, 11, 12, 13, 14, 15], [], []⟩ : attrib_t ℚ)
      [⟨1, -1, -1⟩] = some ([13, 14, 15, 0, 1, 0, 0, 0], [0]) := by
    simp [interleave, emitVertex, hp2, hn, ht]
  have hi3 : interleave (⟨[10, 11, 12, 13, 14, 15], [], []⟩ : attrib_t ℚ)
      [⟨2, -1, -1⟩] = some ([0, 0, 0, 0, 1, 0, 0, 0], [0]) := by
    simp [interleave, emitVertex, hp3, hn, ht]
  refine ⟨?_, ?_, ?_, ?_, ?_⟩
  · simp [loadOBJShape, hi1]
  · simp [referencedPosition]
  · simp [loadOBJShape, hi2]
  · simp [loadOBJShape, hi3]
  · simp [loadOBJShape, drawMesh]

end Claims

end Classroom
